import Mathlib

/-!
A shallow embedding of the Simit front-end type checker
(src/src/frontend/type_checker.cpp) together with theorems about the
claims of the specification.  The embedding models the HIR fragment the
claims are about (expressions, var/const declarations, control-flow
statements, function/extern/element declarations) and the IR type system
they manipulate.  Stateful C++ visitors become explicit state passing:
expression checking reads the context and returns the diagnostics it
would have appended; statement checking threads the whole context.
Internal assertions (iassert) that can fire across the component
boundary are modelled as `Except.error` outcomes, and the out-of-bounds
read in the constant dimension-slack comparison is modelled as its own
error outcome.
-/

namespace Simit

/-- Scalar component kinds of the IR (ir::ScalarType). -/
inductive ScalarKind where
  | int
  | float
  | bool
deriving DecidableEq

/-- Modelled from the spec: an IR index set is a statically known range,
a reference to a named set symbol, or the dynamic wildcard.  The set
variant also carries the element-type name of the referenced set, which
the checker obtains from the set expression stored in ir::IndexSet
(the class itself lives in ir code outside src/). -/
inductive IndexSet where
  | range (n : Nat)
  | setS (name : String) (elemName : String)
  | dynamic
deriving DecidableEq

/-- An index domain is the ordered list of index sets of one tensor
dimension; the head is the outer dimension, the tail the block nesting. -/
abbrev IndexDomain := List IndexSet

/-- Modelled from the spec: the IR value types (ir::Type lives outside
src/).  Tensors carry a component kind, index-domain dimensions and the
column-vector flag; sets carry their element-type name and the element
type names of their endpoint sets; tuples carry their element-type name
and length. -/
inductive IRType where
  | tensor (componentType : ScalarKind) (dims : List IndexDomain)
      (isColumnVector : Bool)
  | elementT (name : String)
  | setT (elementName : String) (endpointElems : List String)
  | tupleT (elementName : String) (length : Nat)
deriving DecidableEq

/-- ir::Int, the scalar integer tensor type. -/
def intType : IRType := .tensor .int [] false

/-- ir::Float, the scalar float tensor type. -/
def floatType : IRType := .tensor .float [] false

/-- ir::Boolean, the scalar boolean tensor type. -/
def booleanType : IRType := .tensor .bool [] false

/-- Modelled from the spec: isScalar — an order-0 tensor. -/
def isScalar : IRType → Bool
  | .tensor _ [] _ => true
  | _ => false

/-- Modelled from the spec: isInt — a scalar integer tensor. -/
def isInt : IRType → Bool
  | .tensor .int [] _ => true
  | _ => false

/-- Modelled from the spec: isBoolean — a scalar boolean tensor. -/
def isBooleanT : IRType → Bool
  | .tensor .bool [] _ => true
  | _ => false

/-- TypeChecker::compareTypes: structural equality, for tensors
including the column-vector flag. -/
def compareTypes (l r : IRType) : Bool := l == r

/-- Modelled from the spec: getOuterDimensions — the first index set of
each dimension (ir::TensorType lives outside src/). -/
def outerDimensions (dims : List IndexDomain) : List IndexSet :=
  dims.map fun d => d.headD (.range 0)

/-- Modelled from the spec: getBlockType — drop the outer index set of
each dimension; if all dimensions are exhausted the block is the scalar
component type (ir::TensorType lives outside src/). -/
def getBlockType (c : ScalarKind) (dims : List IndexDomain) : IRType :=
  let tails := (dims.map List.tail).filter fun t => !t.isEmpty
  .tensor c tails false

/-- A crude printer standing in for TypeChecker::typeString; the exact
message text is not load-bearing for any claim. -/
def scalarString : ScalarKind → String
  | .int => "int"
  | .float => "float"
  | .bool => "bool"

def indexSetString : IndexSet → String
  | .range n => toString n
  | .setS n _ => n
  | .dynamic => "*"

def typeString : IRType → String
  | .tensor c dims cv =>
      "tensor(" ++ scalarString c ++ "," ++
        toString (dims.map (·.map indexSetString)) ++ "," ++ toString cv ++ ")"
  | .elementT n => "element " ++ n
  | .setT n _ => "set of " ++ n
  | .tupleT n k => "tuple(" ++ n ++ "," ++ toString k ++ ")"

def typeStringOpt : Option (List IRType) → String
  | none => "undefined"
  | some [] => "void"
  | some [t] => typeString t
  | some ts => "(" ++ String.intercalate ", " (ts.map typeString) ++ ")"

/-- TypeChecker::reportUndeclared message. -/
def undeclaredMsg (kind ident : String) : String :=
  "undeclared " ++ kind ++ " " ++ ident

/-- TypeChecker::reportMultipleDefs message. -/
def multipleDefsMsg (kind ident : String) : String :=
  "multiple definitions of " ++ kind ++ " " ++ ident

/-- A symbol-table entry: internal::Symbol — an IR variable (here just
its possibly undefined type) plus access flags. -/
structure SymB where
  type : Option IRType
  readable : Bool
  writable : Bool
deriving DecidableEq

/-- A registered function signature (ir::Func): argument and result
variables with their (defined) types, plus the intrinsic kind flag. -/
structure FuncSig where
  name : String
  args : List (String × IRType)
  results : List (String × IRType)
  intrinsic : Bool
deriving DecidableEq

/-- The program context: element-type registry, function registry, the
symbol-table scope stack (innermost scope first) and accumulated
diagnostics. -/
structure Ctx where
  elems : List (String × List (String × IRType))
  funcs : List FuncSig
  scopes : List (List (String × SymB))
  diags : List String
deriving DecidableEq

namespace Ctx

def containsElementType (ctx : Ctx) (name : String) : Bool :=
  ctx.elems.any fun e => e.1 == name

def getElementType (ctx : Ctx) (name : String) : Option (List (String × IRType)) :=
  (ctx.elems.find? fun e => e.1 == name).map (·.2)

def containsFunction (ctx : Ctx) (name : String) : Bool :=
  ctx.funcs.any fun f => f.name == name

def getFunction (ctx : Ctx) (name : String) : Option FuncSig :=
  ctx.funcs.find? fun f => f.name == name

def addFunction (ctx : Ctx) (f : FuncSig) : Ctx :=
  { ctx with funcs := ctx.funcs ++ [f] }

def addElementType (ctx : Ctx) (name : String)
    (fields : List (String × IRType)) : Ctx :=
  { ctx with elems := ctx.elems ++ [(name, fields)] }

/-- hasSymbol: lookup across all scopes, innermost outward. -/
def hasSymbol (ctx : Ctx) (name : String) : Bool :=
  ctx.scopes.any fun sc => sc.any fun e => e.1 == name

/-- hasSymbol with the local-only flag: the innermost scope only. -/
def hasSymbolLocal (ctx : Ctx) (name : String) : Bool :=
  match ctx.scopes with
  | [] => false
  | sc :: _ => sc.any fun e => e.1 == name

/-- getSymbol: first match scanning scopes innermost outward. -/
def getSymbol (ctx : Ctx) (name : String) : Option SymB :=
  match ctx.scopes.find? (fun sc => sc.any fun e => e.1 == name) with
  | none => none
  | some sc => (sc.find? fun e => e.1 == name).map (·.2)

/-- addSymbol: bind in the innermost scope (the stack is never empty
while the checker runs; on an empty stack this is a no-op). -/
def addSymbol (ctx : Ctx) (name : String) (s : SymB) : Ctx :=
  match ctx.scopes with
  | [] => ctx
  | sc :: rest => { ctx with scopes := ((name, s) :: sc) :: rest }

/-- scope(): push a fresh innermost scope. -/
def scope (ctx : Ctx) : Ctx := { ctx with scopes := [] :: ctx.scopes }

/-- unscope(): pop the innermost scope. -/
def unscope (ctx : Ctx) : Ctx := { ctx with scopes := ctx.scopes.tail }

/-- Append diagnostics produced by a read-only sub-check. -/
def addDiags (ctx : Ctx) (ds : List String) : Ctx :=
  { ctx with diags := ctx.diags ++ ds }

def funcNames (ctx : Ctx) : List String := ctx.funcs.map (·.name)

end Ctx

/-! ## The HIR fragment the claims are about -/

/-- HIR index-set syntax: RangeIndexSet, SetIndexSet, DynamicIndexSet. -/
inductive HIndexSet where
  | range (n : Nat)
  | setName (name : String)
  | dynamic
deriving DecidableEq

/-- HIR tensor-type syntax: ScalarType and NDTensorType (whose block is
itself tensor-type syntax, as in the HIR class hierarchy). -/
inductive HTensorType where
  | scalar (k : ScalarKind)
  | ndtensor (indexSets : List HIndexSet) (blockType : HTensorType)
      (columnVector : Bool)
deriving DecidableEq

/-- HIR type syntax: tensor types, ElementType, SetType, TupleType. -/
inductive HType where
  | tensorT (t : HTensorType)
  | elementTy (ident : String)
  | setTy (element : String) (endpoints : List String)
  | tupleTy (element : String) (length : Int)
deriving DecidableEq

/-- Checking an ElementType node: the element kind must be registered. -/
def lowerElement (ctx : Ctx) (ident : String) : List String × Option String :=
  if !ctx.containsElementType ident then
    ([undeclaredMsg "element type" ident], none)
  else ([], some ident)

/-- TypeChecker::visit(RangeIndexSet / SetIndexSet / DynamicIndexSet). -/
def getIndexSet (ctx : Ctx) : HIndexSet → List String × Option IndexSet
  | .range n => ([], some (.range n))
  | .setName name =>
      if !ctx.hasSymbol name then ([undeclaredMsg "set" name], none)
      else
        match ctx.getSymbol name with
        | some ⟨some (.setT en _), _, _⟩ => ([], some (.setS name en))
        | _ => (["index set must be a set, a range, or dynamic (*)"], none)
  | .dynamic => ([], some .dynamic)

/-- The index-set collection loop of visit(NDTensorType): failures are
recorded and skipped, and poison the whole type. -/
def getIndexSetList (ctx : Ctx) :
    List HIndexSet → List String × List IndexSet × Bool
  | [] => ([], [], true)
  | is :: rest =>
      let (ds, r) := getIndexSet ctx is
      let (ds', l, ok) := getIndexSetList ctx rest
      match r with
      | none => (ds ++ ds', l, false)
      | some s => (ds ++ ds', s :: l, ok)

/-- TypeChecker::visit(ScalarType) and visit(NDTensorType). -/
def getTensorIRType (ctx : Ctx) : HTensorType → List String × Option IRType
  | .scalar .int => ([], some intType)
  | .scalar .float => ([], some floatType)
  | .scalar .bool => ([], some booleanType)
  | .ndtensor indexSets blockType columnVector =>
      let (bds, blockIR) := getTensorIRType ctx blockType
      let (ids, indexSetsIR, isOk) := getIndexSetList ctx indexSets
      if !(blockIR.isSome && isOk) then (bds ++ ids, none)
      else
        match blockIR with
        | some (.tensor componentType blockDimensions blockCol) =>
            let ndTensorType : Option (List IndexDomain × Bool) :=
              if indexSetsIR.isEmpty then
                some (blockDimensions, blockCol)
              else if blockDimensions.length == 0 then
                some (indexSetsIR.map fun i => [i], false)
              else if blockDimensions.length == indexSetsIR.length then
                some (List.zipWith (fun i bd => i :: bd) indexSetsIR blockDimensions,
                      false)
              else none
            match ndTensorType with
            | none =>
                (bds ++ ids ++
                  ["blocked tensor type must contain same number of dimensions as its blocks"],
                 none)
            | some (dims, cv) =>
                if columnVector then
                  if dims.length != 1 then
                    (bds ++ ids ++
                      ["tensor type declared with more than one dimension but column vector type must strictly contain one"],
                     none)
                  else (bds ++ ids, some (.tensor componentType dims true))
                else (bds ++ ids, some (.tensor componentType dims cv))
        | _ => (bds ++ ids, none)

/-- The endpoint loop of TypeChecker::visit(SetType), built on
visit(Endpoint): undeclared or non-set endpoints are diagnosed and
poison the type. -/
def endpointList (ctx : Ctx) :
    List String → List String × List String × Bool
  | [] => ([], [], true)
  | name :: rest =>
      let (ds, r, ok) : List String × Option String × Bool :=
        if !ctx.hasSymbol name then ([undeclaredMsg "set" name], none, false)
        else
          match ctx.getSymbol name with
          | some ⟨some (.setT en _), _, _⟩ => ([], some en, true)
          | _ =>
              (["expected endpoint to be of set type but got an endpoint of another type"],
               none, false)
      let (ds', l, ok') := endpointList ctx rest
      match r with
      | none => (ds ++ ds', l, ok && ok')
      | some en => (ds ++ ds', en :: l, ok && ok')

/-- TypeChecker lowering of HIR type syntax to IR types
(visit(ElementType) / visit(SetType) / visit(TupleType) and the tensor
cases). -/
def getIRType (ctx : Ctx) : HType → List String × Option IRType
  | .tensorT t => getTensorIRType ctx t
  | .elementTy ident =>
      let (ds, r) := lowerElement ctx ident
      (ds, r.map IRType.elementT)
  | .setTy element endpoints =>
      let (eds, elemOk) := lowerElement ctx element
      let (pds, elems, ok) := endpointList ctx endpoints
      match elemOk with
      | none => (eds ++ pds, none)
      | some en =>
          if !ok then (eds ++ pds, none)
          else (eds ++ pds, some (.setT en elems))
  | .tupleTy element length =>
      let (eds, elemOk) := lowerElement ctx element
      if length < 1 then
        (eds ++ ["tuple must have length greater than or equal to one"], none)
      else
        match elemOk with
        | none => (eds, none)
        | some en => (eds, some (.tupleT en length.toNat))

/-! ## Dense tensor literals -/

/-- Dense tensor literal HIR: IntVectorLiteral and FloatVectorLiteral
(only the value count matters to shape inference) and NDTensorLiteral,
whose element list is non-empty as produced by the parser. -/
inductive DLit where
  | intVec (len : Nat) (transposed : Bool)
  | floatVec (len : Nat) (transposed : Bool)
  | ndT (first : DLit) (rest : List DLit)

/-- The scalar kind tracked by TypeChecker::DenseTensorType. -/
inductive DKind where
  | int
  | float
deriving DecidableEq

/-- TypeChecker::DenseTensorType; modelled from the spec where the
header is missing from src/: the kind starts undetermined and dimSizes
starts as the single entry 0 (innermost dimension first). -/
structure DenseTensorTypeS where
  kind : Option DKind
  dimSizes : List Nat
deriving DecidableEq

/-- The structured exceptions thrown by dense-literal shape inference. -/
inductive LitErr where
  | typeErr
  | dimErr
deriving DecidableEq

/-- Add to the last entry of dimSizes. -/
def addToLast (l : List Nat) (n : Nat) : List Nat :=
  match l with
  | [] => []
  | [x] => [x + n]
  | x :: rest => x :: addToLast rest n

/-- TypeChecker::DenseTensorType::addIntValues. -/
def addIntValues (t : DenseTensorTypeS) (len : Nat) :
    Except LitErr DenseTensorTypeS :=
  if t.kind == some .float then .error .typeErr
  else .ok ⟨some .int, addToLast t.dimSizes len⟩

/-- TypeChecker::DenseTensorType::addFloatValues. -/
def addFloatValues (t : DenseTensorTypeS) (len : Nat) :
    Except LitErr DenseTensorTypeS :=
  if t.kind == some .int then .error .typeErr
  else .ok ⟨some .float, addToLast t.dimSizes len⟩

/-- Modelled from the spec: DenseTensorType::addDimension (declared in
the missing header) appends a new outermost dimension of size one —
merging each further row then increments it, producing the (M, S...)
shape of the spec. -/
def addDimension (t : DenseTensorTypeS) : DenseTensorTypeS :=
  ⟨t.kind, t.dimSizes ++ [1]⟩

/-- TypeChecker::DenseTensorType::merge. -/
def mergeDT (t other : DenseTensorTypeS) :
    Except LitErr DenseTensorTypeS :=
  if t.kind != other.kind then .error .typeErr
  else if t.dimSizes.length - 1 != other.dimSizes.length then .error .dimErr
  else if t.dimSizes.dropLast != other.dimSizes then .error .dimErr
  else .ok ⟨t.kind, addToLast t.dimSizes 1⟩

mutual

/-- TypeChecker::getDenseTensorType. -/
def getDenseTensorType : DLit → Except LitErr DenseTensorTypeS
  | .intVec len _ => addIntValues ⟨none, [0]⟩ len
  | .floatVec len _ => addFloatValues ⟨none, [0]⟩ len
  | .ndT first rest => do
      let t0 ← getDenseTensorType first
      mergeRows (addDimension t0) rest

/-- The sibling-merging loop of TypeChecker::getDenseTensorType. -/
def mergeRows (t : DenseTensorTypeS) : List DLit → Except LitErr DenseTensorTypeS
  | [] => .ok t
  | l :: ls => do
      let r ← getDenseTensorType l
      let t' ← mergeDT t r
      mergeRows t' ls

end

/-- The transposed flag of a dense literal (false for NDTensorLiteral,
which the parser never marks transposed). -/
def litTransposed : DLit → Bool
  | .intVec _ t => t
  | .floatVec _ t => t
  | .ndT _ _ => false

/-- what() of the structured literal exceptions (stand-in text). -/
def litErrWhat : LitErr → String
  | .typeErr => "cannot mix integer and floating-point values in a tensor literal"
  | .dimErr => "inconsistent dimensions in a tensor literal"

/-- TypeChecker::typeCheckDenseTensorLiteral: convert the inferred
dense type into an IR tensor type, catching the structured exceptions
and turning them into a diagnostic at the literal node. -/
def typeCheckDenseTensorLiteral (lit : DLit) : List String × Option (List IRType) :=
  match getDenseTensorType lit with
  | .ok t =>
      let idoms : List IndexDomain := t.dimSizes.reverse.map fun n => [.range n]
      let elemKind : ScalarKind := if t.kind == some .int then .int else .float
      ([], some [.tensor elemKind idoms (litTransposed lit)])
  | .error e => ([litErrWhat e], none)

/-! ## Expressions -/

/-- Failures that escape the checker other than as diagnostics:
the iassert on entry to visit(CallExpr), the iassert on the declared
type in typeCheckVarOrConstDecl, the out-of-bounds std::equal read in
the constant dimension-slack comparison, and the unchecked dereference
of a failed index type in the tuple-read branch of
visit(TensorReadExpr).  The outOfFuel value is an artifact of the
fuel-indexed embedding below; the exported checker functions always
supply sufficient fuel, so it never occurs in their results. -/
inductive Abort where
  | callUndeclared (name : String)
  | varInitNonTensor (name : String)
  | slackOutOfRange (name : String)
  | tupleIndexNullDeref
  | outOfFuel
deriving DecidableEq

/-- The HIR expression fragment.  A tensor-read index (HIR ReadParam)
is either a Slice, modelled as none, or an ExprParam, modelled as
some expression. -/
inductive Expr where
  | intLit (v : Int)
  | floatLit
  | boolLit (b : Bool)
  | varE (ident : String)
  | eqE (operands : List Expr)
  | notE (op : Expr)
  | andE (lhs rhs : Expr)
  | orE (lhs rhs : Expr)
  | xorE (lhs rhs : Expr)
  | addE (lhs rhs : Expr)
  | subE (lhs rhs : Expr)
  | mulE (lhs rhs : Expr)
  | divE (lhs rhs : Expr)
  | elwiseMulE (lhs rhs : Expr)
  | elwiseDivE (lhs rhs : Expr)
  | negE (op : Expr)
  | transposeE (op : Expr)
  | callE (func : String) (args : List Expr)
  | tensorRead (tensor : Expr) (indices : List (Option Expr))
  | mapE (func : String) (target : String) (partials : List Expr)
  | denseLit (lit : DLit)

/-- A single non-bool tensor operand, as required of numeric operators:
the value of lhsType together with the checks of lines 632-649. -/
def asSingleNumericTensor :
    Option (List IRType) → Option (ScalarKind × List IndexDomain × Bool)
  | some [.tensor c d cv] => if c == .bool then none else some (c, d, cv)
  | _ => none

/-- An operand that is present but fails the numeric-tensor check
(reported); an absent operand is not re-reported. -/
def badNumericOperand (o : Option (List IRType)) : Bool :=
  o.isSome && (asSingleNumericTensor o).isNone

/-- TypeChecker::typeCheckBinaryElwise, applied to the operand types. -/
def typeCheckBinaryElwise (lhsType rhsType : Option (List IRType)) :
    List String × Option (List IRType) :=
  let lds := if badNumericOperand lhsType then
      ["expected left operand of element-wise operation to be a numeric tensor but got an operand of type "
        ++ typeStringOpt lhsType] else []
  let rds := if badNumericOperand rhsType then
      ["expected right operand of element-wise operation to be a numeric tensor but got an operand of type "
        ++ typeStringOpt rhsType] else []
  match asSingleNumericTensor lhsType, asSingleNumericTensor rhsType with
  | some (lc, ld, lcv), some (rc, rd, rcv) =>
      let hasScalarOperand := ld.length == 0 || rd.length == 0
      let compat :=
        if hasScalarOperand then lc == rc
        else compareTypes (.tensor lc ld lcv) (.tensor rc rd rcv)
      if !compat then
        (lds ++ rds ++
          ["cannot perform element-wise operation on tensors of type "
            ++ typeStringOpt lhsType ++ " and type " ++ typeStringOpt rhsType],
         none)
      else
        (lds ++ rds,
         some (if ld.length > 0 then [.tensor lc ld lcv] else [.tensor rc rd rcv]))
  | _, _ => (lds ++ rds, none)

/-- The boolean-operand check of typeCheckBinaryBoolean / visit(NotExpr). -/
def badBooleanOperand : Option (List IRType) → Bool
  | none => false
  | some [t] => !(isBooleanT t)
  | some _ => true

/-- TypeChecker::typeCheckBinaryBoolean, applied to the operand types:
operand failures are diagnosed but a boolean type is published
regardless. -/
def typeCheckBinaryBoolean (lhsType rhsType : Option (List IRType)) :
    List String × Option (List IRType) :=
  ((if badBooleanOperand lhsType then
      ["expected left operand of boolean operation to be a boolean but got an operand of type "
        ++ typeStringOpt lhsType] else []) ++
   (if badBooleanOperand rhsType then
      ["expected right operand of boolean operation to be a boolean but got an operand of type "
        ++ typeStringOpt rhsType] else []),
   some [booleanType])

/-- The operand check of TypeChecker::visit(NotExpr). -/
def visitNotCheck (opndType : Option (List IRType)) : List String :=
  if badBooleanOperand opndType then
    ["expected a boolean operand but got an operand of type "
      ++ typeStringOpt opndType]
  else []

/-- TypeChecker::visit(MulExpr), applied to the operand types. -/
def visitMulTypes (lhsType rhsType : Option (List IRType)) :
    List String × Option (List IRType) :=
  let lds := if badNumericOperand lhsType then
      ["expected left operand of multiplication operation to be a numeric tensor but got an operand of type "
        ++ typeStringOpt lhsType] else []
  let rds := if badNumericOperand rhsType then
      ["expected right operand of multiplication operation to be a numeric tensor but got an operand of type "
        ++ typeStringOpt rhsType] else []
  match asSingleNumericTensor lhsType, asSingleNumericTensor rhsType with
  | some (lc, ld, lcv), some (rc, rd, rcv) =>
      if lc != rc then
        (lds ++ rds ++ ["cannot multiply tensors containing elements of different types"],
         none)
      else if ld.length == 0 || rd.length == 0 then
        (lds ++ rds,
         some [if ld.length > 0 then .tensor lc ld lcv else .tensor rc rd rcv])
      else if ld.length == 1 && rd.length == 1 then
        if lcv && rcv then
          (lds ++ rds ++ ["cannot multiply two column vectors"], none)
        else if !lcv && !rcv then
          (lds ++ rds ++ ["cannot multiply two row vectors"], none)
        else if ld.headD [] != rd.headD [] then
          (lds ++ rds ++ ["cannot multiply vectors of type " ++ typeStringOpt lhsType
            ++ " and type " ++ typeStringOpt rhsType], none)
        else
          let dom : List IndexDomain :=
            if lcv then [ld.headD [], rd.headD []] else []
          (lds ++ rds, some [.tensor lc dom false])
      else if ld.length == 2 && rd.length == 1 then
        if ld.getD 1 [] != rd.headD [] then
          (lds ++ rds ++ ["cannot multiply a matrix of type " ++ typeStringOpt lhsType
            ++ " by a vector of type " ++ typeStringOpt rhsType], none)
        else
          (lds ++ rds ++
            (if !rcv then ["Cannot multiply a matrix by a row vector"] else []),
           some [.tensor lc [ld.headD []] true])
      else if ld.length == 1 && rd.length == 2 then
        if ld.headD [] != rd.headD [] || lc != rc then
          (lds ++ rds ++ ["cannot multiply a vector of type " ++ typeStringOpt lhsType
            ++ " by a matrix of type " ++ typeStringOpt rhsType], none)
        else
          (lds ++ rds ++
            (if lcv then ["Cannot multiply a column vector by a matrix"] else []),
           some [.tensor lc [rd.getD 1 []] false])
      else if ld.length == 2 && rd.length == 2 then
        if ld.getD 1 [] != rd.headD [] then
          (lds ++ rds ++ ["cannot multiply matrices of type " ++ typeStringOpt lhsType
            ++ " and type " ++ typeStringOpt rhsType], none)
        else
          (lds ++ rds, some [.tensor lc [ld.headD [], rd.getD 1 []] false])
      else
        (lds ++ rds ++ ["cannot multiply tensors of order 3 or greater using *"],
         none)
  | _, _ => (lds ++ rds, none)

/-- TypeChecker::visit(DivExpr), applied to the operand types. -/
def visitDivTypes (lhsType rhsType : Option (List IRType)) :
    List String × Option (List IRType) :=
  let lds := if badNumericOperand lhsType then
      ["expected left operand of division operation to be a numeric tensor but got an operand of type "
        ++ typeStringOpt lhsType] else []
  let rds := if badNumericOperand rhsType then
      ["expected right operand of division operation to be a numeric tensor but got an operand of type "
        ++ typeStringOpt rhsType] else []
  match asSingleNumericTensor lhsType, asSingleNumericTensor rhsType with
  | some (lc, ld, lcv), some (rc, rd, rcv) =>
      if lc != rc then
        (lds ++ rds ++ ["cannot divide tensors containing elements of different types"],
         none)
      else if ld.length > 0 && rd.length > 0 then
        (lds ++ rds ++ ["division of a non-scalar tensor of type " ++ typeStringOpt lhsType
          ++ " by a non-scalar tensor of type " ++ typeStringOpt rhsType
          ++ " is not supported"], none)
      else
        (lds ++ rds,
         some (if ld.length > 0 then [.tensor lc ld lcv] else [.tensor rc rd rcv]))
  | _, _ => (lds ++ rds, none)

/-- TypeChecker::visit(NegExpr), applied to the operand type. -/
def visitNegTypes (opndType : Option (List IRType)) :
    List String × Option (List IRType) :=
  match opndType with
  | none => ([], none)
  | some tys =>
      match asSingleNumericTensor (some tys) with
      | none =>
          (["expected operand of tensor negation to be a numeric tensor but got an operand of type "
            ++ typeStringOpt opndType], none)
      | some _ => ([], some tys)

/-- TypeChecker::visit(TransposeExpr), applied to the operand type. -/
def visitTransposeTypes (opndType : Option (List IRType)) :
    List String × Option (List IRType) :=
  match opndType with
  | none => ([], none)
  | some tys =>
      match tys with
      | [.tensor c dims cv] =>
          if dims.length > 2 then
            (["operand of tensor transpose must be a tensor of order 2 or less, but got an operand of type "
              ++ typeStringOpt opndType], none)
          else
            match dims with
            | [] => ([], some tys)
            | [d] => ([], some [.tensor c [d] (!cv)])
            | d0 :: d1 :: _ => ([], some [.tensor c [d1, d0] false])
      | _ =>
          (["operand of tensor transpose must be a tensor of order 2 or less, but got an operand of type "
            ++ typeStringOpt opndType], none)

/-- One step of the operand loop of TypeChecker::visit(EqExpr): given
the representative type so far and the operand type, return the
diagnostics and the updated representative. -/
def eqOperandCheck (repType opndType : Option (List IRType)) :
    List String × Option (List IRType) :=
  match opndType with
  | none => ([], repType)
  | some tys =>
      if !(tys.length == 1 && isScalar (tys.headD intType)) then
        (["comparison operations can only be performed on scalar values, not values of type "
          ++ typeStringOpt opndType], repType)
      else
        match repType with
        | none => ([], some tys)
        | some rep =>
            if !compareTypes (rep.headD intType) (tys.headD intType) then
              (["a value of type " ++ typeStringOpt opndType
                ++ " cannot be compared to a value of type " ++ typeStringOpt repType],
               some rep)
            else ([], some rep)

/-- The per-argument check of TypeChecker::visit(CallExpr). -/
def callArgCheck (p : Option (List IRType) × (String × IRType)) :
    List String :=
  match p.1 with
  | none => []
  | some tys =>
      if tys.length == 0 then ["must pass a non-void value as argument"]
      else if tys.length != 1 then
        ["cannot pass multiple values of types " ++ typeStringOpt p.1
          ++ " as a single argument"]
      else if !compareTypes (tys.headD intType) p.2.2 then
        ["expected argument of type " ++ typeString p.2.2
          ++ " but got an argument of type " ++ typeStringOpt p.1]
      else []

/-- The arity and argument checks of TypeChecker::visit(CallExpr). -/
def callCheckDiags (f : FuncSig) (nargs : Nat)
    (argTys : List (Option (List IRType))) : List String :=
  if nargs != f.args.length then
    if f.intrinsic && f.args.length == 0 then []
    else
      ["passed in " ++ toString nargs ++ " arguments but function "
        ++ f.name ++ " expects " ++ toString f.args.length]
  else ((argTys.zip f.args).map callArgCheck).flatten

/-- Lines 511-524 of visit(MapExpr): the synthesized actuals list.
After appending an element of the target set's element type, the
neighbor tuple is appended only when the target has endpoints AND the
count so far differs from the assembly function's arity. -/
def mapSynthesizedActuals (actuals0 : List (Option IRType)) (en : String)
    (eps : List String) (nargs : Nat) : List (Option IRType) :=
  let a1 := actuals0 ++ [some (.elementT en)]
  if eps.length > 0 && a1.length != nargs then
    a1 ++ [some (.tupleT (eps.headD "") eps.length)]
  else a1

/-- Lines 511-555 of visit(MapExpr): once the assembly function and the
set-typed target are resolved, synthesize the actuals and check arity
and pairwise argument types. -/
def visitMapResolved (f : FuncSig) (en : String) (eps : List String)
    (actuals0 : List (Option IRType)) : List String :=
  let actualsType := mapSynthesizedActuals actuals0 en eps f.args.length
  if actualsType.length != f.args.length then
    ["map operation passes " ++ toString actualsType.length
      ++ " arguments to assembly function but function " ++ f.name
      ++ " expects " ++ toString f.args.length ++ " arguments"]
  else
    ((actualsType.zip f.args).map fun p =>
      match p.1 with
      | none => []
      | some t =>
          if !compareTypes t p.2.2 then
            ["map operation passes argument of type " ++ typeString t
              ++ " to assembly function but function " ++ f.name
              ++ " expects argument of type " ++ typeString p.2.2]
          else []).flatten

/-- The per-index checks of the tensor branch of visit(TensorReadExpr)
for a non-slice index: the index must be a single value, integral for a
range dimension, integral or the set's element type for a set
dimension. -/
def indexCheckMsgs (d : IndexDomain) (ety : Option (List IRType)) :
    List String :=
  match ety with
  | none => []
  | some tys =>
      if tys.length == 0 then ["must pass a non-void value as index"]
      else if tys.length != 1 then
        ["cannot pass multiple values of types " ++ typeStringOpt ety
          ++ " as a single index"]
      else
        match d.headD .dynamic with
        | .range _ =>
            if !isInt (tys.headD floatType) then
              ["expected an integral index but got an index of type "
                ++ typeStringOpt ety]
            else []
        | .setS _ en =>
            if isInt (tys.headD floatType) then []
            else if !compareTypes (.elementT en) (tys.headD floatType) then
              ["expected an integral index or an index of type element "
                ++ en ++ " but got an index of type " ++ typeStringOpt ety]
            else []
        | .dynamic => []

/-- Whether the last read parameter is a slice
(expr->indices.back()->isSlice()). -/
def lastIsSlice (ps : List (Option Expr)) : Bool :=
  match ps.getLast? with
  | some none => true
  | _ => false

/-- The type published by the tensor branch of visit(TensorReadExpr)
once the surviving dimensions are known. -/
def tensorReadPublish (c : ScalarKind) (dims : List IndexDomain)
    (surviving : List IndexDomain) (indices : List (Option Expr)) :
    Option (List IRType) :=
  if surviving.isEmpty then some [getBlockType c dims]
  else some [.tensor c surviving
    (surviving.length == 1 && !(lastIsSlice indices))]

/-- The index check of the tuple branch of visit(TensorReadExpr). -/
def tupleIndexCheckMsgs (indexType : Option (List IRType)) : List String :=
  match indexType with
  | none => []
  | some itys =>
      if itys.length != 1 || !isInt (itys.headD floatType) then
        ["tuple access expects an integral index but got an index of type "
          ++ typeStringOpt indexType]
      else []

mutual

/-- A computable size measure on expressions, used to supply fuel to
the fuel-indexed checker functions. -/
def exprSize : Expr → Nat
  | .intLit _ => 1
  | .floatLit => 1
  | .boolLit _ => 1
  | .varE _ => 1
  | .eqE ops => 1 + exprSizeL ops
  | .notE e => 1 + exprSize e
  | .andE l r => 1 + exprSize l + exprSize r
  | .orE l r => 1 + exprSize l + exprSize r
  | .xorE l r => 1 + exprSize l + exprSize r
  | .addE l r => 1 + exprSize l + exprSize r
  | .subE l r => 1 + exprSize l + exprSize r
  | .mulE l r => 1 + exprSize l + exprSize r
  | .divE l r => 1 + exprSize l + exprSize r
  | .elwiseMulE l r => 1 + exprSize l + exprSize r
  | .elwiseDivE l r => 1 + exprSize l + exprSize r
  | .negE e => 1 + exprSize e
  | .transposeE e => 1 + exprSize e
  | .callE _ args => 1 + exprSizeL args
  | .tensorRead t idx => 1 + exprSize t + exprSizeO idx
  | .mapE _ _ partials => 1 + exprSizeL partials
  | .denseLit _ => 1

def exprSizeL : List Expr → Nat
  | [] => 1
  | e :: rest => 1 + exprSize e + exprSizeL rest

def exprSizeO : List (Option Expr) → Nat
  | [] => 1
  | none :: rest => 1 + exprSizeO rest
  | some e :: rest => 1 + exprSize e + exprSizeO rest

end

mutual

/-- TypeChecker expression inference (the dispatch of inferType),
indexed by fuel so that the recursion is structural over Nat: reads the
context, returns the diagnostics appended and the synthesized type
attribute (none when the attribute is left undefined), or an internal
abort.  The exported inferExpr wrapper supplies sufficient fuel. -/
def inferExprF : Nat → Ctx → Expr → Except Abort (List String × Option (List IRType))
  | 0, _, _ => .error .outOfFuel
  | n + 1, ctx, e =>
      match e with
      | .intLit _ => .ok ([], some [intType])
      | .floatLit => .ok ([], some [floatType])
      | .boolLit _ => .ok ([], some [booleanType])
      | .varE ident =>
          if !ctx.hasSymbol ident then
            .ok ([undeclaredMsg "variable or constant" ident], none)
          else
            match ctx.getSymbol ident with
            | none => .ok ([], none)
            | some sym =>
                let ds := if !sym.readable then [ident ++ " is not readable"] else []
                match sym.type with
                | none => .ok (ds, none)
                | some t => .ok (ds, some [t])
      | .eqE operands => do
          let (ds, _) ← eqLoopF n ctx operands none
          .ok (ds, some [booleanType])
      | .notE op => do
          let (ds, t) ← inferExprF n ctx op
          .ok (ds ++ visitNotCheck t, some [booleanType])
      | .andE l r => do
          let (lds, lt) ← inferExprF n ctx l
          let (rds, rt) ← inferExprF n ctx r
          let (ds, res) := typeCheckBinaryBoolean lt rt
          .ok (lds ++ rds ++ ds, res)
      | .orE l r => do
          let (lds, lt) ← inferExprF n ctx l
          let (rds, rt) ← inferExprF n ctx r
          let (ds, res) := typeCheckBinaryBoolean lt rt
          .ok (lds ++ rds ++ ds, res)
      | .xorE l r => do
          let (lds, lt) ← inferExprF n ctx l
          let (rds, rt) ← inferExprF n ctx r
          let (ds, res) := typeCheckBinaryBoolean lt rt
          .ok (lds ++ rds ++ ds, res)
      | .addE l r => do
          let (lds, lt) ← inferExprF n ctx l
          let (rds, rt) ← inferExprF n ctx r
          let (ds, res) := typeCheckBinaryElwise lt rt
          .ok (lds ++ rds ++ ds, res)
      | .subE l r => do
          let (lds, lt) ← inferExprF n ctx l
          let (rds, rt) ← inferExprF n ctx r
          let (ds, res) := typeCheckBinaryElwise lt rt
          .ok (lds ++ rds ++ ds, res)
      | .elwiseMulE l r => do
          let (lds, lt) ← inferExprF n ctx l
          let (rds, rt) ← inferExprF n ctx r
          let (ds, res) := typeCheckBinaryElwise lt rt
          .ok (lds ++ rds ++ ds, res)
      | .elwiseDivE l r => do
          let (lds, lt) ← inferExprF n ctx l
          let (rds, rt) ← inferExprF n ctx r
          let (ds, res) := typeCheckBinaryElwise lt rt
          .ok (lds ++ rds ++ ds, res)
      | .mulE l r => do
          let (lds, lt) ← inferExprF n ctx l
          let (rds, rt) ← inferExprF n ctx r
          let (ds, res) := visitMulTypes lt rt
          .ok (lds ++ rds ++ ds, res)
      | .divE l r => do
          let (lds, lt) ← inferExprF n ctx l
          let (rds, rt) ← inferExprF n ctx r
          let (ds, res) := visitDivTypes lt rt
          .ok (lds ++ rds ++ ds, res)
      | .negE op => do
          let (ds, t) ← inferExprF n ctx op
          let (nds, res) := visitNegTypes t
          .ok (ds ++ nds, res)
      | .transposeE op => do
          let (ds, t) ← inferExprF n ctx op
          let (tds, res) := visitTransposeTypes t
          .ok (ds ++ tds, res)
      | .callE fname args =>
          match ctx.getFunction fname with
          | none => .error (.callUndeclared fname)
          | some f => do
              let (ads, argTys) ← inferArgListF n ctx args
              .ok (ads ++ callCheckDiags f args.length argTys,
                   some (f.results.map (·.2)))
      | .tensorRead tensor indices =>
          (inferExprF n ctx tensor).bind fun p =>
            match p.2 with
            | none => .ok (p.1, none)
            | some tys =>
                if tys.length != 1 then
                  .ok (p.1 ++ ["can only access elements of a single tensor or tuple"],
                       none)
                else
                  match tys.headD intType with
                  | .tensor c dims _ =>
                      if dims.length != indices.length then
                        .ok (p.1 ++ ["tensor access expected " ++ toString dims.length
                          ++ " indices but got " ++ toString indices.length], none)
                      else
                        (readLoopF n ctx dims indices).bind fun q =>
                          .ok (p.1 ++ q.1, tensorReadPublish c dims q.2 indices)
                  | .tupleT en _ =>
                      match indices with
                      | [none] =>
                          .ok (p.1 ++ ["tuple access expects an integral index"],
                               some [.elementT en])
                      | [some e] =>
                          (inferExprF n ctx e).bind fun q =>
                            match q.2 with
                            | none => .error .tupleIndexNullDeref
                            | some _ =>
                                .ok (p.1 ++ q.1 ++ tupleIndexCheckMsgs q.2,
                                     some [.elementT en])
                      | _ =>
                          .ok (p.1 ++ ["tuple access expects exactly one index but got "
                            ++ toString indices.length], some [.elementT en])
                  | _ =>
                      .ok (p.1 ++ ["cannot access elements from objects of type "
                        ++ typeStringOpt p.2], none)
      | .mapE fname tname partials => do
          let (pds, actuals0) ← mapPartialsLoopF n ctx partials
          let (fds, funcOpt) : List String × Option FuncSig :=
            match ctx.getFunction fname with
            | none => ([undeclaredMsg "function" fname], none)
            | some f => ([], some f)
          let retOpt := funcOpt.map fun f => f.results.map (·.2)
          let (tds, targetOpt) : List String × Option (String × List String) :=
            if !ctx.hasSymbol tname then ([undeclaredMsg "set" tname], none)
            else
              match ctx.getSymbol tname with
              | some ⟨some (.setT en eps), _, _⟩ => ([], some (en, eps))
              | _ => (["map operation can only be applied to sets"], none)
          match funcOpt, targetOpt with
          | some f, some (en, eps) =>
              .ok (pds ++ fds ++ tds ++ visitMapResolved f en eps actuals0, retOpt)
          | _, _ => .ok (pds ++ fds ++ tds, retOpt)
      | .denseLit lit =>
          let (ds, r) := typeCheckDenseTensorLiteral lit
          .ok (ds, r)

/-- The operand loop of TypeChecker::visit(EqExpr), fuel-indexed. -/
def eqLoopF : Nat → Ctx → List Expr → Option (List IRType) →
    Except Abort (List String × Option (List IRType))
  | 0, _, _, _ => .error .outOfFuel
  | _ + 1, _, [], rep => .ok ([], rep)
  | n + 1, ctx, e :: rest, rep => do
      let (eds, et) ← inferExprF n ctx e
      let (cds, rep') := eqOperandCheck rep et
      let (rds, repF) ← eqLoopF n ctx rest rep'
      .ok (eds ++ cds ++ rds, repF)

/-- The argument-inference loop of TypeChecker::visit(CallExpr),
fuel-indexed. -/
def inferArgListF : Nat → Ctx → List Expr →
    Except Abort (List String × List (Option (List IRType)))
  | 0, _, _ => .error .outOfFuel
  | _ + 1, _, [] => .ok ([], [])
  | n + 1, ctx, e :: rest => do
      let (ds, t) ← inferExprF n ctx e
      let (ds', ts) ← inferArgListF n ctx rest
      .ok (ds ++ ds', t :: ts)

/-- The partial-actuals loop of TypeChecker::visit(MapExpr)
(lines 456-476), fuel-indexed. -/
def mapPartialsLoopF : Nat → Ctx → List Expr →
    Except Abort (List String × List (Option IRType))
  | 0, _, _ => .error .outOfFuel
  | _ + 1, _, [] => .ok ([], [])
  | n + 1, ctx, e :: rest => do
      let (ds, t) ← inferExprF n ctx e
      let (cds, entry) : List String × Option IRType :=
        match t with
        | none => ([], none)
        | some tys =>
            if tys.length == 0 then
              (["must pass a non-void value as argument"], none)
            else if tys.length != 1 then
              (["cannot pass multiple values of types " ++ typeStringOpt t
                ++ " as a single argument"], none)
            else ([], some (tys.headD intType))
      let (ds', ts) ← mapPartialsLoopF n ctx rest
      .ok (ds ++ cds ++ ds', entry :: ts)

/-- The per-index loop of the tensor branch of visit(TensorReadExpr),
fuel-indexed: slices push the corresponding dimension on the surviving
list, expression indices are inferred and checked. -/
def readLoopF : Nat → Ctx → List IndexDomain → List (Option Expr) →
    Except Abort (List String × List IndexDomain)
  | 0, _, _, _ => .error .outOfFuel
  | _ + 1, _, _, [] => .ok ([], [])
  | _ + 1, _, [], _ :: _ => .ok ([], [])
  | n + 1, ctx, d :: ds, none :: ps => do
      let (ms, rest) ← readLoopF n ctx ds ps
      .ok (ms, d :: rest)
  | n + 1, ctx, d :: ds, some e :: ps => do
      let (eds, ety) ← inferExprF n ctx e
      let (ms, rest) ← readLoopF n ctx ds ps
      .ok (eds ++ indexCheckMsgs d ety ++ ms, rest)

end

/-- TypeChecker expression inference: the fueled checker with
sufficient fuel. -/
def inferExpr (ctx : Ctx) (e : Expr) :
    Except Abort (List String × Option (List IRType)) :=
  inferExprF (exprSize e + 1) ctx e

/-- The operand loop of TypeChecker::visit(EqExpr). -/
def eqLoop (ctx : Ctx) (es : List Expr) (rep : Option (List IRType)) :
    Except Abort (List String × Option (List IRType)) :=
  eqLoopF (exprSizeL es + 1) ctx es rep

/-- The argument-inference loop of TypeChecker::visit(CallExpr). -/
def inferArgList (ctx : Ctx) (es : List Expr) :
    Except Abort (List String × List (Option (List IRType))) :=
  inferArgListF (exprSizeL es + 1) ctx es

/-- The partial-actuals loop of TypeChecker::visit(MapExpr). -/
def mapPartialsLoop (ctx : Ctx) (es : List Expr) :
    Except Abort (List String × List (Option IRType)) :=
  mapPartialsLoopF (exprSizeL es + 1) ctx es

/-- The per-index loop of the tensor branch of visit(TensorReadExpr). -/
def readLoop (ctx : Ctx) (doms : List IndexDomain) (ps : List (Option Expr)) :
    Except Abort (List String × List IndexDomain) :=
  readLoopF (exprSizeO ps + 1) ctx doms ps

/-! ## Statements and declarations -/

/-- std::equal(varDimsIt, varDims.end(), initDimsIt) on the stripped
outer-dimension lists: the C++ algorithm walks the first range,
dereferencing the second iterator at each step and stopping at the
first mismatch.  When the second list runs out while the first range
still has elements, the iterator is dereferenced past the end of the
vector — undefined behaviour, modelled as none. -/
def stdEqualRes : List IndexSet → List IndexSet → Option Bool
  | [], _ => some true
  | _ :: _, [] => none
  | v :: vs, i :: is => if v != i then some false else stdEqualRes vs is

/-- The leading-dimension skip of typeCheckVarOrConstDecl (lines
1312-1323): advance past outer dimensions equal to ir::IndexSet(1). -/
def dropLeadingUnitDims (l : List IndexSet) : List IndexSet :=
  l.dropWhile fun i => i == .range 1

/-- TypeChecker::typeCheckVarOrConstDecl.  The initializer is inferred
before the symbol is registered (lines 1257-1271); the declared symbol
is read-write for var and read-only for const; the declared-type
iassert and the out-of-bounds std::equal read are modelled as aborts. -/
def typeCheckVarOrConstDecl (ctx : Ctx) (isConst : Bool) (name : String)
    (htype : HType) (initVal : Option Expr) : Except Abort Ctx := do
  let (vds, varType) := getIRType ctx htype
  let ctx := ctx.addDiags vds
  let (ctx, initType) ←
    match initVal with
    | none => pure (ctx, (none : Option (List IRType)))
    | some e => do
        let (eds, t) ← inferExpr ctx e
        pure (ctx.addDiags eds, t)
  if ctx.hasSymbolLocal name &&
     (match ctx.getSymbol name with
      | some ⟨some _, _, _⟩ => true
      | _ => false) then
    pure (ctx.addDiags [multipleDefsMsg "variable or constant" name])
  else
    let ctx := ctx.addSymbol name ⟨varType, true, !isConst⟩
    match varType with
    | none => pure ctx
    | some vt =>
        if (match initType with
            | none => true
            | some tys => tys.length == 1 && compareTypes vt (tys.headD intType)) then
          pure ctx
        else
          let errMsg := "cannot initialize a variable or constant of type "
            ++ typeString vt ++ " with an expression of type "
            ++ typeStringOpt initType
          match vt with
          | .tensor vc vdims _ =>
              match initType with
              | none => pure (ctx.addDiags [errMsg])
              | some tys =>
                  match tys with
                  | [.tensor ic idims _] =>
                      if idims.isEmpty && vc == ic then pure ctx
                      else if isConst &&
                          compareTypes (getBlockType vc vdims) (getBlockType ic idims) then
                        let varDimsR := dropLeadingUnitDims (outerDimensions vdims)
                        let initDimsR := dropLeadingUnitDims (outerDimensions idims)
                        match stdEqualRes varDimsR initDimsR with
                        | none => .error (.slackOutOfRange name)
                        | some true => pure ctx
                        | some false => pure (ctx.addDiags [errMsg])
                      else pure (ctx.addDiags [errMsg])
                  | _ => pure (ctx.addDiags [errMsg])
          | _ => .error (.varInitNonTensor name)

/-- The conditional check of visit(WhileStmt) / visit(IfStmt). -/
def condCheck (condType : Option (List IRType)) : List String :=
  match condType with
  | none => []
  | some tys =>
      if tys.length != 1 || !isBooleanT (tys.headD intType) then
        ["expected a boolean conditional expression but got an expression of type "
          ++ typeStringOpt condType]
      else []

/-- The bound checks of visit(RangeDomain). -/
def rangeBoundCheck (which : String) (t : Option (List IRType)) : List String :=
  match t with
  | none => []
  | some tys =>
      if tys.length != 1 || !isInt (tys.headD floatType) then
        ["expected " ++ which ++ " bound of for-loop range to be integral but got an expression of type "
          ++ typeStringOpt t]
      else []

/-- The tensor check of visit(PrintStmt). -/
def printCheck (t : Option (List IRType)) : List String :=
  match t with
  | none => []
  | some tys =>
      if tys.length != 1 ||
         !(match tys.headD (.elementT "") with
           | .tensor _ _ _ => true
           | _ => false) then
        ["cannot print an expression of type " ++ typeStringOpt t]
      else []

/-- The HIR statement fragment.  A body is a StmtBlock; var and const
declarations share typeCheckVarOrConstDecl; for-loops carry their
range domain inline. -/
inductive Stmt where
  | block (stmts : List Stmt)
  | varDecl (isConst : Bool) (name : String) (htype : HType)
      (initVal : Option Expr)
  | whileS (cond : Expr) (body : Stmt)
  | ifS (cond : Expr) (ifBody : Stmt) (elseBody : Option Stmt)
  | forS (loopVar : String) (lower upper : Expr) (body : Stmt)
  | printS (e : Expr)

mutual

/-- TypeChecker statement checking: visit(VarDecl/ConstDecl/WhileStmt/
IfStmt/ForStmt/PrintStmt) and block traversal, threading the context. -/
def checkStmt (s : Stmt) (ctx : Ctx) : Except Abort Ctx :=
  match s with
  | .block stmts => checkStmtList stmts ctx
  | .varDecl isConst name htype initVal =>
      typeCheckVarOrConstDecl ctx isConst name htype initVal
  | .whileS cond body => do
      let (cds, condType) ← inferExpr ctx cond
      let ctx := ctx.addDiags cds
      let ctx' ← checkStmt body ctx.scope
      pure (ctx'.unscope.addDiags (condCheck condType))
  | .ifS cond ifBody elseBody => do
      let (cds, condType) ← inferExpr ctx cond
      let ctx := ctx.addDiags cds
      let c1 ← checkStmt ifBody ctx.scope
      let c2 := c1.unscope
      let c3 ←
        match elseBody with
        | none => pure c2
        | some eb => do
            let x ← checkStmt eb c2.scope
            pure x.unscope
      pure (c3.addDiags (condCheck condType))
  | .forS loopVar lower upper body => do
      let ctx := ctx.scope
      let (lds, lowerType) ← inferExpr ctx lower
      let (uds, upperType) ← inferExpr ctx upper
      let ctx := ctx.addDiags (lds ++ uds ++
        rangeBoundCheck "lower" lowerType ++ rangeBoundCheck "upper" upperType)
      let ctx := ctx.addSymbol loopVar ⟨some intType, true, false⟩
      let ctx' ← checkStmt body ctx
      pure ctx'.unscope
  | .printS e => do
      let (ds, t) ← inferExpr ctx e
      pure (ctx.addDiags (ds ++ printCheck t))

/-- StmtBlock traversal. -/
def checkStmtList (ss : List Stmt) (ctx : Ctx) : Except Abort Ctx :=
  match ss with
  | [] => pure ctx
  | s :: rest => do
      let ctx' ← checkStmt s ctx
      checkStmtList rest ctx'

end

/-- Top-level HIR declarations: ElementTypeDecl, ExternDecl, FuncDecl. -/
inductive Decl where
  | elementDecl (name : String) (fields : List (String × HType))
  | extDecl (name : String) (htype : HType)
  | funcDecl (name : String) (args : List (String × Bool × HType))
      (results : List (String × HType)) (body : Stmt)

/-- The field-gathering loop of visit(ElementTypeDecl): fields with
undefined types are skipped. -/
def gatherFields (ctx : Ctx) :
    List (String × HType) → List String × List (String × IRType)
  | [] => ([], [])
  | (fn, ft) :: rest =>
      let (ds, t) := getIRType ctx ft
      let (ds', fs) := gatherFields ctx rest
      match t with
      | none => (ds ++ ds', fs)
      | some ty => (ds ++ ds', (fn, ty) :: fs)

/-- The argument loop of visit(FuncDecl): arguments with undefined
types poison registration but are skipped; declared arguments are
readable, and writable only when inout. -/
def funcArgsLoop :
    List (String × Bool × HType) → Ctx → Ctx × List (String × IRType) × Bool
  | [], ctx => (ctx, [], true)
  | (an, inout, aty) :: rest, ctx =>
      let (ds, t) := getIRType ctx aty
      let ctx := ctx.addDiags ds
      match t with
      | none =>
          let (ctx', l, _) := funcArgsLoop rest ctx
          (ctx', l, false)
      | some ty =>
          let ctx := ctx.addSymbol an ⟨some ty, true, inout⟩
          let (ctx', l, ok) := funcArgsLoop rest ctx
          (ctx', (an, ty) :: l, ok)

/-- The result loop of visit(FuncDecl): results are registered with the
default read-write access. -/
def funcResultsLoop :
    List (String × HType) → Ctx → Ctx × List (String × IRType) × Bool
  | [], ctx => (ctx, [], true)
  | (rn, rty) :: rest, ctx =>
      let (ds, t) := getIRType ctx rty
      let ctx := ctx.addDiags ds
      match t with
      | none =>
          let (ctx', l, _) := funcResultsLoop rest ctx
          (ctx', l, false)
      | some ty =>
          let ctx := ctx.addSymbol rn ⟨some ty, true, true⟩
          let (ctx', l, ok) := funcResultsLoop rest ctx
          (ctx', (rn, ty) :: l, ok)

/-- TypeChecker declaration checking: visit(ElementTypeDecl),
visit(ExternDecl), visit(FuncDecl). -/
def checkDecl (d : Decl) (ctx : Ctx) : Except Abort Ctx :=
  match d with
  | .elementDecl name fields =>
      let (ds, fs) := gatherFields ctx fields
      let ctx := ctx.addDiags ds
      if ctx.containsElementType name then
        pure (ctx.addDiags [multipleDefsMsg "element type" name])
      else pure (ctx.addElementType name fs)
  | .extDecl name htype =>
      let (ds, t) := getIRType ctx htype
      let ctx := ctx.addDiags ds
      if ctx.hasSymbol name then
        pure (ctx.addDiags [multipleDefsMsg "variable or constant" name])
      else pure (ctx.addSymbol name ⟨t, true, true⟩)
  | .funcDecl name args results body => do
      let ctx0 := ctx.scope
      let (ctx1, argVars, ok1) := funcArgsLoop args ctx0
      let (ctx2, resVars, ok2) := funcResultsLoop results ctx1
      let ctx3 ← checkStmt body ctx2
      let ctx4 := ctx3.unscope
      if !(ok1 && ok2) then pure ctx4
      else if ctx4.containsFunction name then
        pure (ctx4.addDiags [multipleDefsMsg "function or procedure" name])
      else pure (ctx4.addFunction ⟨name, argVars, resVars, false⟩)

/-- Checking a whole program: the declarations in order. -/
def checkProgram : List Decl → Ctx → Except Abort Ctx
  | [], ctx => pure ctx
  | d :: rest, ctx => do
      let ctx' ← checkDecl d ctx
      checkProgram rest ctx'

/-! ## Derived notions used by the claim theorems -/

/-- The dimensions surviving a tensor read: the domains at the slice
positions, in order. -/
def sliceSelect : List IndexDomain → List (Option Expr) → List IndexDomain
  | _, [] => []
  | [], _ :: _ => []
  | d :: ds, none :: ps => d :: sliceSelect ds ps
  | _ :: ds, some _ :: ps => sliceSelect ds ps

/-- The synthesized map actuals as the claim words them: the element of
the target set's element type, and, whenever the endpoint list is
non-empty, additionally the neighbor tuple — with no condition on the
assembly function's arity.  Stated for refinement comparison with
mapSynthesizedActuals, which is translated from the source. -/
def mapSynthesizedActualsClaim (actuals0 : List (Option IRType)) (en : String)
    (eps : List String) : List (Option IRType) :=
  (actuals0 ++ [some (.elementT en)]) ++
    (if eps.length > 0 then [some (.tupleT (eps.headD "") eps.length)] else [])

/-- The scalar kind the checker publishes for a dense literal kind. -/
def dkindScalar : DKind → ScalarKind
  | .int => .int
  | .float => .float

/-- A scalar literal expression. -/
def isScalarLit : Expr → Bool
  | .intLit _ => true
  | .floatLit => true
  | .boolLit _ => true
  | _ => false

/-- Read parameters that are slices or scalar literals (so that the
unchecked dereference in the tuple-read branch cannot fire). -/
def rpSafe : List (Option Expr) → Bool
  | [] => true
  | none :: rest => rpSafe rest
  | some e :: rest => isScalarLit e && rpSafe rest

mutual

/-- Expressions on which the checker is abort-free: every called
function is declared in the given registry, and tensor-read indices are
slices or scalar literals (so that the unchecked dereference in the
tuple-read branch cannot fire). -/
def exprSafe (funcs : List FuncSig) : Expr → Bool
  | .intLit _ => true
  | .floatLit => true
  | .boolLit _ => true
  | .varE _ => true
  | .eqE ops => exprSafeL funcs ops
  | .notE e => exprSafe funcs e
  | .andE l r => exprSafe funcs l && exprSafe funcs r
  | .orE l r => exprSafe funcs l && exprSafe funcs r
  | .xorE l r => exprSafe funcs l && exprSafe funcs r
  | .addE l r => exprSafe funcs l && exprSafe funcs r
  | .subE l r => exprSafe funcs l && exprSafe funcs r
  | .mulE l r => exprSafe funcs l && exprSafe funcs r
  | .divE l r => exprSafe funcs l && exprSafe funcs r
  | .elwiseMulE l r => exprSafe funcs l && exprSafe funcs r
  | .elwiseDivE l r => exprSafe funcs l && exprSafe funcs r
  | .negE e => exprSafe funcs e
  | .transposeE e => exprSafe funcs e
  | .callE fname args => funcs.any (fun f => f.name == fname) && exprSafeL funcs args
  | .tensorRead t idx => exprSafe funcs t && rpSafe idx
  | .mapE _ _ partials => exprSafeL funcs partials
  | .denseLit _ => true

def exprSafeL (funcs : List FuncSig) : List Expr → Bool
  | [] => true
  | e :: rest => exprSafe funcs e && exprSafeL funcs rest

end

/-- A tensor-type annotation (the declared type of a var/const is
tensor syntax). -/
def isTensorAnn : HType → Bool
  | .tensorT _ => true
  | _ => false

mutual

/-- Statements on which the checker is abort-free: all expressions are
safe, var/const declarations declare tensor types (so the declared-type
iassert cannot fire), and declarations with initializers are vars (so
the constant dimension-slack comparison cannot read out of bounds). -/
def stmtWF (funcs : List FuncSig) : Stmt → Bool
  | .block ss => stmtWFL funcs ss
  | .varDecl isConst _ htype initVal =>
      isTensorAnn htype &&
      (match initVal with
       | none => true
       | some e => !isConst && exprSafe funcs e)
  | .whileS c b => exprSafe funcs c && stmtWF funcs b
  | .ifS c b eb =>
      exprSafe funcs c && stmtWF funcs b &&
      (match eb with
       | none => true
       | some e => stmtWF funcs e)
  | .forS _ lo hi b => exprSafe funcs lo && exprSafe funcs hi && stmtWF funcs b
  | .printS e => exprSafe funcs e

def stmtWFL (funcs : List FuncSig) : List Stmt → Bool
  | [] => true
  | s :: rest => stmtWF funcs s && stmtWFL funcs rest

end

/-! ## Helper lemmas -/

/-! Size equations, proved by rfl. -/

theorem exprSize_intLit (v : Int) :
    exprSize (.intLit v) = 1 := rfl

theorem exprSize_floatLit :
    exprSize .floatLit = 1 := rfl

theorem exprSize_boolLit (b : Bool) :
    exprSize (.boolLit b) = 1 := rfl

theorem exprSize_varE (x : String) :
    exprSize (.varE x) = 1 := rfl

theorem exprSize_eqE (ops : List Expr) :
    exprSize (.eqE ops) = 1 + exprSizeL ops := rfl

theorem exprSize_notE (e : Expr) :
    exprSize (.notE e) = 1 + exprSize e := rfl

theorem exprSize_negE (e : Expr) :
    exprSize (.negE e) = 1 + exprSize e := rfl

theorem exprSize_transposeE (e : Expr) :
    exprSize (.transposeE e) = 1 + exprSize e := rfl

theorem exprSize_callE (f : String) (args : List Expr) :
    exprSize (.callE f args) = 1 + exprSizeL args := rfl

theorem exprSize_tensorRead (t : Expr) (idx : List (Option Expr)) :
    exprSize (.tensorRead t idx) = 1 + exprSize t + exprSizeO idx := rfl

theorem exprSize_mapE (f tg : String) (ps : List Expr) :
    exprSize (.mapE f tg ps) = 1 + exprSizeL ps := rfl

theorem exprSize_denseLit (l : DLit) :
    exprSize (.denseLit l) = 1 := rfl

theorem exprSize_andE (l r : Expr) :
    exprSize (.andE l r) = 1 + exprSize l + exprSize r := rfl

theorem exprSize_orE (l r : Expr) :
    exprSize (.orE l r) = 1 + exprSize l + exprSize r := rfl

theorem exprSize_xorE (l r : Expr) :
    exprSize (.xorE l r) = 1 + exprSize l + exprSize r := rfl

theorem exprSize_addE (l r : Expr) :
    exprSize (.addE l r) = 1 + exprSize l + exprSize r := rfl

theorem exprSize_subE (l r : Expr) :
    exprSize (.subE l r) = 1 + exprSize l + exprSize r := rfl

theorem exprSize_elwiseMulE (l r : Expr) :
    exprSize (.elwiseMulE l r) = 1 + exprSize l + exprSize r := rfl

theorem exprSize_elwiseDivE (l r : Expr) :
    exprSize (.elwiseDivE l r) = 1 + exprSize l + exprSize r := rfl

theorem exprSize_mulE (l r : Expr) :
    exprSize (.mulE l r) = 1 + exprSize l + exprSize r := rfl

theorem exprSize_divE (l r : Expr) :
    exprSize (.divE l r) = 1 + exprSize l + exprSize r := rfl

theorem exprSizeL_nil : exprSizeL [] = 1 := rfl

theorem exprSizeL_cons (e : Expr) (rest : List Expr) :
    exprSizeL (e :: rest) = 1 + exprSize e + exprSizeL rest := rfl

theorem exprSizeO_nil : exprSizeO [] = 1 := rfl

theorem exprSizeO_none (rest : List (Option Expr)) :
    exprSizeO (none :: rest) = 1 + exprSizeO rest := rfl

theorem exprSizeO_some (e : Expr) (rest : List (Option Expr)) :
    exprSizeO (some e :: rest) = 1 + exprSize e + exprSizeO rest := rfl

theorem exprSize_pos : ∀ e : Expr, 0 < exprSize e
  | .intLit _ => Nat.one_pos
  | .floatLit => Nat.one_pos
  | .boolLit _ => Nat.one_pos
  | .varE _ => Nat.one_pos
  | .eqE ops => by rw [exprSize_eqE]; omega
  | .notE e => by rw [exprSize_notE]; omega
  | .andE _ _ => by rw [exprSize_andE]; omega
  | .orE _ _ => by rw [exprSize_orE]; omega
  | .xorE _ _ => by rw [exprSize_xorE]; omega
  | .addE _ _ => by rw [exprSize_addE]; omega
  | .subE _ _ => by rw [exprSize_subE]; omega
  | .mulE _ _ => by rw [exprSize_mulE]; omega
  | .divE _ _ => by rw [exprSize_divE]; omega
  | .elwiseMulE _ _ => by rw [exprSize_elwiseMulE]; omega
  | .elwiseDivE _ _ => by rw [exprSize_elwiseDivE]; omega
  | .negE e => by rw [exprSize_negE]; omega
  | .transposeE e => by rw [exprSize_transposeE]; omega
  | .callE f args => by rw [exprSize_callE]; omega
  | .tensorRead _ _ => by rw [exprSize_tensorRead]; omega
  | .mapE f tg ps => by rw [exprSize_mapE]; omega
  | .denseLit _ => Nat.one_pos

/-! Unfolding equations for the fuel-indexed checker, proved by rfl. -/

theorem inferExprF_intLit (n : Nat) (ctx : Ctx) (v : Int) :
    inferExprF (n + 1) ctx (.intLit v) = .ok ([], some [intType]) := rfl

theorem inferExprF_floatLit (n : Nat) (ctx : Ctx) :
    inferExprF (n + 1) ctx .floatLit = .ok ([], some [floatType]) := rfl

theorem inferExprF_boolLit (n : Nat) (ctx : Ctx) (b : Bool) :
    inferExprF (n + 1) ctx (.boolLit b) = .ok ([], some [booleanType]) := rfl

theorem inferExprF_varE (n : Nat) (ctx : Ctx) (x : String) :
    inferExprF (n + 1) ctx (.varE x) =
      (if !ctx.hasSymbol x then
        .ok ([undeclaredMsg "variable or constant" x], none)
      else
        match ctx.getSymbol x with
        | none => .ok ([], none)
        | some sym =>
            let ds := if !sym.readable then [x ++ " is not readable"] else []
            match sym.type with
            | none => .ok (ds, none)
            | some t => .ok (ds, some [t])) := rfl

theorem inferExprF_eqE (n : Nat) (ctx : Ctx) (ops : List Expr) :
    inferExprF (n + 1) ctx (.eqE ops) = (do
      let (ds, _) ← eqLoopF n ctx ops none
      .ok (ds, some [booleanType])) := rfl

theorem inferExprF_notE (n : Nat) (ctx : Ctx) (op : Expr) :
    inferExprF (n + 1) ctx (.notE op) = (do
      let (ds, t) ← inferExprF n ctx op
      .ok (ds ++ visitNotCheck t, some [booleanType])) := rfl

theorem inferExprF_andE (n : Nat) (ctx : Ctx) (l r : Expr) :
    inferExprF (n + 1) ctx (.andE l r) = (do
      let (lds, lt) ← inferExprF n ctx l
      let (rds, rt) ← inferExprF n ctx r
      let (ds, res) := typeCheckBinaryBoolean lt rt
      .ok (lds ++ rds ++ ds, res)) := rfl

theorem inferExprF_orE (n : Nat) (ctx : Ctx) (l r : Expr) :
    inferExprF (n + 1) ctx (.orE l r) = (do
      let (lds, lt) ← inferExprF n ctx l
      let (rds, rt) ← inferExprF n ctx r
      let (ds, res) := typeCheckBinaryBoolean lt rt
      .ok (lds ++ rds ++ ds, res)) := rfl

theorem inferExprF_xorE (n : Nat) (ctx : Ctx) (l r : Expr) :
    inferExprF (n + 1) ctx (.xorE l r) = (do
      let (lds, lt) ← inferExprF n ctx l
      let (rds, rt) ← inferExprF n ctx r
      let (ds, res) := typeCheckBinaryBoolean lt rt
      .ok (lds ++ rds ++ ds, res)) := rfl

theorem inferExprF_addE (n : Nat) (ctx : Ctx) (l r : Expr) :
    inferExprF (n + 1) ctx (.addE l r) = (do
      let (lds, lt) ← inferExprF n ctx l
      let (rds, rt) ← inferExprF n ctx r
      let (ds, res) := typeCheckBinaryElwise lt rt
      .ok (lds ++ rds ++ ds, res)) := rfl

theorem inferExprF_subE (n : Nat) (ctx : Ctx) (l r : Expr) :
    inferExprF (n + 1) ctx (.subE l r) = (do
      let (lds, lt) ← inferExprF n ctx l
      let (rds, rt) ← inferExprF n ctx r
      let (ds, res) := typeCheckBinaryElwise lt rt
      .ok (lds ++ rds ++ ds, res)) := rfl

theorem inferExprF_elwiseMulE (n : Nat) (ctx : Ctx) (l r : Expr) :
    inferExprF (n + 1) ctx (.elwiseMulE l r) = (do
      let (lds, lt) ← inferExprF n ctx l
      let (rds, rt) ← inferExprF n ctx r
      let (ds, res) := typeCheckBinaryElwise lt rt
      .ok (lds ++ rds ++ ds, res)) := rfl

theorem inferExprF_elwiseDivE (n : Nat) (ctx : Ctx) (l r : Expr) :
    inferExprF (n + 1) ctx (.elwiseDivE l r) = (do
      let (lds, lt) ← inferExprF n ctx l
      let (rds, rt) ← inferExprF n ctx r
      let (ds, res) := typeCheckBinaryElwise lt rt
      .ok (lds ++ rds ++ ds, res)) := rfl

theorem inferExprF_mulE (n : Nat) (ctx : Ctx) (l r : Expr) :
    inferExprF (n + 1) ctx (.mulE l r) = (do
      let (lds, lt) ← inferExprF n ctx l
      let (rds, rt) ← inferExprF n ctx r
      let (ds, res) := visitMulTypes lt rt
      .ok (lds ++ rds ++ ds, res)) := rfl

theorem inferExprF_divE (n : Nat) (ctx : Ctx) (l r : Expr) :
    inferExprF (n + 1) ctx (.divE l r) = (do
      let (lds, lt) ← inferExprF n ctx l
      let (rds, rt) ← inferExprF n ctx r
      let (ds, res) := visitDivTypes lt rt
      .ok (lds ++ rds ++ ds, res)) := rfl

theorem inferExprF_negE (n : Nat) (ctx : Ctx) (op : Expr) :
    inferExprF (n + 1) ctx (.negE op) = (do
      let (ds, t) ← inferExprF n ctx op
      let (nds, res) := visitNegTypes t
      .ok (ds ++ nds, res)) := rfl

theorem inferExprF_transposeE (n : Nat) (ctx : Ctx) (op : Expr) :
    inferExprF (n + 1) ctx (.transposeE op) = (do
      let (ds, t) ← inferExprF n ctx op
      let (tds, res) := visitTransposeTypes t
      .ok (ds ++ tds, res)) := rfl

theorem inferExprF_callE (n : Nat) (ctx : Ctx) (fname : String)
    (args : List Expr) :
    inferExprF (n + 1) ctx (.callE fname args) =
      (match ctx.getFunction fname with
      | none => .error (.callUndeclared fname)
      | some f => do
          let (ads, argTys) ← inferArgListF n ctx args
          .ok (ads ++ callCheckDiags f args.length argTys,
               some (f.results.map (·.2)))) := rfl

theorem inferExprF_tensorRead (n : Nat) (ctx : Ctx) (tensor : Expr)
    (indices : List (Option Expr)) :
    inferExprF (n + 1) ctx (.tensorRead tensor indices) =
      ((inferExprF n ctx tensor).bind fun p =>
        match p.2 with
        | none => .ok (p.1, none)
        | some tys =>
            if tys.length != 1 then
              .ok (p.1 ++ ["can only access elements of a single tensor or tuple"],
                   none)
            else
              match tys.headD intType with
              | .tensor c dims _ =>
                  if dims.length != indices.length then
                    .ok (p.1 ++ ["tensor access expected " ++ toString dims.length
                      ++ " indices but got " ++ toString indices.length], none)
                  else
                    (readLoopF n ctx dims indices).bind fun q =>
                      .ok (p.1 ++ q.1, tensorReadPublish c dims q.2 indices)
              | .tupleT en _ =>
                  match indices with
                  | [none] =>
                      .ok (p.1 ++ ["tuple access expects an integral index"],
                           some [.elementT en])
                  | [some e] =>
                      (inferExprF n ctx e).bind fun q =>
                        match q.2 with
                        | none => .error .tupleIndexNullDeref
                        | some _ =>
                            .ok (p.1 ++ q.1 ++ tupleIndexCheckMsgs q.2,
                                 some [.elementT en])
                  | _ =>
                      .ok (p.1 ++ ["tuple access expects exactly one index but got "
                        ++ toString indices.length], some [.elementT en])
              | _ =>
                  .ok (p.1 ++ ["cannot access elements from objects of type "
                    ++ typeStringOpt p.2], none)) := rfl

theorem inferExprF_mapE (n : Nat) (ctx : Ctx) (fname tname : String)
    (partials : List Expr) :
    inferExprF (n + 1) ctx (.mapE fname tname partials) = (do
      let (pds, actuals0) ← mapPartialsLoopF n ctx partials
      let (fds, funcOpt) : List String × Option FuncSig :=
        match ctx.getFunction fname with
        | none => ([undeclaredMsg "function" fname], none)
        | some f => ([], some f)
      let retOpt := funcOpt.map fun f => f.results.map (·.2)
      let (tds, targetOpt) : List String × Option (String × List String) :=
        if !ctx.hasSymbol tname then ([undeclaredMsg "set" tname], none)
        else
          match ctx.getSymbol tname with
          | some ⟨some (.setT en eps), _, _⟩ => ([], some (en, eps))
          | _ => (["map operation can only be applied to sets"], none)
      match funcOpt, targetOpt with
      | some f, some (en, eps) =>
          .ok (pds ++ fds ++ tds ++ visitMapResolved f en eps actuals0, retOpt)
      | _, _ => .ok (pds ++ fds ++ tds, retOpt)) := rfl

theorem inferExprF_denseLit (n : Nat) (ctx : Ctx) (lit : DLit) :
    inferExprF (n + 1) ctx (.denseLit lit) =
      (let (ds, r) := typeCheckDenseTensorLiteral lit
       .ok (ds, r)) := rfl

theorem eqLoopF_nil (n : Nat) (ctx : Ctx) (rep : Option (List IRType)) :
    eqLoopF (n + 1) ctx [] rep = .ok ([], rep) := rfl

theorem eqLoopF_cons (n : Nat) (ctx : Ctx) (e : Expr) (rest : List Expr)
    (rep : Option (List IRType)) :
    eqLoopF (n + 1) ctx (e :: rest) rep = (do
      let (eds, et) ← inferExprF n ctx e
      let (cds, rep') := eqOperandCheck rep et
      let (rds, repF) ← eqLoopF n ctx rest rep'
      .ok (eds ++ cds ++ rds, repF)) := rfl

theorem inferArgListF_nil (n : Nat) (ctx : Ctx) :
    inferArgListF (n + 1) ctx [] = .ok ([], []) := rfl

theorem inferArgListF_cons (n : Nat) (ctx : Ctx) (e : Expr) (rest : List Expr) :
    inferArgListF (n + 1) ctx (e :: rest) = (do
      let (ds, t) ← inferExprF n ctx e
      let (ds', ts) ← inferArgListF n ctx rest
      .ok (ds ++ ds', t :: ts)) := rfl

theorem mapPartialsLoopF_nil (n : Nat) (ctx : Ctx) :
    mapPartialsLoopF (n + 1) ctx [] = .ok ([], []) := rfl

theorem mapPartialsLoopF_cons (n : Nat) (ctx : Ctx) (e : Expr)
    (rest : List Expr) :
    mapPartialsLoopF (n + 1) ctx (e :: rest) = (do
      let (ds, t) ← inferExprF n ctx e
      let (cds, entry) : List String × Option IRType :=
        match t with
        | none => ([], none)
        | some tys =>
            if tys.length == 0 then
              (["must pass a non-void value as argument"], none)
            else if tys.length != 1 then
              (["cannot pass multiple values of types " ++ typeStringOpt t
                ++ " as a single argument"], none)
            else ([], some (tys.headD intType))
      let (ds', ts) ← mapPartialsLoopF n ctx rest
      .ok (ds ++ cds ++ ds', entry :: ts)) := rfl

theorem readLoopF_nil (n : Nat) (ctx : Ctx) (doms : List IndexDomain) :
    readLoopF (n + 1) ctx doms [] = .ok ([], []) := by
  cases doms <;> rfl

theorem readLoopF_nil_cons (n : Nat) (ctx : Ctx) (p : Option Expr)
    (ps : List (Option Expr)) :
    readLoopF (n + 1) ctx [] (p :: ps) = .ok ([], []) := by
  cases p <;> rfl

theorem readLoopF_slice (n : Nat) (ctx : Ctx) (d : IndexDomain)
    (ds : List IndexDomain) (ps : List (Option Expr)) :
    readLoopF (n + 1) ctx (d :: ds) (none :: ps) = (do
      let (ms, rest) ← readLoopF n ctx ds ps
      .ok (ms, d :: rest)) := rfl

theorem readLoopF_expr (n : Nat) (ctx : Ctx) (d : IndexDomain)
    (ds : List IndexDomain) (e : Expr) (ps : List (Option Expr)) :
    readLoopF (n + 1) ctx (d :: ds) (some e :: ps) = (do
      let (eds, ety) ← inferExprF n ctx e
      let (ms, rest) ← readLoopF n ctx ds ps
      .ok (eds ++ indexCheckMsgs d ety ++ ms, rest)) := rfl

theorem exprSizeL_pos : ∀ es : List Expr, 0 < exprSizeL es
  | [] => Nat.one_pos
  | e :: rest => by rw [exprSizeL_cons]; omega

theorem exprSizeO_pos : ∀ ps : List (Option Expr), 0 < exprSizeO ps
  | [] => Nat.one_pos
  | none :: rest => by rw [exprSizeO_none]; omega
  | some e :: rest => by rw [exprSizeO_some]; omega

/-! Fuel irrelevance: any fuel at least the size of the argument gives
the same result, so the wrappers compute the limit of the fueled
checker. -/

mutual

theorem inferExprF_irrel : ∀ (n m : Nat) (ctx : Ctx) (e : Expr),
    exprSize e ≤ n → exprSize e ≤ m →
    inferExprF n ctx e = inferExprF m ctx e
  | 0, _, _, e, hn, _ => absurd hn (by have := exprSize_pos e; omega)
  | _ + 1, 0, _, e, _, hm => absurd hm (by have := exprSize_pos e; omega)
  | n + 1, m + 1, ctx, e, hn, hm => by
      cases e with
      | intLit v => rfl
      | floatLit => rfl
      | boolLit b => rfl
      | varE x => rfl
      | eqE ops =>
          rw [exprSize_eqE] at hn hm
          rw [inferExprF_eqE, inferExprF_eqE,
              eqLoopF_irrel n m ctx ops none (by omega) (by omega)]
      | notE op =>
          rw [exprSize_notE] at hn hm
          rw [inferExprF_notE, inferExprF_notE,
              inferExprF_irrel n m ctx op (by omega) (by omega)]
      | andE l r =>
          rw [exprSize_andE] at hn hm
          rw [inferExprF_andE, inferExprF_andE,
              inferExprF_irrel n m ctx l (by omega) (by omega),
              inferExprF_irrel n m ctx r (by omega) (by omega)]
      | orE l r =>
          rw [exprSize_orE] at hn hm
          rw [inferExprF_orE, inferExprF_orE,
              inferExprF_irrel n m ctx l (by omega) (by omega),
              inferExprF_irrel n m ctx r (by omega) (by omega)]
      | xorE l r =>
          rw [exprSize_xorE] at hn hm
          rw [inferExprF_xorE, inferExprF_xorE,
              inferExprF_irrel n m ctx l (by omega) (by omega),
              inferExprF_irrel n m ctx r (by omega) (by omega)]
      | addE l r =>
          rw [exprSize_addE] at hn hm
          rw [inferExprF_addE, inferExprF_addE,
              inferExprF_irrel n m ctx l (by omega) (by omega),
              inferExprF_irrel n m ctx r (by omega) (by omega)]
      | subE l r =>
          rw [exprSize_subE] at hn hm
          rw [inferExprF_subE, inferExprF_subE,
              inferExprF_irrel n m ctx l (by omega) (by omega),
              inferExprF_irrel n m ctx r (by omega) (by omega)]
      | elwiseMulE l r =>
          rw [exprSize_elwiseMulE] at hn hm
          rw [inferExprF_elwiseMulE, inferExprF_elwiseMulE,
              inferExprF_irrel n m ctx l (by omega) (by omega),
              inferExprF_irrel n m ctx r (by omega) (by omega)]
      | elwiseDivE l r =>
          rw [exprSize_elwiseDivE] at hn hm
          rw [inferExprF_elwiseDivE, inferExprF_elwiseDivE,
              inferExprF_irrel n m ctx l (by omega) (by omega),
              inferExprF_irrel n m ctx r (by omega) (by omega)]
      | mulE l r =>
          rw [exprSize_mulE] at hn hm
          rw [inferExprF_mulE, inferExprF_mulE,
              inferExprF_irrel n m ctx l (by omega) (by omega),
              inferExprF_irrel n m ctx r (by omega) (by omega)]
      | divE l r =>
          rw [exprSize_divE] at hn hm
          rw [inferExprF_divE, inferExprF_divE,
              inferExprF_irrel n m ctx l (by omega) (by omega),
              inferExprF_irrel n m ctx r (by omega) (by omega)]
      | negE op =>
          rw [exprSize_negE] at hn hm
          rw [inferExprF_negE, inferExprF_negE,
              inferExprF_irrel n m ctx op (by omega) (by omega)]
      | transposeE op =>
          rw [exprSize_transposeE] at hn hm
          rw [inferExprF_transposeE, inferExprF_transposeE,
              inferExprF_irrel n m ctx op (by omega) (by omega)]
      | callE fname args =>
          rw [exprSize_callE] at hn hm
          rw [inferExprF_callE, inferExprF_callE]
          cases ctx.getFunction fname with
          | none => rfl
          | some f =>
              rw [inferArgListF_irrel n m ctx args (by omega) (by omega)]
      | tensorRead t idx =>
          rw [exprSize_tensorRead] at hn hm
          rw [inferExprF_tensorRead, inferExprF_tensorRead,
              inferExprF_irrel n m ctx t
                (by have := exprSizeO_pos idx; omega)
                (by have := exprSizeO_pos idx; omega)]
          cases hb : inferExprF m ctx t with
          | error a => rfl
          | ok p =>
              obtain ⟨pds, pty⟩ := p
              cases pty with
              | none => rfl
              | some tys =>
                  simp only [Except.bind]
                  by_cases hlen : (tys.length != 1) = true
                  · rw [if_pos hlen, if_pos hlen]
                  · rw [if_neg hlen, if_neg hlen]
                    cases tys.headD intType with
                    | tensor c dims cv =>
                        dsimp only
                        by_cases hd : (dims.length != idx.length) = true
                        · rw [if_pos hd, if_pos hd]
                        · rw [if_neg hd, if_neg hd,
                              readLoopF_irrel n m ctx dims idx
                                (by have := exprSize_pos t; omega)
                                (by have := exprSize_pos t; omega)]
                    | tupleT en k =>
                        dsimp only
                        cases idx with
                        | nil => rfl
                        | cons hd0 tl =>
                            cases tl with
                            | cons h2 t2 => cases hd0 <;> rfl
                            | nil =>
                                cases hd0 with
                                | none => rfl
                                | some e =>
                                    rw [exprSizeO_some, exprSizeO_nil] at hn hm
                                    dsimp only
                                    rw [inferExprF_irrel n m ctx e
                                      (by have := exprSize_pos t; omega)
                                      (by have := exprSize_pos t; omega)]
                    | elementT en => rfl
                    | setT en eps => rfl
      | mapE fname tname ps =>
          rw [exprSize_mapE] at hn hm
          rw [inferExprF_mapE, inferExprF_mapE,
              mapPartialsLoopF_irrel n m ctx ps (by omega) (by omega)]
      | denseLit lit => rfl

theorem eqLoopF_irrel : ∀ (n m : Nat) (ctx : Ctx) (es : List Expr)
    (rep : Option (List IRType)), exprSizeL es ≤ n → exprSizeL es ≤ m →
    eqLoopF n ctx es rep = eqLoopF m ctx es rep
  | 0, _, _, es, _, hn, _ => absurd hn (by have := exprSizeL_pos es; omega)
  | _ + 1, 0, _, es, _, _, hm => absurd hm (by have := exprSizeL_pos es; omega)
  | _ + 1, _ + 1, _, [], _, _, _ => rfl
  | n + 1, m + 1, ctx, e :: rest, rep, hn, hm => by
      rw [exprSizeL_cons] at hn hm
      rw [eqLoopF_cons, eqLoopF_cons,
          inferExprF_irrel n m ctx e
            (by have := exprSizeL_pos rest; omega)
            (by have := exprSizeL_pos rest; omega)]
      cases hb : inferExprF m ctx e with
      | error a => rfl
      | ok p =>
          obtain ⟨eds, et⟩ := p
          rcases hq : eqOperandCheck rep et with ⟨cds, repN⟩
          simp only [bind, Except.bind, hq]
          rw [eqLoopF_irrel n m ctx rest repN
            (by have := exprSize_pos e; omega)
            (by have := exprSize_pos e; omega)]

theorem inferArgListF_irrel : ∀ (n m : Nat) (ctx : Ctx) (es : List Expr),
    exprSizeL es ≤ n → exprSizeL es ≤ m →
    inferArgListF n ctx es = inferArgListF m ctx es
  | 0, _, _, es, hn, _ => absurd hn (by have := exprSizeL_pos es; omega)
  | _ + 1, 0, _, es, _, hm => absurd hm (by have := exprSizeL_pos es; omega)
  | _ + 1, _ + 1, _, [], _, _ => rfl
  | n + 1, m + 1, ctx, e :: rest, hn, hm => by
      rw [exprSizeL_cons] at hn hm
      rw [inferArgListF_cons, inferArgListF_cons,
          inferExprF_irrel n m ctx e
            (by have := exprSizeL_pos rest; omega)
            (by have := exprSizeL_pos rest; omega),
          inferArgListF_irrel n m ctx rest
            (by have := exprSize_pos e; omega)
            (by have := exprSize_pos e; omega)]

theorem mapPartialsLoopF_irrel : ∀ (n m : Nat) (ctx : Ctx) (es : List Expr),
    exprSizeL es ≤ n → exprSizeL es ≤ m →
    mapPartialsLoopF n ctx es = mapPartialsLoopF m ctx es
  | 0, _, _, es, hn, _ => absurd hn (by have := exprSizeL_pos es; omega)
  | _ + 1, 0, _, es, _, hm => absurd hm (by have := exprSizeL_pos es; omega)
  | _ + 1, _ + 1, _, [], _, _ => rfl
  | n + 1, m + 1, ctx, e :: rest, hn, hm => by
      rw [exprSizeL_cons] at hn hm
      rw [mapPartialsLoopF_cons, mapPartialsLoopF_cons,
          inferExprF_irrel n m ctx e
            (by have := exprSizeL_pos rest; omega)
            (by have := exprSizeL_pos rest; omega),
          mapPartialsLoopF_irrel n m ctx rest
            (by have := exprSize_pos e; omega)
            (by have := exprSize_pos e; omega)]

theorem readLoopF_irrel : ∀ (n m : Nat) (ctx : Ctx) (doms : List IndexDomain)
    (ps : List (Option Expr)), exprSizeO ps ≤ n → exprSizeO ps ≤ m →
    readLoopF n ctx doms ps = readLoopF m ctx doms ps
  | 0, _, _, _, ps, hn, _ => absurd hn (by have := exprSizeO_pos ps; omega)
  | _ + 1, 0, _, _, ps, _, hm => absurd hm (by have := exprSizeO_pos ps; omega)
  | _ + 1, _ + 1, ctx, doms, [], _, _ => by
      rw [readLoopF_nil, readLoopF_nil]
  | _ + 1, _ + 1, ctx, [], p :: ps, _, _ => by
      rw [readLoopF_nil_cons, readLoopF_nil_cons]
  | n + 1, m + 1, ctx, d :: ds, none :: ps, hn, hm => by
      rw [exprSizeO_none] at hn hm
      rw [readLoopF_slice, readLoopF_slice,
          readLoopF_irrel n m ctx ds ps (by omega) (by omega)]
  | n + 1, m + 1, ctx, d :: ds, some e :: ps, hn, hm => by
      rw [exprSizeO_some] at hn hm
      rw [readLoopF_expr, readLoopF_expr,
          inferExprF_irrel n m ctx e
            (by have := exprSizeO_pos ps; omega)
            (by have := exprSizeO_pos ps; omega),
          readLoopF_irrel n m ctx ds ps
            (by have := exprSize_pos e; omega)
            (by have := exprSize_pos e; omega)]

end

/-! Unfolding lemmas for the wrappers, from the fueled equations and
fuel irrelevance. -/

theorem inferExpr_eqF (ctx : Ctx) (e : Expr) :
    inferExpr ctx e = inferExprF (exprSize e + 1) ctx e := rfl

theorem eqLoop_eqF (ctx : Ctx) (es : List Expr) (rep : Option (List IRType)) :
    eqLoop ctx es rep = eqLoopF (exprSizeL es + 1) ctx es rep := rfl

theorem inferArgList_eqF (ctx : Ctx) (es : List Expr) :
    inferArgList ctx es = inferArgListF (exprSizeL es + 1) ctx es := rfl

theorem mapPartialsLoop_eqF (ctx : Ctx) (es : List Expr) :
    mapPartialsLoop ctx es = mapPartialsLoopF (exprSizeL es + 1) ctx es := rfl

theorem readLoop_eqF (ctx : Ctx) (doms : List IndexDomain)
    (ps : List (Option Expr)) :
    readLoop ctx doms ps = readLoopF (exprSizeO ps + 1) ctx doms ps := rfl

theorem inferExpr_intLit (ctx : Ctx) (v : Int) :
    inferExpr ctx (.intLit v) = .ok ([], some [intType]) := rfl

theorem inferExpr_floatLit (ctx : Ctx) :
    inferExpr ctx .floatLit = .ok ([], some [floatType]) := rfl

theorem inferExpr_boolLit (ctx : Ctx) (b : Bool) :
    inferExpr ctx (.boolLit b) = .ok ([], some [booleanType]) := rfl

theorem inferExpr_varE (ctx : Ctx) (x : String) :
    inferExpr ctx (.varE x) =
      (if !ctx.hasSymbol x then
        .ok ([undeclaredMsg "variable or constant" x], none)
      else
        match ctx.getSymbol x with
        | none => .ok ([], none)
        | some sym =>
            let ds := if !sym.readable then [x ++ " is not readable"] else []
            match sym.type with
            | none => .ok (ds, none)
            | some t => .ok (ds, some [t])) := rfl

theorem inferExpr_eqE (ctx : Ctx) (ops : List Expr) :
    inferExpr ctx (.eqE ops) = (do
      let (ds, _) ← eqLoop ctx ops none
      .ok (ds, some [booleanType])) := by
  rw [inferExpr_eqF ctx (Expr.eqE ops), inferExprF_eqE,
      eqLoopF_irrel (exprSize (Expr.eqE ops)) (exprSizeL ops + 1) ctx ops none
        (by rw [exprSize_eqE]; omega) (by omega),
      ← eqLoop_eqF]

theorem inferExpr_notE (ctx : Ctx) (op : Expr) :
    inferExpr ctx (.notE op) = (do
      let (ds, t) ← inferExpr ctx op
      .ok (ds ++ visitNotCheck t, some [booleanType])) := by
  rw [inferExpr_eqF ctx (Expr.notE op), inferExprF_notE,
      inferExprF_irrel (exprSize (Expr.notE op)) (exprSize op + 1) ctx op
        (by rw [exprSize_notE]; omega) (by omega),
      ← inferExpr_eqF ctx op]

theorem inferExpr_andE (ctx : Ctx) (l r : Expr) :
    inferExpr ctx (.andE l r) = (do
      let (lds, lt) ← inferExpr ctx l
      let (rds, rt) ← inferExpr ctx r
      let (ds, res) := typeCheckBinaryBoolean lt rt
      .ok (lds ++ rds ++ ds, res)) := by
  rw [inferExpr_eqF ctx (Expr.andE l r), inferExprF_andE,
      inferExprF_irrel (exprSize (Expr.andE l r)) (exprSize l + 1) ctx l
        (by rw [exprSize_andE]; omega) (by omega),
      inferExprF_irrel (exprSize (Expr.andE l r)) (exprSize r + 1) ctx r
        (by rw [exprSize_andE]; omega) (by omega),
      ← inferExpr_eqF ctx l, ← inferExpr_eqF ctx r]

theorem inferExpr_orE (ctx : Ctx) (l r : Expr) :
    inferExpr ctx (.orE l r) = (do
      let (lds, lt) ← inferExpr ctx l
      let (rds, rt) ← inferExpr ctx r
      let (ds, res) := typeCheckBinaryBoolean lt rt
      .ok (lds ++ rds ++ ds, res)) := by
  rw [inferExpr_eqF ctx (Expr.orE l r), inferExprF_orE,
      inferExprF_irrel (exprSize (Expr.orE l r)) (exprSize l + 1) ctx l
        (by rw [exprSize_orE]; omega) (by omega),
      inferExprF_irrel (exprSize (Expr.orE l r)) (exprSize r + 1) ctx r
        (by rw [exprSize_orE]; omega) (by omega),
      ← inferExpr_eqF ctx l, ← inferExpr_eqF ctx r]

theorem inferExpr_xorE (ctx : Ctx) (l r : Expr) :
    inferExpr ctx (.xorE l r) = (do
      let (lds, lt) ← inferExpr ctx l
      let (rds, rt) ← inferExpr ctx r
      let (ds, res) := typeCheckBinaryBoolean lt rt
      .ok (lds ++ rds ++ ds, res)) := by
  rw [inferExpr_eqF ctx (Expr.xorE l r), inferExprF_xorE,
      inferExprF_irrel (exprSize (Expr.xorE l r)) (exprSize l + 1) ctx l
        (by rw [exprSize_xorE]; omega) (by omega),
      inferExprF_irrel (exprSize (Expr.xorE l r)) (exprSize r + 1) ctx r
        (by rw [exprSize_xorE]; omega) (by omega),
      ← inferExpr_eqF ctx l, ← inferExpr_eqF ctx r]

theorem inferExpr_addE (ctx : Ctx) (l r : Expr) :
    inferExpr ctx (.addE l r) = (do
      let (lds, lt) ← inferExpr ctx l
      let (rds, rt) ← inferExpr ctx r
      let (ds, res) := typeCheckBinaryElwise lt rt
      .ok (lds ++ rds ++ ds, res)) := by
  rw [inferExpr_eqF ctx (Expr.addE l r), inferExprF_addE,
      inferExprF_irrel (exprSize (Expr.addE l r)) (exprSize l + 1) ctx l
        (by rw [exprSize_addE]; omega) (by omega),
      inferExprF_irrel (exprSize (Expr.addE l r)) (exprSize r + 1) ctx r
        (by rw [exprSize_addE]; omega) (by omega),
      ← inferExpr_eqF ctx l, ← inferExpr_eqF ctx r]

theorem inferExpr_subE (ctx : Ctx) (l r : Expr) :
    inferExpr ctx (.subE l r) = (do
      let (lds, lt) ← inferExpr ctx l
      let (rds, rt) ← inferExpr ctx r
      let (ds, res) := typeCheckBinaryElwise lt rt
      .ok (lds ++ rds ++ ds, res)) := by
  rw [inferExpr_eqF ctx (Expr.subE l r), inferExprF_subE,
      inferExprF_irrel (exprSize (Expr.subE l r)) (exprSize l + 1) ctx l
        (by rw [exprSize_subE]; omega) (by omega),
      inferExprF_irrel (exprSize (Expr.subE l r)) (exprSize r + 1) ctx r
        (by rw [exprSize_subE]; omega) (by omega),
      ← inferExpr_eqF ctx l, ← inferExpr_eqF ctx r]

theorem inferExpr_elwiseMulE (ctx : Ctx) (l r : Expr) :
    inferExpr ctx (.elwiseMulE l r) = (do
      let (lds, lt) ← inferExpr ctx l
      let (rds, rt) ← inferExpr ctx r
      let (ds, res) := typeCheckBinaryElwise lt rt
      .ok (lds ++ rds ++ ds, res)) := by
  rw [inferExpr_eqF ctx (Expr.elwiseMulE l r), inferExprF_elwiseMulE,
      inferExprF_irrel (exprSize (Expr.elwiseMulE l r)) (exprSize l + 1) ctx l
        (by rw [exprSize_elwiseMulE]; omega) (by omega),
      inferExprF_irrel (exprSize (Expr.elwiseMulE l r)) (exprSize r + 1) ctx r
        (by rw [exprSize_elwiseMulE]; omega) (by omega),
      ← inferExpr_eqF ctx l, ← inferExpr_eqF ctx r]

theorem inferExpr_elwiseDivE (ctx : Ctx) (l r : Expr) :
    inferExpr ctx (.elwiseDivE l r) = (do
      let (lds, lt) ← inferExpr ctx l
      let (rds, rt) ← inferExpr ctx r
      let (ds, res) := typeCheckBinaryElwise lt rt
      .ok (lds ++ rds ++ ds, res)) := by
  rw [inferExpr_eqF ctx (Expr.elwiseDivE l r), inferExprF_elwiseDivE,
      inferExprF_irrel (exprSize (Expr.elwiseDivE l r)) (exprSize l + 1) ctx l
        (by rw [exprSize_elwiseDivE]; omega) (by omega),
      inferExprF_irrel (exprSize (Expr.elwiseDivE l r)) (exprSize r + 1) ctx r
        (by rw [exprSize_elwiseDivE]; omega) (by omega),
      ← inferExpr_eqF ctx l, ← inferExpr_eqF ctx r]

theorem inferExpr_mulE (ctx : Ctx) (l r : Expr) :
    inferExpr ctx (.mulE l r) = (do
      let (lds, lt) ← inferExpr ctx l
      let (rds, rt) ← inferExpr ctx r
      let (ds, res) := visitMulTypes lt rt
      .ok (lds ++ rds ++ ds, res)) := by
  rw [inferExpr_eqF ctx (Expr.mulE l r), inferExprF_mulE,
      inferExprF_irrel (exprSize (Expr.mulE l r)) (exprSize l + 1) ctx l
        (by rw [exprSize_mulE]; omega) (by omega),
      inferExprF_irrel (exprSize (Expr.mulE l r)) (exprSize r + 1) ctx r
        (by rw [exprSize_mulE]; omega) (by omega),
      ← inferExpr_eqF ctx l, ← inferExpr_eqF ctx r]

theorem inferExpr_divE (ctx : Ctx) (l r : Expr) :
    inferExpr ctx (.divE l r) = (do
      let (lds, lt) ← inferExpr ctx l
      let (rds, rt) ← inferExpr ctx r
      let (ds, res) := visitDivTypes lt rt
      .ok (lds ++ rds ++ ds, res)) := by
  rw [inferExpr_eqF ctx (Expr.divE l r), inferExprF_divE,
      inferExprF_irrel (exprSize (Expr.divE l r)) (exprSize l + 1) ctx l
        (by rw [exprSize_divE]; omega) (by omega),
      inferExprF_irrel (exprSize (Expr.divE l r)) (exprSize r + 1) ctx r
        (by rw [exprSize_divE]; omega) (by omega),
      ← inferExpr_eqF ctx l, ← inferExpr_eqF ctx r]

theorem inferExpr_negE (ctx : Ctx) (op : Expr) :
    inferExpr ctx (.negE op) = (do
      let (ds, t) ← inferExpr ctx op
      let (nds, res) := visitNegTypes t
      .ok (ds ++ nds, res)) := by
  rw [inferExpr_eqF ctx (Expr.negE op), inferExprF_negE,
      inferExprF_irrel (exprSize (Expr.negE op)) (exprSize op + 1) ctx op
        (by rw [exprSize_negE]; omega) (by omega),
      ← inferExpr_eqF ctx op]

theorem inferExpr_transposeE (ctx : Ctx) (op : Expr) :
    inferExpr ctx (.transposeE op) = (do
      let (ds, t) ← inferExpr ctx op
      let (tds, res) := visitTransposeTypes t
      .ok (ds ++ tds, res)) := by
  rw [inferExpr_eqF ctx (Expr.transposeE op), inferExprF_transposeE,
      inferExprF_irrel (exprSize (Expr.transposeE op)) (exprSize op + 1) ctx op
        (by rw [exprSize_transposeE]; omega) (by omega),
      ← inferExpr_eqF ctx op]

theorem inferExpr_callE (ctx : Ctx) (fname : String) (args : List Expr) :
    inferExpr ctx (.callE fname args) =
      (match ctx.getFunction fname with
      | none => .error (.callUndeclared fname)
      | some f => do
          let (ads, argTys) ← inferArgList ctx args
          .ok (ads ++ callCheckDiags f args.length argTys,
               some (f.results.map (·.2)))) := by
  rw [inferExpr_eqF ctx (Expr.callE fname args), inferExprF_callE,
      inferArgListF_irrel (exprSize (Expr.callE fname args))
        (exprSizeL args + 1) ctx args
        (by rw [exprSize_callE]; omega) (by omega),
      ← inferArgList_eqF]

theorem inferExpr_tensorRead (ctx : Ctx) (tensor : Expr)
    (indices : List (Option Expr)) :
    inferExpr ctx (.tensorRead tensor indices) =
      ((inferExpr ctx tensor).bind fun p =>
        match p.2 with
        | none => .ok (p.1, none)
        | some tys =>
            if tys.length != 1 then
              .ok (p.1 ++ ["can only access elements of a single tensor or tuple"],
                   none)
            else
              match tys.headD intType with
              | .tensor c dims _ =>
                  if dims.length != indices.length then
                    .ok (p.1 ++ ["tensor access expected " ++ toString dims.length
                      ++ " indices but got " ++ toString indices.length], none)
                  else
                    (readLoop ctx dims indices).bind fun q =>
                      .ok (p.1 ++ q.1, tensorReadPublish c dims q.2 indices)
              | .tupleT en _ =>
                  match indices with
                  | [none] =>
                      .ok (p.1 ++ ["tuple access expects an integral index"],
                           some [.elementT en])
                  | [some e] =>
                      (inferExpr ctx e).bind fun q =>
                        match q.2 with
                        | none => .error .tupleIndexNullDeref
                        | some _ =>
                            .ok (p.1 ++ q.1 ++ tupleIndexCheckMsgs q.2,
                                 some [.elementT en])
                  | _ =>
                      .ok (p.1 ++ ["tuple access expects exactly one index but got "
                        ++ toString indices.length], some [.elementT en])
              | _ =>
                  .ok (p.1 ++ ["cannot access elements from objects of type "
                    ++ typeStringOpt p.2], none)) := by
  rw [inferExpr_eqF ctx (Expr.tensorRead tensor indices), inferExprF_tensorRead,
      inferExprF_irrel (exprSize (Expr.tensorRead tensor indices))
        (exprSize tensor + 1) ctx tensor
        (by rw [exprSize_tensorRead]; have := exprSizeO_pos indices; omega)
        (by omega),
      ← inferExpr_eqF ctx tensor]
  congr 1
  funext p
  obtain ⟨pds, pty⟩ := p
  cases pty with
  | none => rfl
  | some tys =>
      simp only []
      by_cases hlen : (tys.length != 1) = true
      · rw [if_pos hlen, if_pos hlen]
      · rw [if_neg hlen, if_neg hlen]
        cases tys.headD intType with
        | tensor c dims cv =>
            dsimp only
            by_cases hd : (dims.length != indices.length) = true
            · rw [if_pos hd, if_pos hd]
            · rw [if_neg hd, if_neg hd,
                  readLoopF_irrel (exprSize (Expr.tensorRead tensor indices))
                    (exprSizeO indices + 1) ctx dims indices
                    (by rw [exprSize_tensorRead]; have := exprSize_pos tensor;
                        omega)
                    (by omega),
                  ← readLoop_eqF ctx dims indices]
        | elementT en => rfl
        | setT en eps => rfl
        | tupleT en k =>
            dsimp only
            cases indices with
            | nil => rfl
            | cons hd0 tl =>
                cases tl with
                | cons h2 t2 => cases hd0 <;> rfl
                | nil =>
                    cases hd0 with
                    | none => rfl
                    | some e =>
                        dsimp only
                        rw [inferExprF_irrel
                          (exprSize (Expr.tensorRead tensor [some e]))
                          (exprSize e + 1) ctx e
                          (by rw [exprSize_tensorRead, exprSizeO_some,
                                exprSizeO_nil];
                              have := exprSize_pos tensor; omega)
                          (by omega),
                          ← inferExpr_eqF ctx e]

theorem inferExpr_mapE (ctx : Ctx) (fname tname : String)
    (partials : List Expr) :
    inferExpr ctx (.mapE fname tname partials) = (do
      let (pds, actuals0) ← mapPartialsLoop ctx partials
      let (fds, funcOpt) : List String × Option FuncSig :=
        match ctx.getFunction fname with
        | none => ([undeclaredMsg "function" fname], none)
        | some f => ([], some f)
      let retOpt := funcOpt.map fun f => f.results.map (·.2)
      let (tds, targetOpt) : List String × Option (String × List String) :=
        if !ctx.hasSymbol tname then ([undeclaredMsg "set" tname], none)
        else
          match ctx.getSymbol tname with
          | some ⟨some (.setT en eps), _, _⟩ => ([], some (en, eps))
          | _ => (["map operation can only be applied to sets"], none)
      match funcOpt, targetOpt with
      | some f, some (en, eps) =>
          .ok (pds ++ fds ++ tds ++ visitMapResolved f en eps actuals0, retOpt)
      | _, _ => .ok (pds ++ fds ++ tds, retOpt)) := by
  rw [inferExpr_eqF ctx (Expr.mapE fname tname partials), inferExprF_mapE,
      mapPartialsLoopF_irrel (exprSize (Expr.mapE fname tname partials))
        (exprSizeL partials + 1) ctx partials
        (by rw [exprSize_mapE]; omega) (by omega),
      ← mapPartialsLoop_eqF]

theorem inferExpr_denseLit (ctx : Ctx) (lit : DLit) :
    inferExpr ctx (.denseLit lit) =
      (let (ds, r) := typeCheckDenseTensorLiteral lit
       .ok (ds, r)) := rfl

theorem eqLoop_nil (ctx : Ctx) (rep : Option (List IRType)) :
    eqLoop ctx [] rep = .ok ([], rep) := rfl

theorem eqLoop_cons (ctx : Ctx) (e : Expr) (rest : List Expr)
    (rep : Option (List IRType)) :
    eqLoop ctx (e :: rest) rep = (do
      let (eds, et) ← inferExpr ctx e
      let (cds, rep') := eqOperandCheck rep et
      let (rds, repF) ← eqLoop ctx rest rep'
      .ok (eds ++ cds ++ rds, repF)) := by
  rw [eqLoop_eqF ctx (e :: rest) rep, eqLoopF_cons,
      inferExprF_irrel (exprSizeL (e :: rest)) (exprSize e + 1) ctx e
        (by rw [exprSizeL_cons]; omega) (by omega),
      ← inferExpr_eqF ctx e]
  congr 1
  funext p
  obtain ⟨eds, et⟩ := p
  rcases hq : eqOperandCheck rep et with ⟨cds, repN⟩
  simp only [bind, Except.bind, hq]
  rw [eqLoopF_irrel (exprSizeL (e :: rest)) (exprSizeL rest + 1) ctx rest repN
      (by rw [exprSizeL_cons]; have := exprSize_pos e; omega) (by omega),
      ← eqLoop_eqF ctx rest repN]

theorem inferArgList_nil (ctx : Ctx) : inferArgList ctx [] = .ok ([], []) := rfl

theorem inferArgList_cons (ctx : Ctx) (e : Expr) (rest : List Expr) :
    inferArgList ctx (e :: rest) = (do
      let (ds, t) ← inferExpr ctx e
      let (ds', ts) ← inferArgList ctx rest
      .ok (ds ++ ds', t :: ts)) := by
  rw [inferArgList_eqF ctx (e :: rest), inferArgListF_cons,
      inferExprF_irrel (exprSizeL (e :: rest)) (exprSize e + 1) ctx e
        (by rw [exprSizeL_cons]; omega) (by omega),
      inferArgListF_irrel (exprSizeL (e :: rest)) (exprSizeL rest + 1) ctx rest
        (by rw [exprSizeL_cons]; have := exprSize_pos e; omega) (by omega),
      ← inferExpr_eqF ctx e, ← inferArgList_eqF ctx rest]

theorem mapPartialsLoop_nil (ctx : Ctx) :
    mapPartialsLoop ctx [] = .ok ([], []) := rfl

theorem mapPartialsLoop_cons (ctx : Ctx) (e : Expr) (rest : List Expr) :
    mapPartialsLoop ctx (e :: rest) = (do
      let (ds, t) ← inferExpr ctx e
      let (cds, entry) : List String × Option IRType :=
        match t with
        | none => ([], none)
        | some tys =>
            if tys.length == 0 then
              (["must pass a non-void value as argument"], none)
            else if tys.length != 1 then
              (["cannot pass multiple values of types " ++ typeStringOpt t
                ++ " as a single argument"], none)
            else ([], some (tys.headD intType))
      let (ds', ts) ← mapPartialsLoop ctx rest
      .ok (ds ++ cds ++ ds', entry :: ts)) := by
  rw [mapPartialsLoop_eqF ctx (e :: rest), mapPartialsLoopF_cons,
      inferExprF_irrel (exprSizeL (e :: rest)) (exprSize e + 1) ctx e
        (by rw [exprSizeL_cons]; omega) (by omega),
      mapPartialsLoopF_irrel (exprSizeL (e :: rest)) (exprSizeL rest + 1) ctx
        rest
        (by rw [exprSizeL_cons]; have := exprSize_pos e; omega) (by omega),
      ← inferExpr_eqF ctx e, ← mapPartialsLoop_eqF ctx rest]

theorem readLoop_nil (ctx : Ctx) (doms : List IndexDomain) :
    readLoop ctx doms [] = .ok ([], []) := by
  rw [readLoop_eqF, readLoopF_nil]

theorem readLoop_nil_cons (ctx : Ctx) (p : Option Expr) (ps : List (Option Expr)) :
    readLoop ctx [] (p :: ps) = .ok ([], []) := by
  rw [readLoop_eqF, readLoopF_nil_cons]

theorem readLoop_slice (ctx : Ctx) (d : IndexDomain) (ds : List IndexDomain)
    (ps : List (Option Expr)) :
    readLoop ctx (d :: ds) (none :: ps) = (do
      let (ms, rest) ← readLoop ctx ds ps
      .ok (ms, d :: rest)) := by
  rw [readLoop_eqF ctx (d :: ds) (none :: ps), readLoopF_slice,
      readLoopF_irrel (exprSizeO (none :: ps)) (exprSizeO ps + 1) ctx ds ps
        (by rw [exprSizeO_none]; omega) (by omega),
      ← readLoop_eqF ctx ds ps]

theorem readLoop_expr (ctx : Ctx) (d : IndexDomain) (ds : List IndexDomain)
    (e : Expr) (ps : List (Option Expr)) :
    readLoop ctx (d :: ds) (some e :: ps) = (do
      let (eds, ety) ← inferExpr ctx e
      let (ms, rest) ← readLoop ctx ds ps
      .ok (eds ++ indexCheckMsgs d ety ++ ms, rest)) := by
  rw [readLoop_eqF ctx (d :: ds) (some e :: ps), readLoopF_expr,
      inferExprF_irrel (exprSizeO (some e :: ps)) (exprSize e + 1) ctx e
        (by rw [exprSizeO_some]; omega) (by omega),
      readLoopF_irrel (exprSizeO (some e :: ps)) (exprSizeO ps + 1) ctx ds ps
        (by rw [exprSizeO_some]; have := exprSize_pos e; omega) (by omega),
      ← inferExpr_eqF ctx e, ← readLoop_eqF ctx ds ps]

@[simp]
theorem Ctx.funcs_addDiags (ctx : Ctx) (ds : List String) :
    (ctx.addDiags ds).funcs = ctx.funcs := rfl

@[simp]
theorem Ctx.scopes_addDiags (ctx : Ctx) (ds : List String) :
    (ctx.addDiags ds).scopes = ctx.scopes := rfl

@[simp]
theorem Ctx.diags_addDiags (ctx : Ctx) (ds : List String) :
    (ctx.addDiags ds).diags = ctx.diags ++ ds := rfl

@[simp]
theorem Ctx.funcs_addSymbol (ctx : Ctx) (n : String) (s : SymB) :
    (ctx.addSymbol n s).funcs = ctx.funcs := by
  unfold Ctx.addSymbol
  cases ctx.scopes <;> rfl

@[simp]
theorem Ctx.diags_addSymbol (ctx : Ctx) (n : String) (s : SymB) :
    (ctx.addSymbol n s).diags = ctx.diags := by
  unfold Ctx.addSymbol
  cases ctx.scopes <;> rfl

@[simp]
theorem Ctx.length_scopes_addSymbol (ctx : Ctx) (n : String) (s : SymB) :
    (ctx.addSymbol n s).scopes.length = ctx.scopes.length := by
  unfold Ctx.addSymbol
  cases h : ctx.scopes <;> simp [h]

@[simp]
theorem Ctx.funcs_scope (ctx : Ctx) : ctx.scope.funcs = ctx.funcs := rfl

@[simp]
theorem Ctx.funcs_unscope (ctx : Ctx) : ctx.unscope.funcs = ctx.funcs := rfl

@[simp]
theorem Ctx.length_scopes_scope (ctx : Ctx) :
    ctx.scope.scopes.length = ctx.scopes.length + 1 := rfl

@[simp]
theorem Ctx.length_scopes_unscope (ctx : Ctx) :
    ctx.unscope.scopes.length = ctx.scopes.length - 1 := by
  simp [Ctx.unscope]

/-- A lowered tensor-type annotation, when defined, is a tensor type. -/
theorem getTensorIRType_isTensor (ctx : Ctx) (t : HTensorType)
    (ds : List String) (ty : IRType)
    (h : getTensorIRType ctx t = (ds, some ty)) :
    ∃ c d cv, ty = .tensor c d cv := by
  cases t with
  | scalar k =>
      cases k <;> simp [getTensorIRType, intType, floatType, booleanType] at h <;>
        exact ⟨_, _, _, h.2.symm⟩
  | ndtensor iss bt col =>
      rw [getTensorIRType] at h
      rcases hb : getTensorIRType ctx bt with ⟨bds, blockIR⟩
      rw [hb] at h
      rcases hi : getIndexSetList ctx iss with ⟨ids, isIR, isOk⟩
      rw [hi] at h
      dsimp only at h
      split at h
      · simp at h
      · split at h
        · split at h
          · simp at h
          · split at h
            · split at h
              · simp at h
              · simp only [Prod.mk.injEq, Option.some.injEq] at h
                exact ⟨_, _, _, h.2.symm⟩
            · simp only [Prod.mk.injEq, Option.some.injEq] at h
              exact ⟨_, _, _, h.2.symm⟩
        · simp at h

/-- containsFunction-style success makes getFunction succeed. -/
theorem getFunction_total (fs : List FuncSig) (fname : String)
    (h : fs.any (fun f => f.name == fname) = true) :
    ∃ f, fs.find? (fun f => f.name == fname) = some f := by
  induction fs with
  | nil => simp at h
  | cons f rest ih =>
      by_cases hf : (f.name == fname) = true
      · exact ⟨f, by simp [List.find?, hf]⟩
      · simp only [List.any_cons, hf, Bool.false_or] at h
        obtain ⟨g, hg⟩ := ih h
        exact ⟨g, by simp only [List.find?, hf]; exact hg⟩

theorem addToLast_concat (S : List Nat) (m n : Nat) :
    addToLast (S ++ [m]) n = S ++ [m + n] := by
  induction S with
  | nil => rfl
  | cons x rest ih =>
      cases rest with
      | nil => simp [addToLast]
      | cons y t => simpa [addToLast] using ih

/-- A successful readLoop collects exactly the sliced dimensions. -/
theorem readLoop_sliceSelect (ctx : Ctx) :
    ∀ (doms : List IndexDomain) (ps : List (Option Expr)) (ms : List String)
      (surv : List IndexDomain),
      readLoop ctx doms ps = .ok (ms, surv) → surv = sliceSelect doms ps
  | doms, [], ms, surv, h => by
      rw [readLoop_nil] at h
      simp only [Except.ok.injEq, Prod.mk.injEq] at h
      rw [← h.2]
      cases doms <;> rfl
  | [], p :: ps, ms, surv, h => by
      rw [readLoop_nil_cons] at h
      simp only [Except.ok.injEq, Prod.mk.injEq] at h
      rw [← h.2]
      cases p <;> rfl
  | d :: ds, none :: ps, ms, surv, h => by
      rw [readLoop_slice] at h
      rcases hr : readLoop ctx ds ps with _ | ⟨ms', surv'⟩
      · rw [hr] at h; cases h
      · rw [hr] at h
        simp only [bind, Except.bind, Except.ok.injEq, Prod.mk.injEq] at h
        have := readLoop_sliceSelect ctx ds ps ms' surv' hr
        simp [sliceSelect, ← h.2, this]
  | d :: ds, some e :: ps, ms, surv, h => by
      rw [readLoop_expr] at h
      rcases he : inferExpr ctx e with _ | ⟨eds, ety⟩
      · rw [he] at h; cases h
      · rw [he] at h
        rcases hr : readLoop ctx ds ps with _ | ⟨ms', surv'⟩
        · rw [hr] at h; cases h
        · rw [hr] at h
          simp only [bind, Except.bind, Except.ok.injEq, Prod.mk.injEq] at h
          have := readLoop_sliceSelect ctx ds ps ms' surv' hr
          simp [sliceSelect, ← h.2, this]

/-- Merging rows that all share the dense type of the accumulated shape
counts them into the last dimension. -/
theorem mergeRows_const (k : Option DKind) (S : List Nat) :
    ∀ (rest : List DLit) (m : Nat),
      (∀ l ∈ rest, getDenseTensorType l = .ok ⟨k, S⟩) →
      mergeRows ⟨k, S ++ [m]⟩ rest = .ok ⟨k, S ++ [m + rest.length]⟩
  | [], m, _ => by simp [mergeRows]
  | l :: ls, m, h => by
      rw [mergeRows, h l (by simp)]
      have hm : mergeDT ⟨k, S ++ [m]⟩ ⟨k, S⟩ = .ok ⟨k, S ++ [m + 1]⟩ := by
        simp [mergeDT, List.dropLast_concat, addToLast_concat]
      simp only [bind, Except.bind, hm]
      have hrec := mergeRows_const k S ls (m + 1) (fun x hx => h x (by simp [hx]))
      have harith : m + (l :: ls).length = (m + 1) + ls.length := by
        simp only [List.length_cons]
        omega
      rw [harith]
      exact hrec

/-- Composition of the sibling-merging loop over an appended list. -/
theorem mergeRows_append (xs : List DLit) :
    ∀ (t : DenseTensorTypeS) (ys : List DLit),
      mergeRows t (xs ++ ys) =
        (mergeRows t xs).bind fun t' => mergeRows t' ys := by
  induction xs with
  | nil => intro t ys; simp [mergeRows, Except.bind]
  | cons l ls ih =>
      intro t ys
      rw [List.cons_append, mergeRows, mergeRows]
      cases hl : getDenseTensorType l with
      | error e => simp [bind, Except.bind]
      | ok r =>
          simp only [bind, Except.bind]
          cases hm : mergeDT t r with
          | error e => simp [Except.bind]
          | ok t' => exact ih t' ys

/-- If a name is nowhere in the symbol stack it is not in the innermost
scope either. -/
theorem hasSymbolLocal_false (ctx : Ctx) (x : String)
    (h : ctx.hasSymbol x = false) : ctx.hasSymbolLocal x = false := by
  unfold Ctx.hasSymbol at h
  unfold Ctx.hasSymbolLocal
  cases hs : ctx.scopes with
  | nil => rfl
  | cons sc rest =>
      rw [hs] at h
      simp only [List.any_cons, Bool.or_eq_false_iff] at h
      exact h.1

/-- Looking up a name right after binding it in the innermost scope
yields the new binding. -/
theorem getSymbol_addSymbol_self (ctx : Ctx) (x : String) (s : SymB)
    (h : ctx.scopes ≠ []) :
    (ctx.addSymbol x s).getSymbol x = some s := by
  unfold Ctx.addSymbol
  cases hs : ctx.scopes with
  | nil => exact absurd hs h
  | cons sc rest =>
      unfold Ctx.getSymbol
      simp [List.find?, List.any_cons]

/-! Unfolding lemmas for the statement checker, proved by rfl. -/

theorem checkStmt_block (stmts : List Stmt) (ctx : Ctx) :
    checkStmt (.block stmts) ctx = checkStmtList stmts ctx := rfl

theorem checkStmt_varDecl (isConst : Bool) (name : String) (htype : HType)
    (initVal : Option Expr) (ctx : Ctx) :
    checkStmt (.varDecl isConst name htype initVal) ctx =
      typeCheckVarOrConstDecl ctx isConst name htype initVal := rfl

theorem checkStmt_while (cond : Expr) (body : Stmt) (ctx : Ctx) :
    checkStmt (.whileS cond body) ctx = (do
      let (cds, condType) ← inferExpr ctx cond
      let ctx := ctx.addDiags cds
      let ctx' ← checkStmt body ctx.scope
      pure (ctx'.unscope.addDiags (condCheck condType))) := rfl

theorem checkStmt_ifS_none (cond : Expr) (ifBody : Stmt) (ctx : Ctx) :
    checkStmt (.ifS cond ifBody none) ctx = (do
      let (cds, condType) ← inferExpr ctx cond
      let ctx := ctx.addDiags cds
      let c1 ← checkStmt ifBody ctx.scope
      pure (c1.unscope.addDiags (condCheck condType))) := rfl

theorem checkStmt_ifS_some (cond : Expr) (ifBody eb : Stmt) (ctx : Ctx) :
    checkStmt (.ifS cond ifBody (some eb)) ctx = (do
      let (cds, condType) ← inferExpr ctx cond
      let ctx := ctx.addDiags cds
      let c1 ← checkStmt ifBody ctx.scope
      let x ← checkStmt eb c1.unscope.scope
      pure (x.unscope.addDiags (condCheck condType))) := rfl

theorem checkStmt_forS (loopVar : String) (lower upper : Expr) (body : Stmt)
    (ctx : Ctx) :
    checkStmt (.forS loopVar lower upper body) ctx = (do
      let ctx := ctx.scope
      let (lds, lowerType) ← inferExpr ctx lower
      let (uds, upperType) ← inferExpr ctx upper
      let ctx := ctx.addDiags (lds ++ uds ++
        rangeBoundCheck "lower" lowerType ++ rangeBoundCheck "upper" upperType)
      let ctx := ctx.addSymbol loopVar ⟨some intType, true, false⟩
      let ctx' ← checkStmt body ctx
      pure ctx'.unscope) := rfl

theorem checkStmt_printS (e : Expr) (ctx : Ctx) :
    checkStmt (.printS e) ctx = (do
      let (ds, t) ← inferExpr ctx e
      pure (ctx.addDiags (ds ++ printCheck t))) := rfl

theorem checkStmtList_nil (ctx : Ctx) : checkStmtList [] ctx = .ok ctx := rfl

theorem checkStmtList_cons (s : Stmt) (rest : List Stmt) (ctx : Ctx) :
    checkStmtList (s :: rest) ctx = (do
      let ctx' ← checkStmt s ctx
      checkStmtList rest ctx') := rfl

/-- typeCheckVarOrConstDecl never pushes or pops a scope: a successful
result has the same scope-stack depth. -/
theorem scopes_typeCheckVarOrConstDecl (ctx : Ctx) (isConst : Bool)
    (name : String) (htype : HType) (initVal : Option Expr) (ctx' : Ctx)
    (h : typeCheckVarOrConstDecl ctx isConst name htype initVal = .ok ctx') :
    ctx'.scopes.length = ctx.scopes.length := by
  unfold typeCheckVarOrConstDecl at h
  rcases hg : getIRType ctx htype with ⟨vds, varType⟩
  rw [hg] at h
  cases initVal with
  | none =>
      simp only [bind, Except.bind, pure, Except.pure] at h
      repeat' split at h
      all_goals try cases h
      all_goals simp
  | some e =>
      simp only [bind, Except.bind, pure, Except.pure] at h
      rcases he : inferExpr (ctx.addDiags vds) e with a | ⟨eds, t⟩ <;>
        rw [he] at h <;>
        simp only [bind, Except.bind, pure, Except.pure] at h
      repeat' split at h
      all_goals try cases h
      all_goals simp

mutual

/-- checkStmt preserves the scope-stack depth on success: every scope()
is matched by an unscope() on the paths that return. -/
theorem scopes_checkStmt : ∀ (s : Stmt) (ctx ctx' : Ctx),
    checkStmt s ctx = .ok ctx' → ctx'.scopes.length = ctx.scopes.length
  | .block ss, ctx, ctx', h => scopes_checkStmtList ss ctx ctx' h
  | .varDecl isConst name htype initVal, ctx, ctx', h =>
      scopes_typeCheckVarOrConstDecl ctx isConst name htype initVal ctx' h
  | .whileS cond body, ctx, ctx', h => by
      rw [checkStmt_while] at h
      rcases hc : inferExpr ctx cond with a | ⟨cds, condType⟩ <;> rw [hc] at h
      · cases h
      · simp only [bind, Except.bind, pure, Except.pure] at h
        rcases hb : checkStmt body (ctx.addDiags cds).scope with a | c1 <;>
          rw [hb] at h
        · cases h
        · cases h
          have hrec := scopes_checkStmt body _ _ hb
          simp only [Ctx.scope, Ctx.addDiags, List.length_cons] at hrec
          simp [Ctx.unscope, Ctx.addDiags, hrec]
  | .ifS cond ifBody none, ctx, ctx', h => by
      rw [checkStmt_ifS_none] at h
      rcases hc : inferExpr ctx cond with a | ⟨cds, condType⟩ <;> rw [hc] at h
      · cases h
      · simp only [bind, Except.bind, pure, Except.pure] at h
        rcases hb : checkStmt ifBody (ctx.addDiags cds).scope with a | c1 <;>
          rw [hb] at h
        · cases h
        · cases h
          have hrec := scopes_checkStmt ifBody _ _ hb
          simp only [Ctx.scope, Ctx.addDiags, List.length_cons] at hrec
          simp [Ctx.unscope, Ctx.addDiags, hrec]
  | .ifS cond ifBody (some eb), ctx, ctx', h => by
      rw [checkStmt_ifS_some] at h
      rcases hc : inferExpr ctx cond with a | ⟨cds, condType⟩ <;> rw [hc] at h
      · cases h
      · simp only [bind, Except.bind, pure, Except.pure] at h
        rcases hb : checkStmt ifBody (ctx.addDiags cds).scope with a | c1 <;>
          rw [hb] at h
        · cases h
        · simp only [bind, Except.bind, pure, Except.pure] at h
          rcases hb2 : checkStmt eb c1.unscope.scope with a | c2 <;>
            rw [hb2] at h
          · cases h
          · cases h
            have hrec1 := scopes_checkStmt ifBody _ _ hb
            have hrec2 := scopes_checkStmt eb _ _ hb2
            simp only [Ctx.scope, Ctx.addDiags, Ctx.unscope,
              List.length_cons] at hrec1 hrec2
            simp [Ctx.unscope, Ctx.addDiags, hrec2, List.length_tail]
            omega
  | .forS loopVar lower upper body, ctx, ctx', h => by
      rw [checkStmt_forS] at h
      simp only [bind, Except.bind, pure, Except.pure] at h
      rcases hl : inferExpr ctx.scope lower with a | ⟨lds, lowerType⟩ <;>
        rw [hl] at h
      · cases h
      · simp only [bind, Except.bind, pure, Except.pure] at h
        rcases hu : inferExpr ctx.scope upper with a | ⟨uds, upperType⟩ <;>
          rw [hu] at h
        · cases h
        · simp only [bind, Except.bind, pure, Except.pure] at h
          rcases hb : checkStmt body _ with a | c1 <;> rw [hb] at h
          · cases h
          · cases h
            have hrec := scopes_checkStmt body _ _ hb
            simp only [Ctx.scope, Ctx.addDiags, Ctx.length_scopes_addSymbol,
              List.length_cons] at hrec
            simp [Ctx.unscope, List.length_tail, hrec]
  | .printS e, ctx, ctx', h => by
      rw [checkStmt_printS] at h
      rcases he : inferExpr ctx e with a | ⟨ds, t⟩ <;> rw [he] at h
      · cases h
      · simp only [bind, Except.bind, pure, Except.pure] at h
        cases h
        simp

/-- checkStmtList preserves the scope-stack depth on success. -/
theorem scopes_checkStmtList : ∀ (ss : List Stmt) (ctx ctx' : Ctx),
    checkStmtList ss ctx = .ok ctx' → ctx'.scopes.length = ctx.scopes.length
  | [], ctx, ctx', h => by
      rw [checkStmtList_nil] at h
      cases h
      rfl
  | s :: rest, ctx, ctx', h => by
      rw [checkStmtList_cons] at h
      rcases hs : checkStmt s ctx with a | c1 <;> rw [hs] at h
      · cases h
      · simp only [bind, Except.bind] at h
        have h1 := scopes_checkStmt s ctx c1 hs
        have h2 := scopes_checkStmtList rest c1 ctx' h
        omega

end

/-- The argument loop of visit(FuncDecl) preserves the scope-stack
depth. -/
theorem scopes_funcArgsLoop :
    ∀ (args : List (String × Bool × HType)) (ctx : Ctx),
      (funcArgsLoop args ctx).1.scopes.length = ctx.scopes.length
  | [], ctx => rfl
  | (an, inout, aty) :: rest, ctx => by
      rw [funcArgsLoop]
      rcases hg : getIRType ctx aty with ⟨ds, t⟩
      cases t with
      | none =>
          have hrec := scopes_funcArgsLoop rest (ctx.addDiags ds)
          rcases hr : funcArgsLoop rest (ctx.addDiags ds) with ⟨ctx2, l, ok⟩
          rw [hr] at hrec
          simp only [Ctx.addDiags] at hrec
          simp [hg, hr, hrec]
      | some ty =>
          have hrec := scopes_funcArgsLoop rest
            ((ctx.addDiags ds).addSymbol an ⟨some ty, true, inout⟩)
          rcases hr : funcArgsLoop rest
              ((ctx.addDiags ds).addSymbol an ⟨some ty, true, inout⟩) with
            ⟨ctx2, l, ok⟩
          rw [hr] at hrec
          simp only [Ctx.length_scopes_addSymbol, Ctx.addDiags] at hrec
          simp [hg, hr, hrec]

/-- The result loop of visit(FuncDecl) preserves the scope-stack
depth. -/
theorem scopes_funcResultsLoop :
    ∀ (results : List (String × HType)) (ctx : Ctx),
      (funcResultsLoop results ctx).1.scopes.length = ctx.scopes.length
  | [], ctx => rfl
  | (rn, rty) :: rest, ctx => by
      rw [funcResultsLoop]
      rcases hg : getIRType ctx rty with ⟨ds, t⟩
      cases t with
      | none =>
          have hrec := scopes_funcResultsLoop rest (ctx.addDiags ds)
          rcases hr : funcResultsLoop rest (ctx.addDiags ds) with ⟨ctx2, l, ok⟩
          rw [hr] at hrec
          simp only [Ctx.addDiags] at hrec
          simp [hg, hr, hrec]
      | some ty =>
          have hrec := scopes_funcResultsLoop rest
            ((ctx.addDiags ds).addSymbol rn ⟨some ty, true, true⟩)
          rcases hr : funcResultsLoop rest
              ((ctx.addDiags ds).addSymbol rn ⟨some ty, true, true⟩) with
            ⟨ctx2, l, ok⟩
          rw [hr] at hrec
          simp only [Ctx.length_scopes_addSymbol, Ctx.addDiags] at hrec
          simp [hg, hr, hrec]

/-- checkDecl preserves the scope-stack depth on success: the scope
pushed by a function declaration is popped again after its body. -/
theorem scopes_checkDecl (d : Decl) (ctx ctx' : Ctx)
    (h : checkDecl d ctx = .ok ctx') :
    ctx'.scopes.length = ctx.scopes.length := by
  cases d with
  | elementDecl name fields =>
      unfold checkDecl at h
      dsimp only at h
      rcases hg : gatherFields ctx fields with ⟨ds, fs⟩
      rw [hg] at h
      split at h <;> (cases h; simp [Ctx.addElementType, Ctx.addDiags])
  | extDecl name htype =>
      unfold checkDecl at h
      dsimp only at h
      rcases hg : getIRType ctx htype with ⟨ds, t⟩
      rw [hg] at h
      split at h <;> (cases h; simp)
  | funcDecl name args results body =>
      unfold checkDecl at h
      dsimp only at h
      rcases ha : funcArgsLoop args ctx.scope with ⟨ctx1, argVars, ok1⟩
      rw [ha] at h
      dsimp only at h
      rcases hr : funcResultsLoop results ctx1 with ⟨ctx2, resVars, ok2⟩
      rw [hr] at h
      dsimp only at h
      simp only [bind, Except.bind, pure, Except.pure] at h
      rcases hb : checkStmt body ctx2 with a | ctx3 <;> rw [hb] at h <;>
        dsimp only at h
      · cases h
      · have h1 := scopes_funcArgsLoop args ctx.scope
        rw [ha] at h1
        have h2 := scopes_funcResultsLoop results ctx1
        rw [hr] at h2
        have h3 := scopes_checkStmt body ctx2 ctx3 hb
        simp only [Ctx.scope, List.length_cons] at h1 h2
        have hlen : ctx3.scopes.length = ctx.scopes.length + 1 := by omega
        repeat' split at h
        all_goals cases h
        all_goals
          (simp only [Ctx.unscope, Ctx.addDiags, Ctx.addFunction,
            List.length_tail]
           omega)

/-- checkProgram preserves the scope-stack depth on success. -/
theorem scopes_checkProgram : ∀ (ds : List Decl) (ctx ctx' : Ctx),
    checkProgram ds ctx = .ok ctx' → ctx'.scopes.length = ctx.scopes.length
  | [], ctx, ctx', h => by
      unfold checkProgram at h
      cases h
      rfl
  | d :: rest, ctx, ctx', h => by
      unfold checkProgram at h
      rcases hd : checkDecl d ctx with a | c1 <;> rw [hd] at h
      · cases h
      · simp only [bind, Except.bind] at h
        have h1 := scopes_checkDecl d ctx c1 hd
        have h2 := scopes_checkProgram rest c1 ctx' h
        omega

/-! Unfolding lemmas for the safety predicates, proved by rfl. -/

theorem exprSafe_eqE (funcs : List FuncSig) (ops : List Expr) :
    exprSafe funcs (.eqE ops) = exprSafeL funcs ops := rfl

theorem exprSafe_notE (funcs : List FuncSig) (e : Expr) :
    exprSafe funcs (.notE e) = exprSafe funcs e := rfl

theorem exprSafe_andE (funcs : List FuncSig) (l r : Expr) :
    exprSafe funcs (.andE l r) = (exprSafe funcs l && exprSafe funcs r) := rfl

theorem exprSafe_orE (funcs : List FuncSig) (l r : Expr) :
    exprSafe funcs (.orE l r) = (exprSafe funcs l && exprSafe funcs r) := rfl

theorem exprSafe_xorE (funcs : List FuncSig) (l r : Expr) :
    exprSafe funcs (.xorE l r) = (exprSafe funcs l && exprSafe funcs r) := rfl

theorem exprSafe_addE (funcs : List FuncSig) (l r : Expr) :
    exprSafe funcs (.addE l r) = (exprSafe funcs l && exprSafe funcs r) := rfl

theorem exprSafe_subE (funcs : List FuncSig) (l r : Expr) :
    exprSafe funcs (.subE l r) = (exprSafe funcs l && exprSafe funcs r) := rfl

theorem exprSafe_mulE (funcs : List FuncSig) (l r : Expr) :
    exprSafe funcs (.mulE l r) = (exprSafe funcs l && exprSafe funcs r) := rfl

theorem exprSafe_divE (funcs : List FuncSig) (l r : Expr) :
    exprSafe funcs (.divE l r) = (exprSafe funcs l && exprSafe funcs r) := rfl

theorem exprSafe_elwiseMulE (funcs : List FuncSig) (l r : Expr) :
    exprSafe funcs (.elwiseMulE l r) =
      (exprSafe funcs l && exprSafe funcs r) := rfl

theorem exprSafe_elwiseDivE (funcs : List FuncSig) (l r : Expr) :
    exprSafe funcs (.elwiseDivE l r) =
      (exprSafe funcs l && exprSafe funcs r) := rfl

theorem exprSafe_negE (funcs : List FuncSig) (e : Expr) :
    exprSafe funcs (.negE e) = exprSafe funcs e := rfl

theorem exprSafe_transposeE (funcs : List FuncSig) (e : Expr) :
    exprSafe funcs (.transposeE e) = exprSafe funcs e := rfl

theorem exprSafe_callE (funcs : List FuncSig) (fname : String)
    (args : List Expr) :
    exprSafe funcs (.callE fname args) =
      (funcs.any (fun g => g.name == fname) && exprSafeL funcs args) := rfl

theorem exprSafe_tensorRead (funcs : List FuncSig) (t : Expr)
    (idx : List (Option Expr)) :
    exprSafe funcs (.tensorRead t idx) =
      (exprSafe funcs t && rpSafe idx) := rfl

theorem exprSafe_mapE (funcs : List FuncSig) (fname tname : String)
    (partials : List Expr) :
    exprSafe funcs (.mapE fname tname partials) =
      exprSafeL funcs partials := rfl

theorem exprSafeL_cons (funcs : List FuncSig) (e : Expr) (rest : List Expr) :
    exprSafeL funcs (e :: rest) =
      (exprSafe funcs e && exprSafeL funcs rest) := rfl

theorem stmtWF_block (funcs : List FuncSig) (ss : List Stmt) :
    stmtWF funcs (.block ss) = stmtWFL funcs ss := rfl

theorem stmtWF_varDecl (funcs : List FuncSig) (isConst : Bool) (name : String)
    (htype : HType) (initVal : Option Expr) :
    stmtWF funcs (.varDecl isConst name htype initVal) =
      (isTensorAnn htype &&
        (match initVal with
         | none => true
         | some e => !isConst && exprSafe funcs e)) := rfl

theorem stmtWF_whileS (funcs : List FuncSig) (c : Expr) (b : Stmt) :
    stmtWF funcs (.whileS c b) = (exprSafe funcs c && stmtWF funcs b) := rfl

theorem stmtWF_ifS_none (funcs : List FuncSig) (c : Expr) (b : Stmt) :
    stmtWF funcs (.ifS c b none) =
      (exprSafe funcs c && stmtWF funcs b && true) := rfl

theorem stmtWF_ifS_some (funcs : List FuncSig) (c : Expr) (b eb : Stmt) :
    stmtWF funcs (.ifS c b (some eb)) =
      (exprSafe funcs c && stmtWF funcs b && stmtWF funcs eb) := rfl

theorem stmtWF_forS (funcs : List FuncSig) (v : String) (lo hi : Expr)
    (b : Stmt) :
    stmtWF funcs (.forS v lo hi b) =
      (exprSafe funcs lo && exprSafe funcs hi && stmtWF funcs b) := rfl

theorem stmtWF_printS (funcs : List FuncSig) (e : Expr) :
    stmtWF funcs (.printS e) = exprSafe funcs e := rfl

theorem stmtWFL_cons (funcs : List FuncSig) (s : Stmt) (rest : List Stmt) :
    stmtWFL funcs (s :: rest) = (stmtWF funcs s && stmtWFL funcs rest) := rfl

/-- typeCheckVarOrConstDecl never registers a function: the function
registry is unchanged on success. -/
theorem funcs_typeCheckVarOrConstDecl (ctx : Ctx) (isConst : Bool)
    (name : String) (htype : HType) (initVal : Option Expr) (ctx' : Ctx)
    (h : typeCheckVarOrConstDecl ctx isConst name htype initVal = .ok ctx') :
    ctx'.funcs = ctx.funcs := by
  unfold typeCheckVarOrConstDecl at h
  rcases hg : getIRType ctx htype with ⟨vds, varType⟩
  rw [hg] at h
  cases initVal with
  | none =>
      simp only [bind, Except.bind, pure, Except.pure] at h
      repeat' split at h
      all_goals try cases h
      all_goals simp
  | some e =>
      simp only [bind, Except.bind, pure, Except.pure] at h
      rcases he : inferExpr (ctx.addDiags vds) e with a | ⟨eds, t⟩ <;>
        rw [he] at h <;>
        simp only [bind, Except.bind, pure, Except.pure] at h
      repeat' split at h
      all_goals try cases h
      all_goals simp

mutual

/-- checkStmt never registers a function: the function registry is
unchanged on success. -/
theorem funcs_checkStmt : ∀ (s : Stmt) (ctx ctx' : Ctx),
    checkStmt s ctx = .ok ctx' → ctx'.funcs = ctx.funcs
  | .block ss, ctx, ctx', h => funcs_checkStmtList ss ctx ctx' h
  | .varDecl isConst name htype initVal, ctx, ctx', h =>
      funcs_typeCheckVarOrConstDecl ctx isConst name htype initVal ctx' h
  | .whileS cond body, ctx, ctx', h => by
      rw [checkStmt_while] at h
      rcases hc : inferExpr ctx cond with a | ⟨cds, condType⟩ <;> rw [hc] at h
      · cases h
      · simp only [bind, Except.bind, pure, Except.pure] at h
        rcases hb : checkStmt body (ctx.addDiags cds).scope with a | c1 <;>
          rw [hb] at h
        · cases h
        · cases h
          have hrec := funcs_checkStmt body _ _ hb
          simpa using hrec
  | .ifS cond ifBody none, ctx, ctx', h => by
      rw [checkStmt_ifS_none] at h
      rcases hc : inferExpr ctx cond with a | ⟨cds, condType⟩ <;> rw [hc] at h
      · cases h
      · simp only [bind, Except.bind, pure, Except.pure] at h
        rcases hb : checkStmt ifBody (ctx.addDiags cds).scope with a | c1 <;>
          rw [hb] at h
        · cases h
        · cases h
          have hrec := funcs_checkStmt ifBody _ _ hb
          simpa using hrec
  | .ifS cond ifBody (some eb), ctx, ctx', h => by
      rw [checkStmt_ifS_some] at h
      rcases hc : inferExpr ctx cond with a | ⟨cds, condType⟩ <;> rw [hc] at h
      · cases h
      · simp only [bind, Except.bind, pure, Except.pure] at h
        rcases hb : checkStmt ifBody (ctx.addDiags cds).scope with a | c1 <;>
          rw [hb] at h
        · cases h
        · simp only [bind, Except.bind, pure, Except.pure] at h
          rcases hb2 : checkStmt eb c1.unscope.scope with a | c2 <;>
            rw [hb2] at h
          · cases h
          · cases h
            have hrec1 := funcs_checkStmt ifBody _ _ hb
            have hrec2 := funcs_checkStmt eb _ _ hb2
            simp only [Ctx.funcs_scope, Ctx.funcs_unscope,
              Ctx.funcs_addDiags] at hrec1 hrec2
            simp [hrec1, hrec2]
  | .forS loopVar lower upper body, ctx, ctx', h => by
      rw [checkStmt_forS] at h
      simp only [bind, Except.bind, pure, Except.pure] at h
      rcases hl : inferExpr ctx.scope lower with a | ⟨lds, lowerType⟩ <;>
        rw [hl] at h
      · cases h
      · simp only [bind, Except.bind, pure, Except.pure] at h
        rcases hu : inferExpr ctx.scope upper with a | ⟨uds, upperType⟩ <;>
          rw [hu] at h
        · cases h
        · simp only [bind, Except.bind, pure, Except.pure] at h
          rcases hb : checkStmt body _ with a | c1 <;> rw [hb] at h
          · cases h
          · cases h
            have hrec := funcs_checkStmt body _ _ hb
            simp only [Ctx.funcs_scope, Ctx.funcs_addDiags,
              Ctx.funcs_addSymbol] at hrec
            simp [hrec]
  | .printS e, ctx, ctx', h => by
      rw [checkStmt_printS] at h
      rcases he : inferExpr ctx e with a | ⟨ds, t⟩ <;> rw [he] at h
      · cases h
      · simp only [bind, Except.bind, pure, Except.pure] at h
        cases h
        simp

/-- checkStmtList never registers a function. -/
theorem funcs_checkStmtList : ∀ (ss : List Stmt) (ctx ctx' : Ctx),
    checkStmtList ss ctx = .ok ctx' → ctx'.funcs = ctx.funcs
  | [], ctx, ctx', h => by
      rw [checkStmtList_nil] at h
      cases h
      rfl
  | s :: rest, ctx, ctx', h => by
      rw [checkStmtList_cons] at h
      rcases hs : checkStmt s ctx with a | c1 <;> rw [hs] at h
      · cases h
      · simp only [bind, Except.bind] at h
        have h1 := funcs_checkStmt s ctx c1 hs
        have h2 := funcs_checkStmtList rest c1 ctx' h
        rw [h2, h1]

end

/-- A scalar literal always infers a defined type. -/
theorem scalarLit_total (n : Nat) (ctx : Ctx) (e : Expr)
    (h : isScalarLit e = true) (hn : 1 ≤ n) :
    ∃ ds ts, inferExprF n ctx e = .ok (ds, some ts) := by
  rcases n with _ | n
  · omega
  · cases e with
    | intLit v => exact ⟨[], [intType], rfl⟩
    | floatLit => exact ⟨[], [floatType], rfl⟩
    | boolLit b => exact ⟨[], [booleanType], rfl⟩
    | varE x => simp [isScalarLit] at h
    | eqE ops => simp [isScalarLit] at h
    | notE e1 => simp [isScalarLit] at h
    | andE l r => simp [isScalarLit] at h
    | orE l r => simp [isScalarLit] at h
    | xorE l r => simp [isScalarLit] at h
    | addE l r => simp [isScalarLit] at h
    | subE l r => simp [isScalarLit] at h
    | mulE l r => simp [isScalarLit] at h
    | divE l r => simp [isScalarLit] at h
    | elwiseMulE l r => simp [isScalarLit] at h
    | elwiseDivE l r => simp [isScalarLit] at h
    | negE e1 => simp [isScalarLit] at h
    | transposeE e1 => simp [isScalarLit] at h
    | callE f args => simp [isScalarLit] at h
    | tensorRead t idx => simp [isScalarLit] at h
    | mapE f tg ps => simp [isScalarLit] at h
    | denseLit lit => simp [isScalarLit] at h

/-! Totality of the checker on safe inputs: the only failure channel is
the accumulated diagnostics. -/

mutual

/-- On an expression whose called functions are all declared and whose
tensor-read indices are slices or scalar literals, the checker never
aborts. -/
theorem inferExprF_total : ∀ (n : Nat) (ctx : Ctx) (e : Expr),
    exprSize e ≤ n → exprSafe ctx.funcs e = true →
    ∃ r, inferExprF n ctx e = .ok r
  | 0, _, e, hn, _ => absurd hn (by have := exprSize_pos e; omega)
  | n + 1, ctx, e, hn, hs => by
      cases e with
      | intLit v => exact ⟨_, rfl⟩
      | floatLit => exact ⟨_, rfl⟩
      | boolLit b => exact ⟨_, rfl⟩
      | varE x =>
          rw [inferExprF_varE]
          split
          · exact ⟨_, rfl⟩
          · split
            · exact ⟨_, rfl⟩
            · dsimp only
              split
              · exact ⟨_, rfl⟩
              · exact ⟨_, rfl⟩
      | denseLit lit =>
          rcases ht : typeCheckDenseTensorLiteral lit with ⟨ds, r⟩
          exact ⟨(ds, r), by rw [inferExprF_denseLit, ht]⟩
      | eqE ops =>
          rw [exprSize_eqE] at hn
          rw [exprSafe_eqE] at hs
          obtain ⟨⟨ds, rep⟩, hr⟩ := eqLoopF_total n ctx ops none (by omega) hs
          exact ⟨(ds, some [booleanType]), by rw [inferExprF_eqE, hr]; rfl⟩
      | notE op =>
          rw [exprSize_notE] at hn
          rw [exprSafe_notE] at hs
          obtain ⟨⟨ds, t⟩, hr⟩ := inferExprF_total n ctx op (by omega) hs
          exact ⟨(ds ++ visitNotCheck t, some [booleanType]),
            by rw [inferExprF_notE, hr]; rfl⟩
      | andE l r =>
          rw [exprSize_andE] at hn
          rw [exprSafe_andE, Bool.and_eq_true] at hs
          obtain ⟨⟨lds, lt⟩, hl⟩ := inferExprF_total n ctx l (by omega) hs.1
          obtain ⟨⟨rds, rt⟩, hr⟩ := inferExprF_total n ctx r (by omega) hs.2
          rcases ht : typeCheckBinaryBoolean lt rt with ⟨ds, res⟩
          exact ⟨(lds ++ rds ++ ds, res),
            by rw [inferExprF_andE, hl, hr]; simp only [bind, Except.bind]
               rw [ht]⟩
      | orE l r =>
          rw [exprSize_orE] at hn
          rw [exprSafe_orE, Bool.and_eq_true] at hs
          obtain ⟨⟨lds, lt⟩, hl⟩ := inferExprF_total n ctx l (by omega) hs.1
          obtain ⟨⟨rds, rt⟩, hr⟩ := inferExprF_total n ctx r (by omega) hs.2
          rcases ht : typeCheckBinaryBoolean lt rt with ⟨ds, res⟩
          exact ⟨(lds ++ rds ++ ds, res),
            by rw [inferExprF_orE, hl, hr]; simp only [bind, Except.bind]
               rw [ht]⟩
      | xorE l r =>
          rw [exprSize_xorE] at hn
          rw [exprSafe_xorE, Bool.and_eq_true] at hs
          obtain ⟨⟨lds, lt⟩, hl⟩ := inferExprF_total n ctx l (by omega) hs.1
          obtain ⟨⟨rds, rt⟩, hr⟩ := inferExprF_total n ctx r (by omega) hs.2
          rcases ht : typeCheckBinaryBoolean lt rt with ⟨ds, res⟩
          exact ⟨(lds ++ rds ++ ds, res),
            by rw [inferExprF_xorE, hl, hr]; simp only [bind, Except.bind]
               rw [ht]⟩
      | addE l r =>
          rw [exprSize_addE] at hn
          rw [exprSafe_addE, Bool.and_eq_true] at hs
          obtain ⟨⟨lds, lt⟩, hl⟩ := inferExprF_total n ctx l (by omega) hs.1
          obtain ⟨⟨rds, rt⟩, hr⟩ := inferExprF_total n ctx r (by omega) hs.2
          rcases ht : typeCheckBinaryElwise lt rt with ⟨ds, res⟩
          exact ⟨(lds ++ rds ++ ds, res),
            by rw [inferExprF_addE, hl, hr]; simp only [bind, Except.bind]
               rw [ht]⟩
      | subE l r =>
          rw [exprSize_subE] at hn
          rw [exprSafe_subE, Bool.and_eq_true] at hs
          obtain ⟨⟨lds, lt⟩, hl⟩ := inferExprF_total n ctx l (by omega) hs.1
          obtain ⟨⟨rds, rt⟩, hr⟩ := inferExprF_total n ctx r (by omega) hs.2
          rcases ht : typeCheckBinaryElwise lt rt with ⟨ds, res⟩
          exact ⟨(lds ++ rds ++ ds, res),
            by rw [inferExprF_subE, hl, hr]; simp only [bind, Except.bind]
               rw [ht]⟩
      | elwiseMulE l r =>
          rw [exprSize_elwiseMulE] at hn
          rw [exprSafe_elwiseMulE, Bool.and_eq_true] at hs
          obtain ⟨⟨lds, lt⟩, hl⟩ := inferExprF_total n ctx l (by omega) hs.1
          obtain ⟨⟨rds, rt⟩, hr⟩ := inferExprF_total n ctx r (by omega) hs.2
          rcases ht : typeCheckBinaryElwise lt rt with ⟨ds, res⟩
          exact ⟨(lds ++ rds ++ ds, res),
            by rw [inferExprF_elwiseMulE, hl, hr]; simp only [bind, Except.bind]
               rw [ht]⟩
      | elwiseDivE l r =>
          rw [exprSize_elwiseDivE] at hn
          rw [exprSafe_elwiseDivE, Bool.and_eq_true] at hs
          obtain ⟨⟨lds, lt⟩, hl⟩ := inferExprF_total n ctx l (by omega) hs.1
          obtain ⟨⟨rds, rt⟩, hr⟩ := inferExprF_total n ctx r (by omega) hs.2
          rcases ht : typeCheckBinaryElwise lt rt with ⟨ds, res⟩
          exact ⟨(lds ++ rds ++ ds, res),
            by rw [inferExprF_elwiseDivE, hl, hr]; simp only [bind, Except.bind]
               rw [ht]⟩
      | mulE l r =>
          rw [exprSize_mulE] at hn
          rw [exprSafe_mulE, Bool.and_eq_true] at hs
          obtain ⟨⟨lds, lt⟩, hl⟩ := inferExprF_total n ctx l (by omega) hs.1
          obtain ⟨⟨rds, rt⟩, hr⟩ := inferExprF_total n ctx r (by omega) hs.2
          rcases ht : visitMulTypes lt rt with ⟨ds, res⟩
          exact ⟨(lds ++ rds ++ ds, res),
            by rw [inferExprF_mulE, hl, hr]; simp only [bind, Except.bind]
               rw [ht]⟩
      | divE l r =>
          rw [exprSize_divE] at hn
          rw [exprSafe_divE, Bool.and_eq_true] at hs
          obtain ⟨⟨lds, lt⟩, hl⟩ := inferExprF_total n ctx l (by omega) hs.1
          obtain ⟨⟨rds, rt⟩, hr⟩ := inferExprF_total n ctx r (by omega) hs.2
          rcases ht : visitDivTypes lt rt with ⟨ds, res⟩
          exact ⟨(lds ++ rds ++ ds, res),
            by rw [inferExprF_divE, hl, hr]; simp only [bind, Except.bind]
               rw [ht]⟩
      | negE op =>
          rw [exprSize_negE] at hn
          rw [exprSafe_negE] at hs
          obtain ⟨⟨ds, t⟩, hr⟩ := inferExprF_total n ctx op (by omega) hs
          rcases ht : visitNegTypes t with ⟨nds, res⟩
          exact ⟨(ds ++ nds, res),
            by rw [inferExprF_negE, hr]; simp only [bind, Except.bind]
               rw [ht]⟩
      | transposeE op =>
          rw [exprSize_transposeE] at hn
          rw [exprSafe_transposeE] at hs
          obtain ⟨⟨ds, t⟩, hr⟩ := inferExprF_total n ctx op (by omega) hs
          rcases ht : visitTransposeTypes t with ⟨tds, res⟩
          exact ⟨(ds ++ tds, res),
            by rw [inferExprF_transposeE, hr]; simp only [bind, Except.bind]
               rw [ht]⟩
      | callE fname args =>
          rw [exprSize_callE] at hn
          rw [exprSafe_callE, Bool.and_eq_true] at hs
          obtain ⟨f, hf⟩ := getFunction_total ctx.funcs fname hs.1
          have hf2 : ctx.getFunction fname = some f := hf
          obtain ⟨⟨ads, argTys⟩, ha⟩ :=
            inferArgListF_total n ctx args (by omega) hs.2
          exact ⟨(ads ++ callCheckDiags f args.length argTys,
              some (f.results.map (·.2))),
            by rw [inferExprF_callE, hf2, ha]; rfl⟩
      | tensorRead t idx =>
          rw [exprSize_tensorRead] at hn
          rw [exprSafe_tensorRead, Bool.and_eq_true] at hs
          obtain ⟨⟨bds, bty⟩, hbt⟩ := inferExprF_total n ctx t
            (by have := exprSizeO_pos idx; omega) hs.1
          rw [inferExprF_tensorRead, hbt]
          simp only [Except.bind]
          cases bty with
          | none => exact ⟨_, rfl⟩
          | some tys =>
              dsimp only
              by_cases hlen1 : (tys.length != 1) = true
              · rw [if_pos hlen1]
                exact ⟨_, rfl⟩
              · rw [if_neg hlen1]
                cases htys : tys.headD intType with
                | tensor c dims cv =>
                    dsimp only
                    by_cases hd : (dims.length != idx.length) = true
                    · rw [if_pos hd]
                      exact ⟨_, rfl⟩
                    · rw [if_neg hd]
                      obtain ⟨⟨ms, surv⟩, hrl⟩ := readLoopF_total n ctx dims idx
                        (by have := exprSize_pos t; omega) hs.2
                      rw [hrl]
                      exact ⟨_, rfl⟩
                | elementT en => exact ⟨_, rfl⟩
                | setT en eps => exact ⟨_, rfl⟩
                | tupleT en k =>
                    dsimp only
                    cases idx with
                    | nil => exact ⟨_, rfl⟩
                    | cons hd0 tl =>
                        cases tl with
                        | cons h2 t2 => cases hd0 <;> exact ⟨_, rfl⟩
                        | nil =>
                            cases hd0 with
                            | none => exact ⟨_, rfl⟩
                            | some e =>
                                have hrp : (isScalarLit e && rpSafe []) = true :=
                                  hs.2
                                rw [Bool.and_eq_true] at hrp
                                obtain ⟨ds2, ts2, he⟩ := scalarLit_total n ctx e
                                  hrp.1 (by have := exprSize_pos t; omega)
                                dsimp only
                                rw [he]
                                exact ⟨_, rfl⟩
      | mapE fname tname partials =>
          rw [exprSize_mapE] at hn
          rw [exprSafe_mapE] at hs
          obtain ⟨⟨pds, actuals0⟩, hp⟩ :=
            mapPartialsLoopF_total n ctx partials (by omega) hs
          rcases hy : inferExprF (n + 1) ctx (.mapE fname tname partials) with
            a | r
          · exfalso
            rw [inferExprF_mapE, hp] at hy
            simp only [bind, Except.bind] at hy
            repeat' split at hy
            all_goals cases hy
          · exact ⟨r, rfl⟩

/-- The EqExpr operand loop never aborts on safe operands. -/
theorem eqLoopF_total : ∀ (n : Nat) (ctx : Ctx) (es : List Expr)
    (rep : Option (List IRType)),
    exprSizeL es ≤ n → exprSafeL ctx.funcs es = true →
    ∃ r, eqLoopF n ctx es rep = .ok r
  | 0, _, es, _, hn, _ => absurd hn (by have := exprSizeL_pos es; omega)
  | _ + 1, _, [], rep, _, _ => ⟨_, rfl⟩
  | n + 1, ctx, e :: rest, rep, hn, hs => by
      rw [exprSizeL_cons] at hn
      rw [exprSafeL_cons, Bool.and_eq_true] at hs
      obtain ⟨⟨eds, et⟩, he⟩ := inferExprF_total n ctx e
        (by have := exprSizeL_pos rest; omega) hs.1
      rcases hq : eqOperandCheck rep et with ⟨cds, repN⟩
      obtain ⟨⟨rds, repF⟩, hr⟩ := eqLoopF_total n ctx rest repN
        (by have := exprSize_pos e; omega) hs.2
      exact ⟨(eds ++ cds ++ rds, repF),
        by rw [eqLoopF_cons, he]; simp only [bind, Except.bind, hq, hr]⟩

/-- The CallExpr argument loop never aborts on safe arguments. -/
theorem inferArgListF_total : ∀ (n : Nat) (ctx : Ctx) (es : List Expr),
    exprSizeL es ≤ n → exprSafeL ctx.funcs es = true →
    ∃ r, inferArgListF n ctx es = .ok r
  | 0, _, es, hn, _ => absurd hn (by have := exprSizeL_pos es; omega)
  | _ + 1, _, [], _, _ => ⟨_, rfl⟩
  | n + 1, ctx, e :: rest, hn, hs => by
      rw [exprSizeL_cons] at hn
      rw [exprSafeL_cons, Bool.and_eq_true] at hs
      obtain ⟨⟨eds, et⟩, he⟩ := inferExprF_total n ctx e
        (by have := exprSizeL_pos rest; omega) hs.1
      obtain ⟨⟨rds, ts⟩, hr⟩ := inferArgListF_total n ctx rest
        (by have := exprSize_pos e; omega) hs.2
      exact ⟨(eds ++ rds, et :: ts),
        by rw [inferArgListF_cons, he]; simp only [bind, Except.bind, hr]⟩

/-- The MapExpr partial-actuals loop never aborts on safe arguments. -/
theorem mapPartialsLoopF_total : ∀ (n : Nat) (ctx : Ctx) (es : List Expr),
    exprSizeL es ≤ n → exprSafeL ctx.funcs es = true →
    ∃ r, mapPartialsLoopF n ctx es = .ok r
  | 0, _, es, hn, _ => absurd hn (by have := exprSizeL_pos es; omega)
  | _ + 1, _, [], _, _ => ⟨_, rfl⟩
  | n + 1, ctx, e :: rest, hn, hs => by
      rw [exprSizeL_cons] at hn
      rw [exprSafeL_cons, Bool.and_eq_true] at hs
      obtain ⟨⟨eds, et⟩, he⟩ := inferExprF_total n ctx e
        (by have := exprSizeL_pos rest; omega) hs.1
      obtain ⟨⟨rds, ts⟩, hr⟩ := mapPartialsLoopF_total n ctx rest
        (by have := exprSize_pos e; omega) hs.2
      rcases hy : mapPartialsLoopF (n + 1) ctx (e :: rest) with a | r
      · exfalso
        rw [mapPartialsLoopF_cons, he] at hy
        simp only [bind, Except.bind, hr] at hy
        repeat' split at hy
        all_goals cases hy
      · exact ⟨r, rfl⟩

/-- The tensor-read index loop never aborts on slice or scalar-literal
indices. -/
theorem readLoopF_total : ∀ (n : Nat) (ctx : Ctx) (doms : List IndexDomain)
    (ps : List (Option Expr)),
    exprSizeO ps ≤ n → rpSafe ps = true →
    ∃ r, readLoopF n ctx doms ps = .ok r
  | 0, _, _, ps, hn, _ => absurd hn (by have := exprSizeO_pos ps; omega)
  | n + 1, ctx, doms, [], _, _ => ⟨_, readLoopF_nil n ctx doms⟩
  | n + 1, ctx, [], p :: ps, _, _ => ⟨_, readLoopF_nil_cons n ctx p ps⟩
  | n + 1, ctx, d :: ds, none :: ps, hn, hs => by
      rw [exprSizeO_none] at hn
      have hs2 : rpSafe ps = true := hs
      obtain ⟨⟨ms, rest⟩, hr⟩ := readLoopF_total n ctx ds ps (by omega) hs2
      exact ⟨(ms, d :: rest), by rw [readLoopF_slice, hr]; rfl⟩
  | n + 1, ctx, d :: ds, some e :: ps, hn, hs => by
      rw [exprSizeO_some] at hn
      have hs2 : (isScalarLit e && rpSafe ps) = true := hs
      rw [Bool.and_eq_true] at hs2
      obtain ⟨eds, ets, he⟩ := scalarLit_total n ctx e hs2.1
        (by have := exprSizeO_pos ps; omega)
      obtain ⟨⟨ms, rest⟩, hr⟩ := readLoopF_total n ctx ds ps
        (by have := exprSize_pos e; omega) hs2.2
      exact ⟨(eds ++ indexCheckMsgs d (some ets) ++ ms, rest),
        by rw [readLoopF_expr, he]; simp only [bind, Except.bind, hr]⟩

end


/-- typeCheckVarOrConstDecl never aborts when the declared type is
tensor syntax and any initializer belongs to a var declaration and is
safe: the declared-type iassert and the constant slack comparison
cannot fire. -/
theorem typeCheckVarOrConstDecl_total (ctx : Ctx) (isConst : Bool)
    (name : String) (ht : HTensorType) (initVal : Option Expr)
    (hinit : match initVal with
             | none => True
             | some e => isConst = false ∧ exprSafe ctx.funcs e = true) :
    ∃ ctx', typeCheckVarOrConstDecl ctx isConst name (.tensorT ht) initVal =
      .ok ctx' := by
  rcases hy : typeCheckVarOrConstDecl ctx isConst name (.tensorT ht) initVal
    with a | ctx2
  · exfalso
    unfold typeCheckVarOrConstDecl at hy
    rw [show getIRType ctx (.tensorT ht) = getTensorIRType ctx ht from rfl]
      at hy
    rcases hg : getTensorIRType ctx ht with ⟨vds, varType⟩
    rw [hg] at hy
    have hvtt : varType = none ∨
        ∃ c0 d0 cv0, varType = some (.tensor c0 d0 cv0) := by
      cases varType with
      | none => exact Or.inl rfl
      | some vt =>
          obtain ⟨c0, d0, cv0, h0⟩ := getTensorIRType_isTensor ctx ht vds vt hg
          exact Or.inr ⟨c0, d0, cv0, by rw [h0]⟩
    cases initVal with
    | none =>
        rcases hvtt with h0 | ⟨c0, d0, cv0, h0⟩ <;> subst h0 <;>
          simp only [bind, Except.bind, pure, Except.pure] at hy <;>
          repeat' split at hy
        all_goals simp_all
    | some e =>
        obtain ⟨hc, hsafe⟩ := hinit
        subst hc
        obtain ⟨⟨eds, t⟩, he⟩ := inferExprF_total (exprSize e + 1)
          (ctx.addDiags vds) e (by omega) (by simpa using hsafe)
        have he2 : inferExpr (ctx.addDiags vds) e = .ok (eds, t) := he
        rcases hvtt with h0 | ⟨c0, d0, cv0, h0⟩ <;> subst h0 <;>
          simp only [bind, Except.bind, pure, Except.pure] at hy <;>
          rw [he2] at hy <;>
          simp only [bind, Except.bind, pure, Except.pure] at hy <;>
          repeat' split at hy
        all_goals simp_all
  · exact ⟨ctx2, rfl⟩

mutual

/-- On a well-formed statement the checker never aborts: diagnostics
are the only failure channel. -/
theorem checkStmt_total : ∀ (s : Stmt) (ctx : Ctx),
    stmtWF ctx.funcs s = true → ∃ ctx', checkStmt s ctx = .ok ctx'
  | .block ss, ctx, hw => by
      rw [stmtWF_block] at hw
      obtain ⟨ctx', h⟩ := checkStmtList_total ss ctx hw
      exact ⟨ctx', by rw [checkStmt_block]; exact h⟩
  | .varDecl isConst name htype none, ctx, hw => by
      rw [stmtWF_varDecl, Bool.and_eq_true] at hw
      obtain ⟨ht, hht⟩ : ∃ ht, htype = .tensorT ht := by
        cases htype with
        | tensorT t => exact ⟨t, rfl⟩
        | elementTy i => exact absurd hw.1 (by simp [isTensorAnn])
        | setTy el eps => exact absurd hw.1 (by simp [isTensorAnn])
        | tupleTy el len => exact absurd hw.1 (by simp [isTensorAnn])
      subst hht
      obtain ⟨ctx', h⟩ :=
        typeCheckVarOrConstDecl_total ctx isConst name ht none trivial
      exact ⟨ctx', by rw [checkStmt_varDecl]; exact h⟩
  | .varDecl isConst name htype (some e), ctx, hw => by
      rw [stmtWF_varDecl, Bool.and_eq_true] at hw
      obtain ⟨ht, hht⟩ : ∃ ht, htype = .tensorT ht := by
        cases htype with
        | tensorT t => exact ⟨t, rfl⟩
        | elementTy i => exact absurd hw.1 (by simp [isTensorAnn])
        | setTy el eps => exact absurd hw.1 (by simp [isTensorAnn])
        | tupleTy el len => exact absurd hw.1 (by simp [isTensorAnn])
      subst hht
      have h3 : (!isConst && exprSafe ctx.funcs e) = true := hw.2
      rw [Bool.and_eq_true, Bool.not_eq_true'] at h3
      obtain ⟨ctx', h⟩ :=
        typeCheckVarOrConstDecl_total ctx isConst name ht (some e) h3
      exact ⟨ctx', by rw [checkStmt_varDecl]; exact h⟩
  | .whileS cond body, ctx, hw => by
      rw [stmtWF_whileS, Bool.and_eq_true] at hw
      obtain ⟨⟨cds, condType⟩, hc⟩ :=
        inferExprF_total (exprSize cond + 1) ctx cond (by omega) hw.1
      have hc2 : inferExpr ctx cond = .ok (cds, condType) := hc
      have hwb : stmtWF ((ctx.addDiags cds).scope).funcs body = true := by
        simpa using hw.2
      obtain ⟨c1, hb⟩ := checkStmt_total body ((ctx.addDiags cds).scope) hwb
      exact ⟨c1.unscope.addDiags (condCheck condType), by
        rw [checkStmt_while, hc2]
        simp only [bind, Except.bind, pure, Except.pure, hb]⟩
  | .ifS cond ifBody none, ctx, hw => by
      rw [stmtWF_ifS_none, Bool.and_true, Bool.and_eq_true] at hw
      obtain ⟨⟨cds, condType⟩, hc⟩ :=
        inferExprF_total (exprSize cond + 1) ctx cond (by omega) hw.1
      have hc2 : inferExpr ctx cond = .ok (cds, condType) := hc
      have hwb : stmtWF ((ctx.addDiags cds).scope).funcs ifBody = true := by
        simpa using hw.2
      obtain ⟨c1, hb⟩ := checkStmt_total ifBody ((ctx.addDiags cds).scope) hwb
      exact ⟨c1.unscope.addDiags (condCheck condType), by
        rw [checkStmt_ifS_none, hc2]
        simp only [bind, Except.bind, pure, Except.pure, hb]⟩
  | .ifS cond ifBody (some eb), ctx, hw => by
      rw [stmtWF_ifS_some, Bool.and_eq_true, Bool.and_eq_true] at hw
      obtain ⟨⟨h1, h2⟩, h3⟩ := hw
      obtain ⟨⟨cds, condType⟩, hc⟩ :=
        inferExprF_total (exprSize cond + 1) ctx cond (by omega) h1
      have hc2 : inferExpr ctx cond = .ok (cds, condType) := hc
      have hwb : stmtWF ((ctx.addDiags cds).scope).funcs ifBody = true := by
        simpa using h2
      obtain ⟨c1, hb⟩ := checkStmt_total ifBody ((ctx.addDiags cds).scope) hwb
      have hf1 := funcs_checkStmt ifBody _ _ hb
      have hwe : stmtWF (c1.unscope.scope).funcs eb = true := by
        simp only [Ctx.funcs_scope, Ctx.funcs_unscope]
        rw [hf1]
        simpa using h3
      obtain ⟨c2, hb2⟩ := checkStmt_total eb c1.unscope.scope hwe
      exact ⟨c2.unscope.addDiags (condCheck condType), by
        rw [checkStmt_ifS_some, hc2]
        simp only [bind, Except.bind, pure, Except.pure, hb, hb2]⟩
  | .forS loopVar lower upper body, ctx, hw => by
      rw [stmtWF_forS, Bool.and_eq_true, Bool.and_eq_true] at hw
      obtain ⟨⟨hlo, hhi⟩, hbw⟩ := hw
      obtain ⟨⟨lds, lowerType⟩, hl⟩ :=
        inferExprF_total (exprSize lower + 1) ctx.scope lower (by omega)
          (by simpa using hlo)
      obtain ⟨⟨uds, upperType⟩, hu⟩ :=
        inferExprF_total (exprSize upper + 1) ctx.scope upper (by omega)
          (by simpa using hhi)
      have hl2 : inferExpr ctx.scope lower = .ok (lds, lowerType) := hl
      have hu2 : inferExpr ctx.scope upper = .ok (uds, upperType) := hu
      have hwb : stmtWF (((ctx.scope.addDiags (lds ++ uds ++
          rangeBoundCheck "lower" lowerType ++
          rangeBoundCheck "upper" upperType)).addSymbol loopVar
          ⟨some intType, true, false⟩).funcs) body = true := by
        simpa using hbw
      obtain ⟨c1, hb⟩ := checkStmt_total body _ hwb
      exact ⟨c1.unscope, by
        rw [checkStmt_forS]
        simp only [bind, Except.bind, pure, Except.pure, hl2, hu2, hb]⟩
  | .printS e, ctx, hw => by
      rw [stmtWF_printS] at hw
      obtain ⟨⟨ds, t⟩, he⟩ :=
        inferExprF_total (exprSize e + 1) ctx e (by omega) hw
      have he2 : inferExpr ctx e = .ok (ds, t) := he
      exact ⟨ctx.addDiags (ds ++ printCheck t), by
        rw [checkStmt_printS, he2]
        simp only [bind, Except.bind, pure, Except.pure]⟩

/-- On a well-formed statement list the block traversal never
aborts. -/
theorem checkStmtList_total : ∀ (ss : List Stmt) (ctx : Ctx),
    stmtWFL ctx.funcs ss = true → ∃ ctx', checkStmtList ss ctx = .ok ctx'
  | [], ctx, _ => ⟨ctx, rfl⟩
  | s :: rest, ctx, hw => by
      rw [stmtWFL_cons, Bool.and_eq_true] at hw
      obtain ⟨c1, h1⟩ := checkStmt_total s ctx hw.1
      have hf := funcs_checkStmt s ctx c1 h1
      obtain ⟨c2, h2⟩ := checkStmtList_total rest c1 (by rw [hf]; exact hw.2)
      exact ⟨c2, by
        rw [checkStmtList_cons, h1]
        simp only [bind, Except.bind]
        exact h2⟩

end

/-! ## Claim theorems -/

/-- C7: the claim asserts that a const declaration is accepted whenever
the declared and initializer outer-dimension lists agree after
discarding leading and trailing unit dimensions, and in particular that
declaring a constant of type tensor[3,1](float) with the initializer
[[1.0,2.0,3.0]] (outer dimensions [1,3]) is accepted with zero
diagnostics.  The code discards only leading unit dimensions, and on
this very input its std::equal comparison walks the two-element
remainder [3,1] of the declared dimensions against the one-element
remainder [3] of the initializer dimensions, dereferencing the
initializer iterator past the end of the vector: an out-of-bounds read
(undefined behaviour), not an acceptance. -/
theorem const_slack_comparison_reads_out_of_bounds :
    checkStmt
      (.varDecl true "v"
        (.tensorT (.ndtensor [.range 3, .range 1] (.scalar .float) false))
        (some (.denseLit (.ndT (.floatVec 3 false) []))))
      ⟨[], [], [[]], []⟩ = .error (.slackOutOfRange "v") ∧
    stdEqualRes [.range 3, .range 1] [.range 3] = none :=
  ⟨rfl, rfl⟩

/-- C6 counterexample: the claim asserts the declared symbol is
registered before the initializer is type-checked, so that a
self-reference resolves to the newly declared symbol.  On
`var x : float = x` in an empty scope the checker instead reports the
self-reference as an undeclared variable, because registration happens
only after the initializer is inferred. -/
theorem varDecl_self_reference_reported_undeclared :
    checkStmt (.varDecl false "x" (.tensorT (.scalar .float)) (some (.varE "x")))
      ⟨[], [], [[]], []⟩ =
    .ok ⟨[], [], [[("x", ⟨some floatType, true, true⟩)]],
         [undeclaredMsg "variable or constant" "x"]⟩ := rfl

/-- C6 amended: in typeCheckVarOrConstDecl the initializer is
type-checked before the symbol is registered, so a self-reference in
the initializer resolves to an outer binding or is reported undeclared;
registration then happens with read-write access for var and read-only
access for const. -/
theorem varDecl_registration_follows_initializer (isConst : Bool) (x : String)
    (ctx : Ctx) (h1 : ctx.hasSymbol x = false) (h2 : ctx.scopes ≠ []) :
    ∃ ctx',
      checkStmt (.varDecl isConst x (.tensorT (.scalar .float)) (some (.varE x)))
          ctx = .ok ctx' ∧
      ctx'.diags = ctx.diags ++ [undeclaredMsg "variable or constant" x] ∧
      ctx'.getSymbol x = some ⟨some floatType, true, !isConst⟩ := by
  have hinit : inferExpr (ctx.addDiags []) (.varE x) =
      .ok ([undeclaredMsg "variable or constant" x], none) := by
    rw [inferExpr_varE]
    have hx : (ctx.addDiags []).hasSymbol x = false := by
      simpa [Ctx.hasSymbol, Ctx.addDiags] using h1
    rw [hx]
    rfl
  have hloc : ((ctx.addDiags []).addDiags
      [undeclaredMsg "variable or constant" x]).hasSymbolLocal x = false :=
    hasSymbolLocal_false _ x (by simpa [Ctx.hasSymbol, Ctx.addDiags] using h1)
  have hstep :
      checkStmt (.varDecl isConst x (.tensorT (.scalar .float)) (some (.varE x))) ctx =
      .ok (((ctx.addDiags []).addDiags [undeclaredMsg "variable or constant" x]).addSymbol x
        ⟨some floatType, true, !isConst⟩) := by
    show typeCheckVarOrConstDecl ctx isConst x (.tensorT (.scalar .float))
        (some (.varE x)) = _
    rw [typeCheckVarOrConstDecl]
    simp only [getIRType, getTensorIRType, hinit, bind, Except.bind, pure,
      Except.pure, hloc, Bool.false_and, Bool.false_eq_true, if_false]
    rw [if_pos trivial]
  refine ⟨_, hstep, ?_, ?_⟩
  · simp
  · rw [getSymbol_addSymbol_self]
    simpa [Ctx.addDiags] using h2

/-- C4 counterexample: at a comparison over two order-1 tensor literal
operands the sub-check fails (two diagnostics are reported), yet the
synthesized type attribute is not left undefined: a boolean type is
published to the parent. -/
theorem eq_publishes_type_despite_failed_subcheck :
    inferExpr ⟨[], [], [[]], []⟩
        (.eqE [.denseLit (.intVec 2 false), .denseLit (.intVec 2 false)]) =
      .ok (["comparison operations can only be performed on scalar values, not values of type tensor(int,[[2]],false)",
            "comparison operations can only be performed on scalar values, not values of type tensor(int,[[2]],false)"],
           some [booleanType]) ∧
    (some [booleanType] : Option (List IRType)) ≠ none :=
  ⟨rfl, by simp⟩

/-- C4 amended: comparison and boolean operators publish a boolean type
even when their operand checks fail, and matrix-times-row-vector
publishes the matrix-vector product type alongside its diagnostic; at
sub-checks where the checker returns early (such as a multiplication
dimension mismatch) the synthesized type attribute is left undefined. -/
theorem failed_subcheck_type_publication :
    (∀ (ctx : Ctx) (ops : List Expr) (ds : List String) (r : Option (List IRType)),
        inferExpr ctx (.eqE ops) = .ok (ds, r) → r = some [booleanType]) ∧
    (∀ (ctx : Ctx) (l r : Expr) (ds : List String) (res : Option (List IRType)),
        inferExpr ctx (.andE l r) = .ok (ds, res) → res = some [booleanType]) ∧
    (∀ (c : ScalarKind) (a0 a1 : IndexDomain) (lcv : Bool), c ≠ .bool →
        visitMulTypes (some [.tensor c [a0, a1] lcv]) (some [.tensor c [a1] false]) =
          (["Cannot multiply a matrix by a row vector"], some [.tensor c [a0] true])) ∧
    (∀ (c : ScalarKind) (a0 a1 b : IndexDomain) (lcv rcv : Bool),
        c ≠ .bool → a1 ≠ b →
        ∃ m, visitMulTypes (some [.tensor c [a0, a1] lcv])
            (some [.tensor c [b] rcv]) = ([m], none)) := by
  refine ⟨?_, ?_, ?_, ?_⟩
  · intro ctx ops ds r h
    rw [inferExpr_eqE] at h
    rcases he : eqLoop ctx ops none with _ | ⟨ds', rep⟩
    · rw [he] at h; cases h
    · rw [he] at h
      simp only [bind, Except.bind, Except.ok.injEq, Prod.mk.injEq] at h
      exact h.2.symm
  · intro ctx l r ds res h
    rw [inferExpr_andE] at h
    rcases hl : inferExpr ctx l with _ | ⟨lds, lt⟩
    · rw [hl] at h; cases h
    · rw [hl] at h
      rcases hr : inferExpr ctx r with _ | ⟨rds, rt⟩
      · rw [hr] at h; cases h
      · rw [hr] at h
        simp only [bind, Except.bind, typeCheckBinaryBoolean, Except.ok.injEq,
          Prod.mk.injEq] at h
        exact h.2.symm
  · intro c a0 a1 lcv hc
    have hbc : (c == ScalarKind.bool) = false := by
      simp [beq_eq_false_iff_ne, hc]
    simp [visitMulTypes, asSingleNumericTensor, badNumericOperand, hbc]
  · intro c a0 a1 b lcv rcv hc hab
    have hbc : (c == ScalarKind.bool) = false := by
      simp [beq_eq_false_iff_ne, hc]
    refine ⟨"cannot multiply a matrix of type "
      ++ typeStringOpt (some [.tensor c [a0, a1] lcv])
      ++ " by a vector of type " ++ typeStringOpt (some [.tensor c [b] rcv]), ?_⟩
    simp [visitMulTypes, asSingleNumericTensor, badNumericOperand, hbc, hab]

/-- C10: applying the transpose typing rule twice to a tensor of order
at most two (with the column-vector flag only at order one) restores
the original type, and a row vector times a column vector of the same
dimension infers an order-0 scalar result of the common component
type. -/
theorem transpose_involution_and_row_times_column :
    (∀ (c : ScalarKind) (d : List IndexDomain) (cv : Bool),
        d.length ≤ 2 → (d.length = 2 → cv = false) →
        ∃ t1, visitTransposeTypes (some [.tensor c d cv]) = ([], some [t1]) ∧
          visitTransposeTypes (some [t1]) = ([], some [.tensor c d cv])) ∧
    (∀ (c : ScalarKind) (a : IndexDomain), c ≠ .bool →
        visitMulTypes (some [.tensor c [a] false]) (some [.tensor c [a] true]) =
          ([], some [.tensor c [] false])) := by
  constructor
  · intro c d cv h1 h2
    match d, h1 with
    | [], _ => exact ⟨.tensor c [] cv, rfl, rfl⟩
    | [d0], _ =>
        refine ⟨.tensor c [d0] (!cv), rfl, ?_⟩
        simp [visitTransposeTypes]
    | [d0, d1], _ =>
        rw [h2 rfl]
        exact ⟨.tensor c [d1, d0] false, rfl, rfl⟩
  · intro c a hc
    have hbc : (c == ScalarKind.bool) = false := by
      simp [beq_eq_false_iff_ne, hc]
    simp [visitMulTypes, asSingleNumericTensor, badNumericOperand, hbc]

/-- C2: the multiplication typing rule follows the shape table: a
scalar (order-0) operand yields the other operand's type (checked
before any order restriction); order 1 times order 1 requires exactly
one column-vector operand and equal dimensions, column-times-row
yielding the order-2 tensor with dims (left, right); order 2 times
order 1 requires matching inner dimensions and a column-vector right
operand, yielding a column vector of the leading left dimension; order
1 times order 2 requires matching dimensions and a row-vector left
operand, yielding a row vector of the trailing right dimension; order 2
times order 2 requires matching inner dimensions, yielding dims
(L.dim[0], R.dim[1]); remaining combinations, which contain an operand
of order 3 or greater, are rejected with a diagnostic. -/
theorem mulExpr_shape_table :
    (∀ (c : ScalarKind) (rd : List IndexDomain) (lcv rcv : Bool), c ≠ .bool →
        visitMulTypes (some [.tensor c [] lcv]) (some [.tensor c rd rcv]) =
          ([], some [.tensor c rd rcv])) ∧
    (∀ (c : ScalarKind) (ld : List IndexDomain) (lcv rcv : Bool), c ≠ .bool →
        ld ≠ [] →
        visitMulTypes (some [.tensor c ld lcv]) (some [.tensor c [] rcv]) =
          ([], some [.tensor c ld lcv])) ∧
    (∀ (c : ScalarKind) (a : IndexDomain), c ≠ .bool →
        visitMulTypes (some [.tensor c [a] true]) (some [.tensor c [a] false]) =
          ([], some [.tensor c [a, a] false])) ∧
    (∀ (c : ScalarKind) (a b : IndexDomain) (cv : Bool), c ≠ .bool →
        ∃ m, visitMulTypes (some [.tensor c [a] cv]) (some [.tensor c [b] cv]) =
          ([m], none)) ∧
    (∀ (c : ScalarKind) (a b : IndexDomain) (lcv : Bool), c ≠ .bool → a ≠ b →
        ∃ m, visitMulTypes (some [.tensor c [a] lcv])
            (some [.tensor c [b] (!lcv)]) = ([m], none)) ∧
    (∀ (c : ScalarKind) (a0 a1 : IndexDomain) (lcv : Bool), c ≠ .bool →
        visitMulTypes (some [.tensor c [a0, a1] lcv]) (some [.tensor c [a1] true]) =
          ([], some [.tensor c [a0] true])) ∧
    (∀ (c : ScalarKind) (a0 a1 b : IndexDomain) (lcv rcv : Bool),
        c ≠ .bool → a1 ≠ b →
        ∃ m, visitMulTypes (some [.tensor c [a0, a1] lcv])
            (some [.tensor c [b] rcv]) = ([m], none)) ∧
    (∀ (c : ScalarKind) (b0 b1 : IndexDomain) (rcv : Bool), c ≠ .bool →
        visitMulTypes (some [.tensor c [b0] false]) (some [.tensor c [b0, b1] rcv]) =
          ([], some [.tensor c [b1] false])) ∧
    (∀ (c : ScalarKind) (a b0 b1 : IndexDomain) (lcv rcv : Bool),
        c ≠ .bool → a ≠ b0 →
        ∃ m, visitMulTypes (some [.tensor c [a] lcv])
            (some [.tensor c [b0, b1] rcv]) = ([m], none)) ∧
    (∀ (c : ScalarKind) (a0 a1 b1 : IndexDomain) (lcv rcv : Bool), c ≠ .bool →
        visitMulTypes (some [.tensor c [a0, a1] lcv])
            (some [.tensor c [a1, b1] rcv]) =
          ([], some [.tensor c [a0, b1] false])) ∧
    (∀ (c : ScalarKind) (a0 a1 b0 b1 : IndexDomain) (lcv rcv : Bool),
        c ≠ .bool → a1 ≠ b0 →
        ∃ m, visitMulTypes (some [.tensor c [a0, a1] lcv])
            (some [.tensor c [b0, b1] rcv]) = ([m], none)) ∧
    (∀ (c : ScalarKind) (ld rd : List IndexDomain) (lcv rcv : Bool),
        c ≠ .bool → 1 ≤ ld.length → 1 ≤ rd.length →
        (3 ≤ ld.length ∨ 3 ≤ rd.length) →
        visitMulTypes (some [.tensor c ld lcv]) (some [.tensor c rd rcv]) =
          (["cannot multiply tensors of order 3 or greater using *"], none)) := by
  refine ⟨?_, ?_, ?_, ?_, ?_, ?_, ?_, ?_, ?_, ?_, ?_, ?_⟩
  · intro c rd lcv rcv hc
    have hbc : (c == ScalarKind.bool) = false := by
      simp [beq_eq_false_iff_ne, hc]
    simp [visitMulTypes, asSingleNumericTensor, badNumericOperand, hbc]
  · intro c ld lcv rcv hc hld
    have hbc : (c == ScalarKind.bool) = false := by
      simp [beq_eq_false_iff_ne, hc]
    have e0 : (ld.length == 0) = false :=
      beq_eq_false_iff_ne.mpr (fun h => hld (List.length_eq_zero.mp h))
    have hpos : 0 < ld.length := List.length_pos.mpr hld
    simp [visitMulTypes, asSingleNumericTensor, badNumericOperand, hbc, e0, hpos]
  · intro c a hc
    have hbc : (c == ScalarKind.bool) = false := by
      simp [beq_eq_false_iff_ne, hc]
    simp [visitMulTypes, asSingleNumericTensor, badNumericOperand, hbc]
  · intro c a b cv hc
    have hbc : (c == ScalarKind.bool) = false := by
      simp [beq_eq_false_iff_ne, hc]
    cases cv with
    | true =>
        exact ⟨"cannot multiply two column vectors", by
          simp [visitMulTypes, asSingleNumericTensor, badNumericOperand, hbc]⟩
    | false =>
        exact ⟨"cannot multiply two row vectors", by
          simp [visitMulTypes, asSingleNumericTensor, badNumericOperand, hbc]⟩
  · intro c a b lcv hc hab
    have hbc : (c == ScalarKind.bool) = false := by
      simp [beq_eq_false_iff_ne, hc]
    refine ⟨"cannot multiply vectors of type "
      ++ typeStringOpt (some [.tensor c [a] lcv])
      ++ " and type " ++ typeStringOpt (some [.tensor c [b] (!lcv)]), ?_⟩
    cases lcv <;>
      simp [visitMulTypes, asSingleNumericTensor, badNumericOperand, hbc, hab]
  · intro c a0 a1 lcv hc
    have hbc : (c == ScalarKind.bool) = false := by
      simp [beq_eq_false_iff_ne, hc]
    simp [visitMulTypes, asSingleNumericTensor, badNumericOperand, hbc]
  · intro c a0 a1 b lcv rcv hc hab
    have hbc : (c == ScalarKind.bool) = false := by
      simp [beq_eq_false_iff_ne, hc]
    refine ⟨"cannot multiply a matrix of type "
      ++ typeStringOpt (some [.tensor c [a0, a1] lcv])
      ++ " by a vector of type " ++ typeStringOpt (some [.tensor c [b] rcv]), ?_⟩
    simp [visitMulTypes, asSingleNumericTensor, badNumericOperand, hbc, hab]
  · intro c b0 b1 rcv hc
    have hbc : (c == ScalarKind.bool) = false := by
      simp [beq_eq_false_iff_ne, hc]
    simp [visitMulTypes, asSingleNumericTensor, badNumericOperand, hbc]
  · intro c a b0 b1 lcv rcv hc hab
    have hbc : (c == ScalarKind.bool) = false := by
      simp [beq_eq_false_iff_ne, hc]
    refine ⟨"cannot multiply a vector of type "
      ++ typeStringOpt (some [.tensor c [a] lcv])
      ++ " by a matrix of type " ++ typeStringOpt (some [.tensor c [b0, b1] rcv]), ?_⟩
    simp [visitMulTypes, asSingleNumericTensor, badNumericOperand, hbc, hab]
  · intro c a0 a1 b1 lcv rcv hc
    have hbc : (c == ScalarKind.bool) = false := by
      simp [beq_eq_false_iff_ne, hc]
    simp [visitMulTypes, asSingleNumericTensor, badNumericOperand, hbc]
  · intro c a0 a1 b0 b1 lcv rcv hc hab
    have hbc : (c == ScalarKind.bool) = false := by
      simp [beq_eq_false_iff_ne, hc]
    refine ⟨"cannot multiply matrices of type "
      ++ typeStringOpt (some [.tensor c [a0, a1] lcv])
      ++ " and type " ++ typeStringOpt (some [.tensor c [b0, b1] rcv]), ?_⟩
    simp [visitMulTypes, asSingleNumericTensor, badNumericOperand, hbc, hab]
  · intro c ld rd lcv rcv hc h1 h2 h3
    have hbc : (c == ScalarKind.bool) = false := by
      simp [beq_eq_false_iff_ne, hc]
    have ea : (ld.length == 0) = false := beq_eq_false_iff_ne.mpr (by omega)
    have eb : (rd.length == 0) = false := beq_eq_false_iff_ne.mpr (by omega)
    rcases h3 with h3 | h3
    · have ec : (ld.length == 1) = false := beq_eq_false_iff_ne.mpr (by omega)
      have ed : (ld.length == 2) = false := beq_eq_false_iff_ne.mpr (by omega)
      simp [visitMulTypes, asSingleNumericTensor, badNumericOperand, hbc,
        ea, eb, ec, ed]
    · have ec : (rd.length == 1) = false := beq_eq_false_iff_ne.mpr (by omega)
      have ed : (rd.length == 2) = false := beq_eq_false_iff_ne.mpr (by omega)
      simp [visitMulTypes, asSingleNumericTensor, badNumericOperand, hbc,
        ea, eb, ec, ed]

/-- Witness for C2: a 2x3 float matrix times a length-3 column vector
is inferred as a length-2 column vector with no diagnostics. -/
theorem mulExpr_shape_table_witness :
    visitMulTypes (some [.tensor .float [[.range 2], [.range 3]] false])
        (some [.tensor .float [[.range 3]] true]) =
      ([], some [.tensor .float [[.range 2]] true]) :=
  mulExpr_shape_table.2.2.2.2.2.1 .float [.range 2] [.range 3] false (by decide)

/-- C1 counterexample: the claim asserts the neighbor tuple is appended
whenever the target set's endpoint list is non-empty.  With assembly
function g of arity one mapped over a set springs whose element type is
Spring with endpoints (Point, Point), the checker appends only the
element actual — the synthesized count already matches the arity — and
accepts the map with zero diagnostics, while the claim's actuals list
would have two entries and fail the arity comparison. -/
theorem map_neighbor_tuple_skipped_on_arity_match :
    inferExpr ⟨[("Spring", []), ("Point", [])],
        [⟨"g", [("s", .elementT "Spring")], [("A", .tensor .float [] false)],
          false⟩],
        [[("springs", ⟨some (.setT "Spring" ["Point", "Point"]), true, true⟩)]],
        []⟩
      (.mapE "g" "springs" []) = .ok ([], some [.tensor .float [] false]) ∧
    mapSynthesizedActuals [] "Spring" ["Point", "Point"] 1 =
      [some (.elementT "Spring")] ∧
    mapSynthesizedActualsClaim [] "Spring" ["Point", "Point"] =
      [some (.elementT "Spring"), some (.tupleT "Point" 2)] :=
  ⟨rfl, rfl, rfl⟩

/-- C1 amended: for a map whose assembly function is declared and whose
target resolves to a set-typed symbol, the checker synthesizes the
actuals and only then checks arity and pairwise argument types; the
synthesized list appends an element of the target's element type, and
appends the neighbor tuple (first endpoint's element type, length the
endpoint count) only when the endpoint list is non-empty AND the count
so far differs from the assembly function's arity — the code and the
claim's unconditional-append reading agree exactly when the endpoint
list is empty or the element actual alone does not already match the
arity. -/
theorem map_neighbor_tuple_appended_on_arity_mismatch :
    (∀ (ctx : Ctx) (fname tname : String) (partials : List Expr) (f : FuncSig)
       (en : String) (eps : List String) (rd wr : Bool) (pds : List String)
       (actuals0 : List (Option IRType)),
       ctx.getFunction fname = some f →
       ctx.hasSymbol tname = true →
       ctx.getSymbol tname = some ⟨some (.setT en eps), rd, wr⟩ →
       mapPartialsLoop ctx partials = .ok (pds, actuals0) →
       inferExpr ctx (.mapE fname tname partials) =
         .ok (pds ++ visitMapResolved f en eps actuals0,
              some (f.results.map (·.2)))) ∧
    (∀ (actuals0 : List (Option IRType)) (en : String) (eps : List String)
       (nargs : Nat),
       (mapSynthesizedActuals actuals0 en eps nargs =
         mapSynthesizedActualsClaim actuals0 en eps) ↔
       (eps.length = 0 ∨ actuals0.length + 1 ≠ nargs)) := by
  constructor
  · intro ctx fname tname partials f en eps rd wr pds actuals0 hf hs hy hp
    rw [inferExpr_mapE, hp]
    simp [bind, Except.bind, hf, hs, hy]
  · intro actuals0 en eps nargs
    constructor
    · intro h
      by_contra hcon
      push_neg at hcon
      obtain ⟨h1, h2⟩ := hcon
      have hb : ((actuals0 ++ [some (IRType.elementT en)]).length != nargs)
          = false := by
        simp [bne_eq_false_iff_eq, h2]
      have hlen : (mapSynthesizedActuals actuals0 en eps nargs).length =
          (mapSynthesizedActualsClaim actuals0 en eps).length := by rw [h]
      have hgt : 0 < eps.length := Nat.pos_of_ne_zero h1
      simp [mapSynthesizedActuals, mapSynthesizedActualsClaim, hb, hgt] at hlen
      rw [if_pos h2] at hlen
      simp at hlen
    · intro h
      rcases h with h | h
      · simp [mapSynthesizedActuals, mapSynthesizedActualsClaim, h]
      · have hb : ((actuals0 ++ [some (IRType.elementT en)]).length != nargs)
            = true := by
          simp [bne_iff_ne]
          omega
        by_cases he : eps.length = 0
        · simp [mapSynthesizedActuals, mapSynthesizedActualsClaim, he]
        · have hgt : 0 < eps.length := Nat.pos_of_ne_zero he
          simp [mapSynthesizedActuals, mapSynthesizedActualsClaim, hb, hgt]
          omega

/-- Witness for the C1 amended theorem: mapping an arity-two assembly
function h over the same springs set appends both the element and the
neighbor tuple, and the pairwise checks accept. -/
theorem map_neighbor_tuple_appended_witness :
    inferExpr ⟨[("Spring", []), ("Point", [])],
        [⟨"h", [("s", .elementT "Spring"), ("nbr", .tupleT "Point" 2)],
          [("A", .tensor .float [] false)], false⟩],
        [[("springs", ⟨some (.setT "Spring" ["Point", "Point"]), true, true⟩)]],
        []⟩
      (.mapE "h" "springs" []) =
      .ok ([] ++ visitMapResolved
          ⟨"h", [("s", .elementT "Spring"), ("nbr", .tupleT "Point" 2)],
            [("A", .tensor .float [] false)], false⟩ "Spring" ["Point", "Point"]
          [],
        some [.tensor .float [] false]) ∧
    (mapSynthesizedActuals [] "Spring" ["Point", "Point"] 2 =
      mapSynthesizedActualsClaim [] "Spring" ["Point", "Point"]) := by
  constructor
  · exact map_neighbor_tuple_appended_on_arity_mismatch.1
      ⟨[("Spring", []), ("Point", [])],
        [⟨"h", [("s", .elementT "Spring"), ("nbr", .tupleT "Point" 2)],
          [("A", .tensor .float [] false)], false⟩],
        [[("springs", ⟨some (.setT "Spring" ["Point", "Point"]), true, true⟩)]],
        []⟩
      "h" "springs" []
      ⟨"h", [("s", .elementT "Spring"), ("nbr", .tupleT "Point" 2)],
        [("A", .tensor .float [] false)], false⟩
      "Spring" ["Point", "Point"] true true [] [] rfl rfl rfl rfl
  · exact (map_neighbor_tuple_appended_on_arity_mismatch.2
      [] "Spring" ["Point", "Point"] 2).mpr (by decide)

/-- C5: for a tensor read whose base publishes a single tensor type and
whose index count matches the outer dimension count, the published
result dimensions are exactly the axes indexed by slices, in order; the
result is flagged a column vector exactly when one axis survives and
the last index is a non-slice, and when no axis survives the published
type is the tensor's block type. -/
theorem tensorRead_result (ctx : Ctx) (base : Expr)
    (indices : List (Option Expr)) (bds ms : List String) (c : ScalarKind)
    (dims surv : List IndexDomain) (cv : Bool)
    (hb : inferExpr ctx base = .ok (bds, some [.tensor c dims cv]))
    (hlen : dims.length = indices.length)
    (hr : readLoop ctx dims indices = .ok (ms, surv)) :
    inferExpr ctx (.tensorRead base indices) =
      .ok (bds ++ ms,
        if (sliceSelect dims indices).isEmpty then some [getBlockType c dims]
        else some [.tensor c (sliceSelect dims indices)
          ((sliceSelect dims indices).length == 1 &&
            !(lastIsSlice indices))]) := by
  have hss : surv = sliceSelect dims indices :=
    readLoop_sliceSelect ctx dims indices ms surv hr
  have hlb : (dims.length != indices.length) = false := by
    simp [hlen]
  rw [inferExpr_tensorRead, hb]
  simp only [Except.bind]
  simp only [List.length_cons, List.length_nil, List.headD]
  rw [hlb]
  simp only [Bool.false_eq_true, if_false, hr, Except.bind]
  rw [hss]
  rfl

/-- Witness for C5: reading A(:, 0) from a 2x3 float matrix publishes
the length-2 column vector of the surviving first axis. -/
theorem tensorRead_result_witness :
    inferExpr ⟨[], [],
        [[("A", ⟨some (.tensor .float [[.range 2], [.range 3]] false),
          true, true⟩)]], []⟩
        (.tensorRead (.varE "A") [none, some (.intLit 0)]) =
      .ok ([] ++ [],
        if (sliceSelect [[.range 2], [.range 3]]
            [none, some (.intLit 0)]).isEmpty
        then some [getBlockType .float [[.range 2], [.range 3]]]
        else some [.tensor .float
          (sliceSelect [[.range 2], [.range 3]] [none, some (.intLit 0)])
          ((sliceSelect [[.range 2], [.range 3]]
              [none, some (.intLit 0)]).length == 1 &&
            !(lastIsSlice [none, some (.intLit 0)]))]) :=
  tensorRead_result
    ⟨[], [],
      [[("A", ⟨some (.tensor .float [[.range 2], [.range 3]] false),
        true, true⟩)]], []⟩
    (.varE "A") [none, some (.intLit 0)] [] [] .float
    [[.range 2], [.range 3]] [[.range 2]] false rfl rfl rfl

/-- C8: a nested dense literal of M rows, each inferring the same
scalar kind and (inner-first) shape S, infers the shape S with M
appended as the new outermost dimension; rows of mixed int/float kinds
raise the TypeError exception and rows of differing shapes raise the
DimError exception, and the checker converts a raised exception into a
single diagnostic at the literal node, publishing no type. -/
theorem dense_literal_shape_inference :
    (∀ (first : DLit) (rest : List DLit) (kd : Option DKind) (S : List Nat),
        getDenseTensorType first = .ok ⟨kd, S⟩ →
        (∀ l ∈ rest, getDenseTensorType l = .ok ⟨kd, S⟩) →
        getDenseTensorType (.ndT first rest) =
          .ok ⟨kd, S ++ [rest.length + 1]⟩) ∧
    (∀ (first l : DLit) (ls : List DLit) (kd kd' : Option DKind)
       (S S' : List Nat),
        getDenseTensorType first = .ok ⟨kd, S⟩ →
        getDenseTensorType l = .ok ⟨kd', S'⟩ → kd ≠ kd' →
        getDenseTensorType (.ndT first (l :: ls)) = .error .typeErr) ∧
    (∀ (first l : DLit) (ls : List DLit) (kd : Option DKind)
       (S S' : List Nat),
        getDenseTensorType first = .ok ⟨kd, S⟩ →
        getDenseTensorType l = .ok ⟨kd, S'⟩ → S ≠ S' →
        getDenseTensorType (.ndT first (l :: ls)) = .error .dimErr) ∧
    (∀ (lit : DLit) (e : LitErr),
        getDenseTensorType lit = .error e →
        typeCheckDenseTensorLiteral lit = ([litErrWhat e], none)) := by
  refine ⟨?_, ?_, ?_, ?_⟩
  · intro first rest kd S hfirst hall
    rw [getDenseTensorType, hfirst]
    simp only [bind, Except.bind, addDimension]
    have := mergeRows_const kd S rest 1 hall
    rw [Nat.add_comm 1 rest.length] at this
    exact this
  · intro first l ls kd kd2 S S2 hfirst hl hk
    rw [getDenseTensorType, hfirst]
    simp only [bind, Except.bind, addDimension]
    rw [mergeRows, hl]
    have hm : mergeDT ⟨kd, S ++ [1]⟩ ⟨kd2, S2⟩ = .error .typeErr := by
      simp [mergeDT, bne_iff_ne, hk]
    simp only [bind, Except.bind, hm]
  · intro first l ls kd S S2 hfirst hl hS
    rw [getDenseTensorType, hfirst]
    simp only [bind, Except.bind, addDimension]
    rw [mergeRows, hl]
    have hm : mergeDT ⟨kd, S ++ [1]⟩ ⟨kd, S2⟩ = .error .dimErr := by
      by_cases hlen2 : S.length = S2.length
      · simp [mergeDT, List.dropLast_concat, bne_iff_ne, hS, hlen2]
      · simp [mergeDT, bne_iff_ne, hlen2]
    simp only [bind, Except.bind, hm]
  · intro lit e h
    simp [typeCheckDenseTensorLiteral, h]

/-- Witness for C8: the literal [[1, 2, 3], [4, 5, 6]] infers the
inner-first shape [3, 2], and a literal mixing an int row with a float
row is reported with the mixed-values diagnostic and no type. -/
theorem dense_literal_shape_inference_witness :
    getDenseTensorType (.ndT (.intVec 3 false) [.intVec 3 false]) =
      .ok ⟨some .int, [3, 2]⟩ ∧
    typeCheckDenseTensorLiteral (.ndT (.intVec 3 false) [.floatVec 3 false]) =
      ([litErrWhat .typeErr], none) := by
  constructor
  · exact dense_literal_shape_inference.1 (.intVec 3 false) [.intVec 3 false]
      (some .int) [3] rfl
      (by intro l hl; rw [List.mem_singleton] at hl; rw [hl]; rfl)
  · exact dense_literal_shape_inference.2.2.2 _ .typeErr
      (dense_literal_shape_inference.2.1 (.intVec 3 false) (.floatVec 3 false)
        [] (some .int) (some .float) [3] [3] rfl rfl (by decide))

/-- C9: the checker's scope discipline — on every successful outcome of
a statement or of a whole program the scope-stack depth is unchanged
(every scope() is matched by an unscope()), and checking a program that
starts from the single global scope ends with the single global
scope. -/
theorem scope_depth_preserved :
    (∀ (s : Stmt) (ctx ctx' : Ctx), checkStmt s ctx = .ok ctx' →
        ctx'.scopes.length = ctx.scopes.length) ∧
    (∀ (ds : List Decl) (ctx ctx' : Ctx), checkProgram ds ctx = .ok ctx' →
        ctx'.scopes.length = ctx.scopes.length) ∧
    (∀ (ds : List Decl) (es : List (String × List (String × IRType)))
       (fs : List FuncSig) (dg : List String) (ctx' : Ctx),
        checkProgram ds ⟨es, fs, [[]], dg⟩ = .ok ctx' →
        ctx'.scopes.length = 1) := by
  refine ⟨scopes_checkStmt, scopes_checkProgram, ?_⟩
  intro ds es fs dg ctx' h
  exact scopes_checkProgram ds ⟨es, fs, [[]], dg⟩ ctx' h

/-- Witness for C9: checking a function declaration with an empty body
from the single global scope ends with the single global scope. -/
theorem scope_depth_preserved_witness :
    (⟨[], [⟨"f", [], [], false⟩], [[]], []⟩ : Ctx).scopes.length = 1 :=
  scope_depth_preserved.2.2 [.funcDecl "f" [] [] (.block [])] [] [] []
    ⟨[], [⟨"f", [], [], false⟩], [[]], []⟩ rfl

/-- C3 counterexample: the claim asserts the checker never throws or
aborts on an internal assertion, with every failure surfacing as a
diagnostic.  A call to an undeclared function trips the
iassert(ctx.containsFunction(...)) guard, and an ill-typed initializer
for a declaration whose declared type is not a tensor trips the
iassert(varType.isTensor()) guard: both abort type checking instead of
producing a diagnostic. -/
theorem undeclared_call_aborts_typechecking :
    inferExpr ⟨[], [], [[]], []⟩ (.callE "f" []) =
      .error (.callUndeclared "f") ∧
    checkStmt (.printS (.callE "f" [])) ⟨[], [], [[]], []⟩ =
      .error (.callUndeclared "f") ∧
    checkStmt (.varDecl false "x" (.elementTy "E") (some .floatLit))
      ⟨[("E", [])], [], [[]], []⟩ = .error (.varInitNonTensor "x") :=
  ⟨rfl, rfl, rfl⟩

/-- C3 amended: the checker can abort on an internal assertion — a call
to an undeclared function, or an ill-typed initializer for a
declaration whose declared type is not tensor syntax.  On safe inputs —
every called function declared, every tensor-read index a slice or a
scalar literal, every declaration annotating a tensor type, and
initialized declarations being vars — the checker never aborts:
accumulated diagnostics are the only failure channel. -/
theorem checker_totality_on_safe_inputs :
    (∀ (ctx : Ctx) (e : Expr), exprSafe ctx.funcs e = true →
        ∃ r, inferExpr ctx e = .ok r) ∧
    (∀ (s : Stmt) (ctx : Ctx), stmtWF ctx.funcs s = true →
        ∃ ctx', checkStmt s ctx = .ok ctx') := by
  constructor
  · intro ctx e hs
    exact inferExprF_total (exprSize e + 1) ctx e (by omega) hs
  · exact checkStmt_total

/-- Witness for C3: with g declared, a call to g type-checks without
aborting, and so does a var declaration initialized by that call. -/
theorem checker_totality_witness :
    (∃ r, inferExpr ⟨[], [⟨"g", [], [("A", intType)], false⟩], [[]], []⟩
        (.callE "g" []) = .ok r) ∧
    (∃ ctx', checkStmt
        (.varDecl false "x" (.tensorT (.scalar .float))
          (some (.callE "g" [])))
        ⟨[], [⟨"g", [], [("A", intType)], false⟩], [[]], []⟩ = .ok ctx') :=
  ⟨checker_totality_on_safe_inputs.1
      ⟨[], [⟨"g", [], [("A", intType)], false⟩], [[]], []⟩
      (.callE "g" []) rfl,
    checker_totality_on_safe_inputs.2
      (.varDecl false "x" (.tensorT (.scalar .float)) (some (.callE "g" [])))
      ⟨[], [⟨"g", [], [("A", intType)], false⟩], [[]], []⟩ rfl⟩

/-- Witness for C4: a 2x3 float matrix times a length-3 row vector is
diagnosed, yet the column-vector product type is still published. -/
theorem failed_subcheck_type_publication_witness :
    visitMulTypes (some [.tensor .float [[.range 2], [.range 3]] false])
        (some [.tensor .float [[.range 3]] false]) =
      (["Cannot multiply a matrix by a row vector"],
       some [.tensor .float [[.range 2]] true]) :=
  failed_subcheck_type_publication.2.2.1 .float [.range 2] [.range 3] false
    (by decide)

/-- Witness for C6: declaring var y : float = y in an empty global
scope reports the self-reference as undeclared and then registers y
read-write. -/
theorem varDecl_registration_follows_initializer_witness :
    ∃ ctx',
      checkStmt (.varDecl false "y" (.tensorT (.scalar .float))
          (some (.varE "y"))) ⟨[], [], [[]], []⟩ = .ok ctx' ∧
      ctx'.diags = ([] : List String) ++
        [undeclaredMsg "variable or constant" "y"] ∧
      ctx'.getSymbol "y" = some ⟨some floatType, true, !false⟩ :=
  varDecl_registration_follows_initializer false "y" ⟨[], [], [[]], []⟩ rfl
    (by simp)

/-- Witness for C10: transposing a 2x3 float matrix twice restores its
type, and a length-5 row vector times a length-5 column vector is an
order-0 float scalar. -/
theorem transpose_involution_witness :
    (∃ t1,
      visitTransposeTypes
          (some [.tensor .float [[.range 2], [.range 3]] false]) =
        ([], some [t1]) ∧
      visitTransposeTypes (some [t1]) =
        ([], some [.tensor .float [[.range 2], [.range 3]] false])) ∧
    visitMulTypes (some [.tensor .float [[.range 5]] false])
        (some [.tensor .float [[.range 5]] true]) =
      ([], some [.tensor .float [] false]) :=
  ⟨transpose_involution_and_row_times_column.1 .float
      [[.range 2], [.range 3]] false (by decide) (fun _ => rfl),
    transpose_involution_and_row_times_column.2 .float [.range 5] (by decide)⟩

end Simit
